import Mathlib

/-!
# PSPF footer codec, packager assembler and launcher readers

A shallow embedding of the Go sources of `pyvider-builder`:

* `go/pkg/pspf/footer.go`            : `Footer`, `CalculateChecksum`, `VerifyChecksum`
* `go/pspf-packager/cmd/pspf.go`     : `BuildAppendedPSPF`
* `go/pspf-packager/cmd/verify.go`   : `readAndVerifyFooter`, the section reads of `verifyCmd`
* `go/pspf-packager/cmd/build.go`    : the signed byte string of `buildCmd`
* `go/pspf-launcher/main.go`         : `readAndVerifyFooter`, `readSection`, `setupEnvironment`, `unTar`

Bytes are natural numbers below 256, byte slices and files are lists of bytes.
Machine integers are natural numbers (or integers) reduced explicitly to
their width where the Go code converts or can overflow.
-/

namespace PSPF

/-- A byte slice (`[]byte`), also the content of a regular file. -/
abbrev Bytes := List Nat

/-! ## Machine integers -/

/-- Conversion `uint64(x)` of a signed 64-bit value. -/
def toUint64 (x : Int) : Nat := (x % 2 ^ 64).toNat

/-- Conversion `int64(x)`: the two's complement reading of the low 64 bits. -/
def toInt64 (x : Int) : Int :=
  if x % 2 ^ 64 < 2 ^ 63 then x % 2 ^ 64 else x % 2 ^ 64 - 2 ^ 64

/-- Addition of `int64` values, `a += int64(n)`, wrapping on overflow. -/
def addInt64 (a b : Int) : Int := toInt64 (a + b)

/-! ## `hash/crc32` (Go standard library): `ChecksumIEEE` -/

namespace crc32

/-- The reversed IEEE polynomial, `crc32.IEEE`. -/
def IEEE : Nat := 0xedb88320

/-- One round of the inner loop of `simplePopulateTable`:
`if crc&1 == 1 { crc = (crc >> 1) ^ poly } else { crc >>= 1 }`. -/
def bitStep (poly crc : Nat) : Nat :=
  if crc &&& 1 = 1 then (crc >>> 1) ^^^ poly else crc >>> 1

/-- Entry `t[i]` of the table built by `simplePopulateTable`: eight rounds
starting from `uint32(i)`. -/
def tableEntry (poly i : Nat) : Nat :=
  (bitStep poly)^[8] i

/-- The loop body of `simpleUpdate`: `crc = tab[byte(crc)^v] ^ (crc >> 8)`. -/
def updateByte (poly crc v : Nat) : Nat :=
  tableEntry poly ((crc % 256) ^^^ v) ^^^ (crc >>> 8)

/-- Function `simpleUpdate(crc, tab, p)`: complement, fold the bytes, complement. -/
def simpleUpdate (crc poly : Nat) (p : Bytes) : Nat :=
  (p.foldl (updateByte poly) (crc ^^^ 0xffffffff)) ^^^ 0xffffffff

/-- Function `crc32.ChecksumIEEE(data)`, which is `update(0, IEEETable, data)`. -/
def ChecksumIEEE (data : Bytes) : Nat := simpleUpdate 0 IEEE data

end crc32

/-! ## `pkg/pspf/footer.go` -/

/-- Constant `Version`. -/
def Version : Nat := 0x0003
/-- Constant `FooterSize`. -/
def FooterSize : Nat := 108
/-- Constant `MagicEOFString`, the bytes of `"!PSPF\x00\x00\x00"`. -/
def MagicEOFString : Bytes := [33, 80, 83, 80, 70, 0, 0, 0]
/-- Constant `InternalFooterMagic`. -/
def InternalFooterMagic : Nat := 0x30505350

/-- The struct `Footer`: twelve `uint64`, two `uint16`, two `uint32`, in
declaration order. -/
structure Footer where
  UvBinaryOffset : Nat
  UvBinarySize : Nat
  PythonInstallTgzOffset : Nat
  PythonInstallTgzSize : Nat
  MetadataTgzOffset : Nat
  MetadataTgzSize : Nat
  PayloadTgzOffset : Nat
  PayloadTgzSize : Nat
  PackageSignatureOffset : Nat
  PackageSignatureSize : Nat
  PublicKeyPEMOffset : Nat
  PublicKeyPEMSize : Nat
  PspfVersion : Nat
  Reserved : Nat
  FooterStructChecksum : Nat
  InternalFooterMagic : Nat
deriving DecidableEq, Repr

/-- Every field lies in the range of its Go type. -/
def Footer.InRange (f : Footer) : Prop :=
  f.UvBinaryOffset < 2 ^ 64 ∧ f.UvBinarySize < 2 ^ 64 ∧
  f.PythonInstallTgzOffset < 2 ^ 64 ∧ f.PythonInstallTgzSize < 2 ^ 64 ∧
  f.MetadataTgzOffset < 2 ^ 64 ∧ f.MetadataTgzSize < 2 ^ 64 ∧
  f.PayloadTgzOffset < 2 ^ 64 ∧ f.PayloadTgzSize < 2 ^ 64 ∧
  f.PackageSignatureOffset < 2 ^ 64 ∧ f.PackageSignatureSize < 2 ^ 64 ∧
  f.PublicKeyPEMOffset < 2 ^ 64 ∧ f.PublicKeyPEMSize < 2 ^ 64 ∧
  f.PspfVersion < 2 ^ 16 ∧ f.Reserved < 2 ^ 16 ∧
  f.FooterStructChecksum < 2 ^ 32 ∧ f.InternalFooterMagic < 2 ^ 32

/-- Errors returned by the Go functions, by kind; `Err.message` renders the
text of the ones whose text is fixed. -/
inductive Err where
  | ioError (msg : String)
  | wrapped (pfx : String) (inner : Err)
  | fileTooSmall
  | invalidInternalMagic
  | footerChecksumMismatch
  | sectionTooLarge (size limit : Nat)
  | readAtEOF (size offset n : Nat)
  | readAtFailed (inner : Err)
  | readShort (n size : Nat)
  | eof
  | unexpectedEOF
  | zipSlip
deriving DecidableEq, Repr

/-- The fixed part of the text of an error. -/
def Err.message : Err → String
  | .ioError msg => msg
  | .wrapped pfx inner => pfx ++ ": " ++ inner.message
  | .fileTooSmall => "file too small"
  | .invalidInternalMagic => "invalid internal magic"
  | .footerChecksumMismatch => "footer checksum mismatch"
  | .sectionTooLarge _ _ => "section size exceeds limit"
  | .readAtEOF _ _ _ => "ReadAt failed: unexpected EOF"
  | .readAtFailed inner => "ReadAt failed: " ++ inner.message
  | .readShort _ _ => "ReadAt read fewer bytes than expected"
  | .eof => "EOF"
  | .unexpectedEOF => "unexpected EOF"
  | .zipSlip => "zip slip detected in tar archive"

/-! ### `encoding/binary` with `binary.LittleEndian` -/

/-- Little-endian encoding of an unsigned integer on `w` bytes
(`PutUint16`, `PutUint32`, `PutUint64` for `w` = 2, 4, 8). -/
def putUint : Nat → Nat → Bytes
  | 0, _ => []
  | w + 1, v => (v % 256) :: putUint w (v / 256)

/-- Little-endian decoding of the first `w` bytes of a slice. -/
def getUint : Nat → Bytes → Nat
  | 0, _ => 0
  | _ + 1, [] => 0
  | w + 1, b :: bs => b + 256 * getUint w bs

/-- The bytes `binary.Write(buf, binary.LittleEndian, footer)` appends: each
field in declaration order on its fixed width. -/
def Footer.encode (f : Footer) : Bytes :=
  putUint 8 f.UvBinaryOffset ++ (putUint 8 f.UvBinarySize ++
  (putUint 8 f.PythonInstallTgzOffset ++ (putUint 8 f.PythonInstallTgzSize ++
  (putUint 8 f.MetadataTgzOffset ++ (putUint 8 f.MetadataTgzSize ++
  (putUint 8 f.PayloadTgzOffset ++ (putUint 8 f.PayloadTgzSize ++
  (putUint 8 f.PackageSignatureOffset ++ (putUint 8 f.PackageSignatureSize ++
  (putUint 8 f.PublicKeyPEMOffset ++ (putUint 8 f.PublicKeyPEMSize ++
  (putUint 2 f.PspfVersion ++ (putUint 2 f.Reserved ++
  (putUint 4 f.FooterStructChecksum ++ putUint 4 f.InternalFooterMagic))))))))))))))

/-- Call `binary.Write(buf, binary.LittleEndian, footer)` on a fresh
`bytes.Buffer`: the buffer content afterwards. Writing a struct of fixed-size
fields to a memory buffer has no failing path. -/
def binaryWrite (f : Footer) : Except Err Bytes := .ok f.encode

/-- The fields `binary.Read` fills from a slice, reading each field in
declaration order on its fixed width. -/
def Footer.decode (b : Bytes) : Footer :=
  { UvBinaryOffset := getUint 8 b
    UvBinarySize := getUint 8 (b.drop 8)
    PythonInstallTgzOffset := getUint 8 (b.drop 16)
    PythonInstallTgzSize := getUint 8 (b.drop 24)
    MetadataTgzOffset := getUint 8 (b.drop 32)
    MetadataTgzSize := getUint 8 (b.drop 40)
    PayloadTgzOffset := getUint 8 (b.drop 48)
    PayloadTgzSize := getUint 8 (b.drop 56)
    PackageSignatureOffset := getUint 8 (b.drop 64)
    PackageSignatureSize := getUint 8 (b.drop 72)
    PublicKeyPEMOffset := getUint 8 (b.drop 80)
    PublicKeyPEMSize := getUint 8 (b.drop 88)
    PspfVersion := getUint 2 (b.drop 96)
    Reserved := getUint 2 (b.drop 98)
    FooterStructChecksum := getUint 4 (b.drop 100)
    InternalFooterMagic := getUint 4 (b.drop 104) }

/-- Call `binary.Read(bytes.NewReader(b), binary.LittleEndian, footer)`: it
fails with `io.ErrUnexpectedEOF` (or `io.EOF`) when the reader holds fewer
than 108 bytes. -/
def binaryRead (b : Bytes) : Except Err Footer :=
  if b.length < FooterSize then .error .unexpectedEOF else .ok (Footer.decode b)

/-- The copy `tempFooter := *f` followed by `tempFooter.FooterStructChecksum = c`
(also the assignment `f.FooterStructChecksum = c` itself). -/
def Footer.withChecksum (f : Footer) (c : Nat) : Footer :=
  { UvBinaryOffset := f.UvBinaryOffset
    UvBinarySize := f.UvBinarySize
    PythonInstallTgzOffset := f.PythonInstallTgzOffset
    PythonInstallTgzSize := f.PythonInstallTgzSize
    MetadataTgzOffset := f.MetadataTgzOffset
    MetadataTgzSize := f.MetadataTgzSize
    PayloadTgzOffset := f.PayloadTgzOffset
    PayloadTgzSize := f.PayloadTgzSize
    PackageSignatureOffset := f.PackageSignatureOffset
    PackageSignatureSize := f.PackageSignatureSize
    PublicKeyPEMOffset := f.PublicKeyPEMOffset
    PublicKeyPEMSize := f.PublicKeyPEMSize
    PspfVersion := f.PspfVersion
    Reserved := f.Reserved
    FooterStructChecksum := c
    InternalFooterMagic := f.InternalFooterMagic }

/-- Method `(*Footer).CalculateChecksum`: the footer after the call, or the
error returned. -/
def Footer.CalculateChecksum (f : Footer) : Except Err Footer :=
  let tempFooter := f.withChecksum 0
  match binaryWrite tempFooter with
  | .error err =>
    .error (.wrapped "failed to write temp footer to buffer for checksumming" err)
  | .ok checksumBuffer =>
    .ok (f.withChecksum (crc32.ChecksumIEEE checksumBuffer))

/-- Method `(*Footer).VerifyChecksum`. -/
def Footer.VerifyChecksum (f : Footer) : Except Err Bool :=
  let storedChecksum := f.FooterStructChecksum
  let tempFooter := f.withChecksum 0
  match binaryWrite tempFooter with
  | .error err =>
    .error (.wrapped "failed to write temp footer to buffer for checksumming" err)
  | .ok checksumBuffer =>
    let calculatedChecksum := crc32.ChecksumIEEE checksumBuffer
    .ok (decide (storedChecksum = calculatedChecksum))

/-! ## Files (`os.File`) -/

/-- Method `(*os.File).ReadAt(b, off)` on a regular file with content `file`
and `len(b) = n`: the bytes read and the error. A negative offset is an
error; fewer than `n` bytes before the end of the file give `io.EOF`. -/
def ReadAt (file : Bytes) (n : Nat) (off : Int) : Bytes × Option Err :=
  if off < 0 then ([], some (.ioError "negative offset"))
  else
    let data := (file.drop off.toNat).take n
    if data.length < n then (data, some .eof) else (data, none)

/-- What the operating system does with the writes to the output file:
`openErr` is the error of `os.OpenFile`, if any; `writeFault k = some m`
makes the `k`-th write (counted from 0) accept only `m` bytes and return an
error, `none` lets it write everything. -/
structure OutputDevice where
  openErr : Option Err
  writeFault : Nat → Option Nat

/-- A device on which opening and every write succeed. -/
def OutputDevice.healthy : OutputDevice := { openErr := none, writeFault := fun _ => none }

/-- Method `(*os.File).Write(b)` on a file opened for writing whose content so
far is `file`: the new content, the count `n` and the error. -/
def osWrite (fault : Option Nat) (file b : Bytes) : Bytes × Nat × Option Err :=
  match fault with
  | none => (file ++ b, b.length, none)
  | some m => (file ++ b.take m, (b.take m).length, some (.ioError "write failed"))

/-! ## `pspf-packager/cmd/pspf.go` -/

namespace Packager

/-- Function `BuildAppendedPSPF`: the returned error (`none` for `nil`) and the
content of the output file afterwards. -/
def BuildAppendedPSPF (dev : OutputDevice)
    (launcherBytes uvBinBytes pythonTgzBytes metadataTgzBytes payloadTgzBytes
      signatureBytes publicKeyPEMBytes : Bytes) : Option Err × Bytes :=
  match dev.openErr with
  | some err => (some err, [])
  | none =>
  let currentOffset : Int := 0
  match osWrite (dev.writeFault 0) [] launcherBytes with
  | (out, _, some err) => (some err, out)
  | (out, n, none) =>
  let currentOffset := addInt64 currentOffset (toInt64 n)
  let uvBinaryOffset := currentOffset
  match osWrite (dev.writeFault 1) out uvBinBytes with
  | (out, _, some err) => (some err, out)
  | (out, n, none) =>
  let currentOffset := addInt64 currentOffset (toInt64 n)
  let pythonInstallTgzOffset := currentOffset
  match osWrite (dev.writeFault 2) out pythonTgzBytes with
  | (out, _, some err) => (some err, out)
  | (out, n, none) =>
  let currentOffset := addInt64 currentOffset (toInt64 n)
  let metadataTgzOffset := currentOffset
  match osWrite (dev.writeFault 3) out metadataTgzBytes with
  | (out, _, some err) => (some err, out)
  | (out, n, none) =>
  let currentOffset := addInt64 currentOffset (toInt64 n)
  let payloadTgzOffset := currentOffset
  match osWrite (dev.writeFault 4) out payloadTgzBytes with
  | (out, _, some err) => (some err, out)
  | (out, n, none) =>
  let currentOffset := addInt64 currentOffset (toInt64 n)
  let packageSignatureOffset := currentOffset
  match osWrite (dev.writeFault 5) out signatureBytes with
  | (out, _, some err) => (some err, out)
  | (out, n, none) =>
  let currentOffset := addInt64 currentOffset (toInt64 n)
  let publicKeyPEMOffset := currentOffset
  match osWrite (dev.writeFault 6) out publicKeyPEMBytes with
  | (out, _, some err) => (some err, out)
  | (out, _, none) =>
  let footer : Footer :=
    { UvBinaryOffset := toUint64 uvBinaryOffset
      UvBinarySize := toUint64 uvBinBytes.length
      PythonInstallTgzOffset := toUint64 pythonInstallTgzOffset
      PythonInstallTgzSize := toUint64 pythonTgzBytes.length
      MetadataTgzOffset := toUint64 metadataTgzOffset
      MetadataTgzSize := toUint64 metadataTgzBytes.length
      PayloadTgzOffset := toUint64 payloadTgzOffset
      PayloadTgzSize := toUint64 payloadTgzBytes.length
      PackageSignatureOffset := toUint64 packageSignatureOffset
      PackageSignatureSize := toUint64 signatureBytes.length
      PublicKeyPEMOffset := toUint64 publicKeyPEMOffset
      PublicKeyPEMSize := toUint64 publicKeyPEMBytes.length
      PspfVersion := Version
      Reserved := 0
      FooterStructChecksum := 0
      InternalFooterMagic := InternalFooterMagic }
  match footer.CalculateChecksum with
  | .error err => (some err, out)
  | .ok footer =>
  match binaryWrite footer with
  | .error err => (some err, out)
  | .ok finalFooterBytesBuffer =>
  let (out, _, _) := osWrite (dev.writeFault 7) out finalFooterBytesBuffer
  let (out, _, _) := osWrite (dev.writeFault 8) out MagicEOFString
  (none, out)

/-- The file `BuildAppendedPSPF` leaves on a healthy device. -/
def builtFile (launcherBytes uvBinBytes pythonTgzBytes metadataTgzBytes payloadTgzBytes
    signatureBytes publicKeyPEMBytes : Bytes) : Bytes :=
  (BuildAppendedPSPF OutputDevice.healthy launcherBytes uvBinBytes pythonTgzBytes
    metadataTgzBytes payloadTgzBytes signatureBytes publicKeyPEMBytes).2

end Packager

/-! ## `readAndVerifyFooter` and `readSection` (launcher and packager copies) -/

/-- Constant `maxSensibleReadSize` (the same in both packages): 2 GB. -/
def maxSensibleReadSize : Nat := 2 * 1024 * 1024 * 1024

namespace Launcher

/-- Function `readAndVerifyFooter` of `pspf-launcher/main.go`, on a regular
file with content `f` (so `f.Stat()` succeeds). -/
def readAndVerifyFooter (f : Bytes) : Except Err Footer :=
  let totalSize : Int := f.length
  if totalSize < ((FooterSize + MagicEOFString.length : Nat) : Int) then
    .error .fileTooSmall
  else
    let footerOffset : Int := totalSize - (FooterSize : Int) - (MagicEOFString.length : Int)
    match ReadAt f FooterSize footerOffset with
    | (_, some err) => .error err
    | (footerBytes, none) =>
      match binaryRead footerBytes with
      | .error err => .error err
      | .ok footer =>
        if footer.InternalFooterMagic ≠ InternalFooterMagic then
          .error .invalidInternalMagic
        else
          match footer.VerifyChecksum with
          | .error err => .error err
          | .ok valid =>
            if !valid then .error .footerChecksumMismatch else .ok footer

/-- Function `readSection` of `pspf-launcher/main.go`. -/
def readSection (f : Bytes) (offset size : Nat) : Except Err Bytes :=
  if size > maxSensibleReadSize then .error (.sectionTooLarge size maxSensibleReadSize)
  else if size = 0 then .ok []
  else
    match ReadAt f size (toInt64 offset) with
    | (data, some .eof) => .error (.readAtEOF size offset data.length)
    | (_, some err) => .error (.readAtFailed err)
    | (data, none) =>
      if data.length ≠ size then .error (.readShort data.length size) else .ok data

end Launcher

namespace Packager

/-- Function `readAndVerifyFooter` of `pspf-packager/cmd/verify.go`. -/
def readAndVerifyFooter (f : Bytes) : Except Err Footer :=
  let totalSize : Int := f.length
  if totalSize < ((FooterSize + MagicEOFString.length : Nat) : Int) then
    .error .fileTooSmall
  else
    let footerOffset : Int := totalSize - (FooterSize : Int) - (MagicEOFString.length : Int)
    match ReadAt f FooterSize footerOffset with
    | (_, some err) => .error err
    | (footerBytes, none) =>
      match binaryRead footerBytes with
      | .error err => .error err
      | .ok footer =>
        if footer.InternalFooterMagic ≠ InternalFooterMagic then
          .error .invalidInternalMagic
        else
          match footer.VerifyChecksum with
          | .error err => .error err
          | .ok valid =>
            if !valid then .error .footerChecksumMismatch else .ok footer

/-- Function `readSection` of `pspf-packager/cmd/utils.go`. -/
def readSection (f : Bytes) (offset size : Nat) : Except Err Bytes :=
  if size > maxSensibleReadSize then .error (.sectionTooLarge size maxSensibleReadSize)
  else if size = 0 then .ok []
  else
    match ReadAt f size (toInt64 offset) with
    | (data, some .eof) => .error (.readAtEOF size offset data.length)
    | (_, some err) => .error (.readAtFailed err)
    | (data, none) =>
      if data.length ≠ size then .error (.readShort data.length size) else .ok data

end Packager

/-! ## The signed byte string: `buildCmd`, `verifyCmd`, `setupEnvironment` -/

/-- The byte slices read back from a package. -/
structure Sections where
  launcherBytes : Bytes
  uvBinBytes : Bytes
  pythonTgzBytes : Bytes
  metadataTgzBytes : Bytes
  payloadTgzBytes : Bytes
  signatureBytes : Bytes
  publicKeyPEMBytes : Bytes
deriving DecidableEq, Repr

namespace Launcher

/-- The reads of `setupEnvironment` (lines 137 to 172): the footer, then the
launcher region and the six sections, in that order, stopping at the first
error. -/
def readSections (file : Bytes) : Except Err Sections :=
  match readAndVerifyFooter file with
  | .error err => .error err
  | .ok footer =>
  let launcherSize := footer.UvBinaryOffset
  match readSection file 0 launcherSize with
  | .error err => .error err
  | .ok launcherBytes =>
  match readSection file footer.UvBinaryOffset footer.UvBinarySize with
  | .error err => .error err
  | .ok uvBinBytes =>
  match readSection file footer.PythonInstallTgzOffset footer.PythonInstallTgzSize with
  | .error err => .error err
  | .ok pythonTgzBytes =>
  match readSection file footer.MetadataTgzOffset footer.MetadataTgzSize with
  | .error err => .error err
  | .ok metadataTgzBytes =>
  match readSection file footer.PayloadTgzOffset footer.PayloadTgzSize with
  | .error err => .error err
  | .ok payloadTgzBytes =>
  match readSection file footer.PackageSignatureOffset footer.PackageSignatureSize with
  | .error err => .error err
  | .ok signatureBytes =>
  match readSection file footer.PublicKeyPEMOffset footer.PublicKeyPEMSize with
  | .error err => .error err
  | .ok publicKeyPEMBytes =>
  .ok { launcherBytes, uvBinBytes, pythonTgzBytes, metadataTgzBytes, payloadTgzBytes,
        signatureBytes, publicKeyPEMBytes }

/-- The buffer `contentToVerify` of `setupEnvironment` (lines 174 to 179). -/
def contentToVerify (s : Sections) : Bytes :=
  ((((([] ++ s.launcherBytes) ++ s.uvBinBytes) ++ s.pythonTgzBytes) ++ s.metadataTgzBytes)
    ++ s.payloadTgzBytes)

/-- The first phase of `setupEnvironment` (lines 132 to 182): read, then check
the signature with `verifySignaturePSS` (RSA-PSS, a parameter here: `none` is
a valid signature). The sections are returned for staging. -/
def verifyPackage (verifySignaturePSS : Bytes → Bytes → Bytes → Option Err) (file : Bytes) :
    Except Err Sections :=
  match readSections file with
  | .error err => .error err
  | .ok s =>
    match verifySignaturePSS (contentToVerify s) s.signatureBytes s.publicKeyPEMBytes with
    | some err => .error err
    | none => .ok s

end Launcher

namespace Packager

/-- The reads of `verifyCmd` (lines 36 to 73): the footer, the launcher region
and five sections plus the signature; the public key comes from a separate
file, so the public key section is not read (left empty here). -/
def readSections (file : Bytes) : Except Err Sections :=
  match readAndVerifyFooter file with
  | .error err => .error err
  | .ok footer =>
  let launcherSize := footer.UvBinaryOffset
  match readSection file 0 launcherSize with
  | .error err => .error err
  | .ok launcherBytes =>
  match readSection file footer.UvBinaryOffset footer.UvBinarySize with
  | .error err => .error err
  | .ok uvBinBytes =>
  match readSection file footer.PythonInstallTgzOffset footer.PythonInstallTgzSize with
  | .error err => .error err
  | .ok pythonTgzBytes =>
  match readSection file footer.MetadataTgzOffset footer.MetadataTgzSize with
  | .error err => .error err
  | .ok metadataTgzBytes =>
  match readSection file footer.PayloadTgzOffset footer.PayloadTgzSize with
  | .error err => .error err
  | .ok payloadTgzBytes =>
  match readSection file footer.PackageSignatureOffset footer.PackageSignatureSize with
  | .error err => .error err
  | .ok signatureBytes =>
  .ok { launcherBytes, uvBinBytes, pythonTgzBytes, metadataTgzBytes, payloadTgzBytes,
        signatureBytes, publicKeyPEMBytes := [] }

/-- The buffer `contentToVerify` of `verifyCmd` (lines 86 to 91). -/
def contentToVerify (s : Sections) : Bytes :=
  ((((([] ++ s.launcherBytes) ++ s.uvBinBytes) ++ s.pythonTgzBytes) ++ s.metadataTgzBytes)
    ++ s.payloadTgzBytes)

/-- The buffer `contentToSign` of `buildCmd` (lines 108 to 113). -/
def contentToSign (launcherData uvBinBytes pythonInstallTgzBytes metadataTgzBytes
    pythonCodeTgzBytes : Bytes) : Bytes :=
  ((((([] ++ launcherData) ++ uvBinBytes) ++ pythonInstallTgzBytes) ++ metadataTgzBytes)
    ++ pythonCodeTgzBytes)

/-- The end of `buildCmd` (lines 108 to 131): sign the content with
`signPayload` (RSA-PSS with a random salt, a parameter here), then assemble.
The result is the error, if any, and the output file. -/
def signAndAssemble (signPayload : Bytes → Except Err Bytes) (dev : OutputDevice)
    (launcherData uvBinBytes pythonInstallTgzBytes metadataTgzBytes pythonCodeTgzBytes
      pubKey : Bytes) : Option Err × Bytes :=
  match signPayload (contentToSign launcherData uvBinBytes pythonInstallTgzBytes
      metadataTgzBytes pythonCodeTgzBytes) with
  | .error err => (some err, [])
  | .ok signature =>
    BuildAppendedPSPF dev launcherData uvBinBytes pythonInstallTgzBytes metadataTgzBytes
      pythonCodeTgzBytes signature pubKey

end Packager

/-! ## `path/filepath` and `strings` (Go standard library, Unix) -/

/-- A Go string, as its characters. -/
abbrev GoString := List Char

namespace filepath

/-- The elements of a path between its separators. -/
def splitElems : GoString → List GoString
  | [] => [[]]
  | c :: cs =>
    if c = '/' then [] :: splitElems cs
    else
      match splitElems cs with
      | [] => [[c]]
      | e :: es => (c :: e) :: es

/-- The loop of `Clean` on the elements of a path; `out` holds the elements
kept so far, last one first. Empty and `.` elements are dropped; `..` removes
the element before it when there is one to remove, is kept at the start of a
path that is not rooted, and is dropped at the root. -/
def cleanLoop (rooted : Bool) : List GoString → List GoString → List GoString
  | out, [] => out.reverse
  | out, e :: es =>
    if e = [] ∨ e = ['.'] then cleanLoop rooted out es
    else if e = ['.', '.'] then
      match out with
      | [] => if rooted then cleanLoop rooted [] es else cleanLoop rooted [e] es
      | top :: below =>
        if top = ['.', '.'] then cleanLoop rooted (e :: out) es
        else cleanLoop rooted below es
    else cleanLoop rooted (e :: out) es

/-- The elements of the cleaned path. -/
def cleanElems (path : GoString) : List GoString :=
  cleanLoop (path.head? = some '/') [] (splitElems path)

/-- Function `filepath.Clean`. -/
def Clean (path : GoString) : GoString :=
  if path = [] then ['.']
  else
    let body := List.intercalate ['/'] (cleanElems path)
    if path.head? = some '/' then '/' :: body
    else if body = [] then ['.'] else body

/-- Function `filepath.Join` of two elements. -/
def Join (a b : GoString) : GoString :=
  if a ≠ [] then Clean (a ++ '/' :: b)
  else if b ≠ [] then Clean b
  else []

/-- Function `filepath.Dir`: clean what stands before the last element. -/
def Dir (path : GoString) : GoString :=
  Clean ((path.reverse.dropWhile (fun c => c ≠ '/')).reverse)

end filepath

/-- Function `strings.HasPrefix(s, pfx)`. -/
def HasPrefix (s pfx : GoString) : Bool := pfx.isPrefixOf s

/-! ## `unTar` (launcher copy) -/

/-- The type flags of a tar header that `unTar` tells apart. -/
inductive Typeflag where
  | TypeDir
  | TypeReg
  | TypeSymlink
  | other
deriving DecidableEq, Repr

/-- The fields of `tar.Header` that `unTar` reads. -/
structure Header where
  Name : GoString
  Typeflag : Typeflag
  Linkname : GoString
  Mode : Nat
deriving DecidableEq, Repr

/-- What `tr.Next()` yields on the decompressed stream: an entry with its
content, or an error (a corrupt tar or zstd stream). The end of the list is
`io.EOF`. -/
inductive TarItem where
  | entry (header : Header) (content : Bytes)
  | corrupt (err : Err)
deriving DecidableEq, Repr

/-- The file system calls of `unTar`. -/
inductive FsOp where
  | MkdirAll (path : GoString) (perm : Nat)
  | OpenFile (path : GoString) (perm : Nat)
  | Copy (path : GoString) (content : Bytes)
  | Symlink (linkname path : GoString)
deriving DecidableEq, Repr

/-- The path a file system call creates or writes. -/
def FsOp.path : FsOp → GoString
  | .MkdirAll p _ => p
  | .OpenFile p _ => p
  | .Copy p _ => p
  | .Symlink _ p => p

/-- The answers of the file system: the error of a call, if it fails, and
whether `os.Lstat` finds a symbolic link at a path. -/
structure FileSystem where
  fails : FsOp → Option Err
  lstatIsSymlink : GoString → Bool

/-- A file system on which every call succeeds. -/
def FileSystem.healthy : FileSystem := { fails := fun _ => none, lstatIsSymlink := fun _ => false }

/-- Path containment by elements: the cleaned `path` is `dest` or lies below it. -/
def isWithin (dest path : GoString) : Bool :=
  (filepath.cleanElems dest).isPrefixOf (filepath.cleanElems path)

namespace Launcher

/-- The loop of `unTar` of `pspf-launcher/main.go`: `files` is the list
returned, `done` the file system calls that succeeded so far, in order. -/
def unTarLoop (fs : FileSystem) (dest : GoString) :
    List TarItem → List GoString → List FsOp → Except Err (List GoString) × List FsOp
  | [], files, done => (.ok files, done)
  | .corrupt err :: _, _, done => (.error err, done)
  | .entry header content :: rest, files, done =>
    let target := filepath.Join dest header.Name
    if !(HasPrefix (filepath.Clean target) (filepath.Clean dest)) then
      (.error .zipSlip, done)
    else
      match header.Typeflag with
      | .TypeDir =>
        match fs.fails (.MkdirAll target 0o755) with
        | some err => (.error err, done)
        | none => unTarLoop fs dest rest files (done ++ [.MkdirAll target 0o755])
      | .TypeReg =>
        let files := files ++ [header.Name]
        match fs.fails (.MkdirAll (filepath.Dir target) 0o755) with
        | some err => (.error err, done)
        | none =>
          let done := done ++ [.MkdirAll (filepath.Dir target) 0o755]
          match fs.fails (.OpenFile target header.Mode) with
          | some err => (.error err, done)
          | none =>
            let done := done ++ [.OpenFile target header.Mode]
            match fs.fails (.Copy target content) with
            | some err => (.error err, done)
            | none => unTarLoop fs dest rest files (done ++ [.Copy target content])
      | .TypeSymlink =>
        match fs.fails (.MkdirAll (filepath.Dir target) 0o755) with
        | some err =>
          if fs.lstatIsSymlink (filepath.Dir target) then
            match fs.fails (.Symlink header.Linkname target) with
            | some err => (.error err, done)
            | none => unTarLoop fs dest rest files (done ++ [.Symlink header.Linkname target])
          else (.error err, done)
        | none =>
          let done := done ++ [.MkdirAll (filepath.Dir target) 0o755]
          match fs.fails (.Symlink header.Linkname target) with
          | some err => (.error err, done)
          | none => unTarLoop fs dest rest files (done ++ [.Symlink header.Linkname target])
      | .other => unTarLoop fs dest rest files done

/-- Function `unTar` of `pspf-launcher/main.go` on the decompressed stream
`archive`: the result and the file system calls that succeeded. -/
def unTar (fs : FileSystem) (archive : List TarItem) (dest : GoString) :
    Except Err (List GoString) × List FsOp :=
  unTarLoop fs dest archive [] []

end Launcher

/-! ## Closed forms used in the statements -/

/-- The footer after `CalculateChecksum`, in closed form. -/
def Footer.seal (f : Footer) : Footer :=
  f.withChecksum (crc32.ChecksumIEEE (f.withChecksum 0).encode)

/-- The footer `BuildAppendedPSPF` fills in on a healthy device, before the
checksum, from the lengths of its seven inputs. -/
def Packager.footerOfLengths (l u p m c s k : Nat) : Footer :=
  { UvBinaryOffset := l % 2 ^ 64
    UvBinarySize := u % 2 ^ 64
    PythonInstallTgzOffset := (l + u) % 2 ^ 64
    PythonInstallTgzSize := p % 2 ^ 64
    MetadataTgzOffset := (l + u + p) % 2 ^ 64
    MetadataTgzSize := m % 2 ^ 64
    PayloadTgzOffset := (l + u + p + m) % 2 ^ 64
    PayloadTgzSize := c % 2 ^ 64
    PackageSignatureOffset := (l + u + p + m + c) % 2 ^ 64
    PackageSignatureSize := s % 2 ^ 64
    PublicKeyPEMOffset := (l + u + p + m + c + s) % 2 ^ 64
    PublicKeyPEMSize := k % 2 ^ 64
    PspfVersion := Version
    Reserved := 0
    FooterStructChecksum := 0
    InternalFooterMagic := InternalFooterMagic }

/-- The 108 bytes that precede the 8-byte trailing marker of a file. -/
def footerRegion (file : Bytes) : Bytes :=
  (file.drop (file.length - 116)).take 108

/-- The bytes `[off, off + size)` of a file. -/
def slice (file : Bytes) (off size : Nat) : Bytes := (file.drop off).take size


/-! ## Reads with the calls they make on the file -/

/-- A call made on the open file, or an allocation of a buffer for it. -/
inductive FileCall where
  | Stat
  | Make (n : Nat)
  | ReadAt (n : Nat) (off : Int)
deriving DecidableEq, Repr

namespace Launcher

/-- Function `readAndVerifyFooter` of `pspf-launcher/main.go` together with
the calls it makes, in order: `f.Stat()`, `make([]byte, FooterSize)`,
`f.ReadAt(footerBytes, footerOffset)`. -/
def readAndVerifyFooterCalls (f : Bytes) : Except Err Footer × List FileCall :=
  let totalSize : Int := f.length
  if totalSize < ((FooterSize + MagicEOFString.length : Nat) : Int) then
    (.error .fileTooSmall, [.Stat])
  else
    let footerOffset : Int := totalSize - (FooterSize : Int) - (MagicEOFString.length : Int)
    let calls := [FileCall.Stat, .Make FooterSize, .ReadAt FooterSize footerOffset]
    match ReadAt f FooterSize footerOffset with
    | (_, some err) => (.error err, calls)
    | (footerBytes, none) =>
      match binaryRead footerBytes with
      | .error err => (.error err, calls)
      | .ok footer =>
        if footer.InternalFooterMagic ≠ InternalFooterMagic then
          (.error .invalidInternalMagic, calls)
        else
          match footer.VerifyChecksum with
          | .error err => (.error err, calls)
          | .ok valid =>
            if !valid then (.error .footerChecksumMismatch, calls) else (.ok footer, calls)

/-- Function `readSection` of `pspf-launcher/main.go` together with the
allocation and the read it makes, in order. -/
def readSectionCalls (f : Bytes) (offset size : Nat) : Except Err Bytes × List FileCall :=
  if size > maxSensibleReadSize then
    (.error (.sectionTooLarge size maxSensibleReadSize), [])
  else if size = 0 then (.ok [], [])
  else
    let calls := [FileCall.Make size, .ReadAt size (toInt64 offset)]
    match ReadAt f size (toInt64 offset) with
    | (data, some .eof) => (.error (.readAtEOF size offset data.length), calls)
    | (_, some err) => (.error (.readAtFailed err), calls)
    | (data, none) =>
      if data.length ≠ size then (.error (.readShort data.length size), calls)
      else (.ok data, calls)

end Launcher

/-! ## `buildCmd` of `pspf-packager/cmd/build.go` -/

/-- Function `hex.EncodeToString`: two lowercase digits per byte. -/
def hexEncode : Bytes → GoString
  | [] => []
  | b :: bs =>
    "0123456789abcdef".toList.getD (b / 16) '0' ::
      "0123456789abcdef".toList.getD (b % 16) '0' :: hexEncode bs

namespace Packager

/-- The flags of `buildCmd`. -/
structure BuildFlags where
  buildOutPath : GoString
  buildLauncherBin : GoString
  buildPackageKeyPath : GoString
  buildPublicKeyPath : GoString
  buildPythonInstallDir : GoString
  buildUvPath : GoString
  buildConfigFile : GoString
  buildPayloadDir : GoString

/-- What `buildCmd` gets from the operating system, from the archive and
dependency helpers and from the signer. -/
structure BuildEnv where
  statNotExist : GoString → Bool
  readFile : GoString → Except Err Bytes
  createSourceArchive : GoString → Except Err Bytes
  lookPathUv : GoString
  buildWheelsFromDependencies : Except Err GoString
  mkdirTemp : Except Err GoString
  sha256 : Bytes → Bytes
  preparePayloadArtifacts : GoString → Bytes → GoString → Except Err (Bytes × Bytes)
  signPayload : Bytes → Except Err Bytes
  dev : OutputDevice

/-- The function `Run` of `buildCmd`: the exit status (0 when `Run` returns)
and the output file, if `BuildAppendedPSPF` was reached. -/
def buildCmd (flags : BuildFlags) (env : BuildEnv) : Nat × Option Bytes :=
  if flags.buildOutPath = [] ∨ flags.buildLauncherBin = [] ∨ flags.buildPackageKeyPath = [] ∨
      flags.buildPublicKeyPath = [] ∨ flags.buildPythonInstallDir = [] then (1, none)
  else if env.statNotExist flags.buildPackageKeyPath then (1, none)
  else if env.statNotExist flags.buildPublicKeyPath then (1, none)
  else
  match env.readFile flags.buildLauncherBin with
  | .error _ => (1, none)
  | .ok launcherData =>
  match env.createSourceArchive flags.buildPythonInstallDir with
  | .error _ => (1, none)
  | .ok pythonInstallTgzBytes =>
  let actualUvPath := if flags.buildUvPath = [] then env.lookPathUv else flags.buildUvPath
  match env.readFile actualUvPath with
  | .error _ => (1, none)
  | .ok uvBinBytes =>
  let configJsonBytes : Bytes :=
    if flags.buildConfigFile ≠ [] then
      match env.readFile flags.buildConfigFile with
      | .error _ => []
      | .ok b => b
    else "\x7b\"entry_point\": \"pyvider.provider_core:setup_provider\"\x7d".toList.map Char.toNat
  match env.buildWheelsFromDependencies with
  | .error _ => (1, none)
  | .ok _ =>
  match env.mkdirTemp with
  | .error _ => (1, none)
  | .ok finalPayloadDir =>
  match env.preparePayloadArtifacts finalPayloadDir configJsonBytes
      (hexEncode (env.sha256 uvBinBytes)) with
  | .error _ => (1, none)
  | .ok (pythonCodeTgzBytes, metadataTgzBytes) =>
  match env.signPayload (contentToSign launcherData uvBinBytes pythonInstallTgzBytes
      metadataTgzBytes pythonCodeTgzBytes) with
  | .error _ => (1, none)
  | .ok signature =>
  match env.readFile flags.buildPublicKeyPath with
  | .error _ => (1, none)
  | .ok pubKey =>
  match BuildAppendedPSPF env.dev launcherData uvBinBytes pythonInstallTgzBytes
      metadataTgzBytes pythonCodeTgzBytes signature pubKey with
  | (some _, out) => (1, some out)
  | (none, out) => (0, some out)

end Packager

/-! ## The launcher's default flow: `runProvider`, `setupEnvironment`, `executePython` -/

namespace filepath

/-- Function `filepath.Join` of any number of elements. -/
def JoinList : List GoString → GoString
  | [] => []
  | e :: es => if e = [] then JoinList es else Clean (List.intercalate ['/'] (e :: es))

/-- Function `filepath.Base`. -/
def Base (path : GoString) : GoString :=
  if path = [] then ['.']
  else
    let stripped := path.reverse.dropWhile (fun c => c = '/')
    let last := (stripped.takeWhile (fun c => c ≠ '/')).reverse
    if last = [] then ['/'] else last

end filepath

/-- Function `strings.HasSuffix(s, sfx)`. -/
def HasSuffix (s sfx : GoString) : Bool := sfx.reverse.isPrefixOf s.reverse

/-- The struct `ConfigFromMetadata`. -/
structure ConfigFromMetadata where
  EntryPoint : GoString
deriving DecidableEq, Repr

/-- How the child process of `pythonCmd.Run()` ended: it exited with a code,
it was killed by a signal, or it could not be started. -/
inductive ChildOutcome where
  | exited (code : Nat)
  | signaled
  | notStarted (err : Err)
deriving DecidableEq, Repr

/-- What a run of the launcher does, in order. -/
inductive Event where
  | setupEnvironment
  | footerValidated
  | signatureVerified
  | workDirCleared
  | fsCall (op : FsOp)
  | fileWritten (path : GoString) (perm : Nat)
  | command (path : GoString) (args extraEnv : List GoString)
  | completeWritten (content : GoString)
  | interpreterRun (path : GoString) (args cmdEnv : List GoString)
deriving DecidableEq, Repr

/-- The outcome of `os.WriteFile`: done, not opened (the file is left as it
was), or opened and truncated but written only up to `n` bytes. -/
inductive WriteFileOutcome where
  | done
  | notOpened (err : Err)
  | short (n : Nat) (err : Err)
deriving DecidableEq, Repr

/-- What the launcher gets from the operating system and from the libraries
it calls (SHA-256, RSA-PSS, zstd and tar decoding, JSON). -/
structure LauncherEnv where
  executable : Except Err GoString
  userCacheDir : Except Err GoString
  mkdirAll : GoString → Option Err
  openFile : GoString → Except Err Bytes
  copyFault : GoString → Option Err
  sha256 : Bytes → Bytes
  verifySignaturePSS : Bytes → Bytes → Bytes → Option Err
  removeAllRemoves : Bool
  decodeArchive : Bytes → List TarItem
  fs : FileSystem
  writeFile : GoString → WriteFileOutcome
  findExecutable : GoString → GoString → GoString → Except Err GoString
  runCommand : GoString → List GoString → List GoString → Option Err
  lstatExists : GoString → Bool
  remove : GoString → Option Err
  readFile : GoString → Except Err Bytes
  jsonUnmarshal : Bytes → ConfigFromMetadata × Option Err
  windows : Bool
  getenvPYTHONPATH : GoString
  environ : List GoString
  runChild : GoString → List GoString → List GoString → ChildOutcome

/-- The end of a run: the argument of `os.Exit`, what the run did, and the
content of the `.complete` file afterwards (`none`: no readable file). -/
structure RunResult where
  exitCode : Int
  events : List Event
  complete : Option GoString
deriving DecidableEq, Repr

namespace Launcher

/-- Function `calculateSelfHash`. -/
def calculateSelfHash (env : LauncherEnv) (exePath : GoString) : Except Err GoString :=
  match env.openFile exePath with
  | .error err => .error err
  | .ok content =>
    match env.copyFault exePath with
    | some err => .error err
    | none => .ok (hexEncode (env.sha256 content))

/-- The calls of `unTar` as events of the run. -/
def unTarEvents (env : LauncherEnv) (archive : Bytes) (dest : GoString) : List Event :=
  (unTar env.fs (env.decodeArchive archive) dest).2.map Event.fsCall

/-- The list `wheelsToInstall` of `setupEnvironment` (lines 227 to 232). -/
def wheelsToInstall (payloadExtractDir : GoString) (allExtractedFiles : List GoString) :
    List GoString :=
  (allExtractedFiles.filter (fun f => HasSuffix f ".whl".toList)).map
    (fun f => filepath.Join payloadExtractDir f)

/-- The staging part of `setupEnvironment` (lines 184 to 241), after the
signature was verified: the error returned (`none` for `nil`) and the events. -/
def stage (env : LauncherEnv) (pspfWorkDir : GoString) (s : Sections) :
    Option Err × List Event :=
  let ev0 := [Event.workDirCleared]
  let metaDir := filepath.Join pspfWorkDir "metadata_extracted".toList
  let ev1 := ev0 ++ unTarEvents env s.metadataTgzBytes metaDir
  match (unTar env.fs (env.decodeArchive s.metadataTgzBytes) metaDir).1 with
  | .error err => (some err, ev1)
  | .ok _ =>
  let payloadExtractDir := filepath.Join pspfWorkDir "payload_extracted".toList
  let ev2 := ev1 ++ unTarEvents env s.payloadTgzBytes payloadExtractDir
  match (unTar env.fs (env.decodeArchive s.payloadTgzBytes) payloadExtractDir).1 with
  | .error err => (some err, ev2)
  | .ok allExtractedFiles =>
  let pythonInstallDir := filepath.Join pspfWorkDir "python".toList
  let ev3 := ev2 ++ unTarEvents env s.pythonTgzBytes pythonInstallDir
  match (unTar env.fs (env.decodeArchive s.pythonTgzBytes) pythonInstallDir).1 with
  | .error err => (some err, ev3)
  | .ok _ =>
  let suffix := if env.windows then ".exe".toList else []
  let uvExePath := filepath.Join pspfWorkDir ("uv_embedded".toList ++ suffix)
  match env.writeFile uvExePath with
  | .notOpened err => (some err, ev3)
  | .short _ err => (some err, ev3)
  | .done =>
  let ev4 := ev3 ++ [Event.fileWritten uvExePath 0o755]
  match env.findExecutable pythonInstallDir "python3".toList "python".toList with
  | .error err =>
    (some (.wrapped "could not find python executable in embedded archive" err), ev4)
  | .ok pythonExePath =>
  let venvDir := filepath.Join pspfWorkDir ".venv".toList
  let venvArgs := ["venv".toList, venvDir, "--python".toList, pythonExePath]
  let ev5 := ev4 ++ [Event.command uvExePath venvArgs []]
  match env.runCommand uvExePath venvArgs [] with
  | some err => (some (.wrapped "venv creation failed" err), ev5)
  | none =>
  let lib64Path := filepath.Join venvDir "lib64".toList
  match (if env.lstatExists lib64Path then env.remove lib64Path else none) with
  | some err => (some (.wrapped "failed to remove lib64 symlink" err), ev5)
  | none =>
  let wheels := wheelsToInstall payloadExtractDir allExtractedFiles
  if wheels.length > 0 then
    let installArgs := ["pip".toList, "install".toList] ++ wheels
    let extraEnv := ["VIRTUAL_ENV=".toList ++ venvDir]
    let ev6 := ev5 ++ [Event.command uvExePath installArgs extraEnv]
    match env.runCommand uvExePath installArgs extraEnv with
    | some err => (some (.wrapped "wheel installation failed" err), ev6)
    | none => (none, ev6)
  else (none, ev5)

/-- Function `setupEnvironment`: the error returned (`none` for `nil`), the
events, and the content of `.complete` afterwards. The file `.complete` lies
in `pspfWorkDir`, so `os.RemoveAll(pspfWorkDir)` removes it when it succeeds
(its error is not looked at). -/
def setupEnvironment (env : LauncherEnv) (exePath pspfWorkDir : GoString)
    (complete : Option GoString) : Option Err × List Event × Option GoString :=
  match env.openFile exePath with
  | .error err => (some err, [.setupEnvironment], complete)
  | .ok file =>
  match readSections file with
  | .error err =>
    (some err,
      (match readAndVerifyFooter file with
       | .ok _ => [.setupEnvironment, .footerValidated]
       | .error _ => [.setupEnvironment]),
      complete)
  | .ok s =>
  match env.verifySignaturePSS (contentToVerify s) s.signatureBytes s.publicKeyPEMBytes with
  | some err => (some err, [.setupEnvironment, .footerValidated], complete)
  | none =>
  let complete := if env.removeAllRemoves then none else complete
  let (err, evs) := stage env pspfWorkDir s
  (err, [.setupEnvironment, .footerValidated, .signatureVerified] ++ evs, complete)

/-- The text of `pyCmdString` of `executePython` for an entry point. -/
def pyCmdString (entryPoint : GoString) : GoString :=
  "import sys; import asyncio; import importlib; mod_name, func_name = '".toList ++
    entryPoint ++
    ("'.split(':', 1); mod = importlib.import_module(mod_name); " ++
      "sys.exit(asyncio.run(getattr(mod, func_name)()))").toList

/-- The path `venvPython` of `executePython`. -/
def venvPython (env : LauncherEnv) (pspfWorkDir : GoString) : GoString :=
  let suffix := if env.windows then ".exe".toList else []
  if env.windows then
    filepath.JoinList [pspfWorkDir, ".venv".toList, "Scripts".toList, "python.exe".toList]
  else
    filepath.JoinList [pspfWorkDir, ".venv".toList, "bin".toList, "python".toList ++ suffix]

/-- The environment `pythonCmd.Env` of `executePython`: the caller's, then
`PYTHONPATH` with `payload_extracted` before the value it had. -/
def pythonCmdEnv (env : LauncherEnv) (pspfWorkDir : GoString) : List GoString :=
  let payloadExtractDir := filepath.Join pspfWorkDir "payload_extracted".toList
  let existingPath := env.getenvPYTHONPATH
  let newPath :=
    if existingPath ≠ [] then
      payloadExtractDir ++ (if env.windows then [';'] else [':']) ++ existingPath
    else payloadExtractDir
  env.environ ++ ["PYTHONPATH=".toList ++ newPath]

/-- Function `executePython`, which ends the process: `events` and
`complete` are what the run did and left before the call. The error of
`json.Unmarshal` is not looked at. -/
def executePython (env : LauncherEnv) (pspfWorkDir : GoString) (events : List Event)
    (complete : Option GoString) : RunResult :=
  match env.readFile
      (filepath.JoinList [pspfWorkDir, "metadata_extracted".toList, "config.json".toList]) with
  | .error _ => { exitCode := 1, events := events, complete := complete }
  | .ok cfgBytes =>
    let providerConfig := (env.jsonUnmarshal cfgBytes).1
    let args := ["-c".toList, pyCmdString providerConfig.EntryPoint]
    let events := events ++
      [Event.interpreterRun (venvPython env pspfWorkDir) args (pythonCmdEnv env pspfWorkDir)]
    match env.runChild (venvPython env pspfWorkDir) args (pythonCmdEnv env pspfWorkDir) with
    | .exited 0 => { exitCode := 0, events := events, complete := complete }
    | .exited code => { exitCode := code, events := events, complete := complete }
    | .signaled => { exitCode := -1, events := events, complete := complete }
    | .notStarted _ => { exitCode := 1, events := events, complete := complete }

/-- Function `runProvider`, the default flow of the launcher, started with
`complete` as the content of the `.complete` file (`none`: `os.ReadFile`
fails). -/
def runProvider (env : LauncherEnv) (complete : Option GoString) : RunResult :=
  match env.executable with
  | .error _ => { exitCode := 1, events := [], complete := complete }
  | .ok exePath =>
  match env.userCacheDir with
  | .error _ => { exitCode := 1, events := [], complete := complete }
  | .ok userCacheDir =>
  let pspfWorkDir := filepath.JoinList
    [userCacheDir, "pyvider".toList, "providers".toList, filepath.Base exePath]
  match env.mkdirAll pspfWorkDir with
  | some _ => { exitCode := 1, events := [], complete := complete }
  | none =>
  let completionFilePath := filepath.Join pspfWorkDir ".complete".toList
  match calculateSelfHash env exePath with
  | .error _ => { exitCode := 1, events := [], complete := complete }
  | .ok currentExeHash =>
  if complete = some currentExeHash then
    executePython env pspfWorkDir [] complete
  else
    match setupEnvironment env exePath pspfWorkDir complete with
    | (some _, events, complete) => { exitCode := 1, events := events, complete := complete }
    | (none, events, complete) =>
      match env.writeFile completionFilePath with
      | .notOpened _ => { exitCode := 1, events := events, complete := complete }
      | .short n _ =>
        { exitCode := 1, events := events, complete := some (currentExeHash.take n) }
      | .done =>
        executePython env pspfWorkDir (events ++ [Event.completeWritten currentExeHash])
          (some currentExeHash)

end Launcher


/-! ## Concrete inputs used in witnesses and counterexamples -/

/-- Flags of a build whose required paths are all given. -/
def Packager.sampleFlags : Packager.BuildFlags :=
  { buildOutPath := "out".toList
    buildLauncherBin := "launcher".toList
    buildPackageKeyPath := "key.pem".toList
    buildPublicKeyPath := "pub.pem".toList
    buildPythonInstallDir := "python".toList
    buildUvPath := "uv".toList
    buildConfigFile := []
    buildPayloadDir := [] }

/-- A build environment in which every step succeeds and the file at
`launcher` has the content `launcherData`: resolver `UV`, runtime archive
`PY`, payload archive `P`, metadata archive `M`, a three-byte signature and a
two-byte public key. -/
def Packager.sampleEnv (launcherData : Bytes) (dev : OutputDevice) : Packager.BuildEnv :=
  { statNotExist := fun _ => false
    readFile := fun p =>
      if p = "launcher".toList then .ok launcherData
      else if p = "uv".toList then .ok [85, 86]
      else if p = "pub.pem".toList then .ok [4, 5]
      else .error (.ioError "no such file")
    createSourceArchive := fun _ => .ok [80, 89]
    lookPathUv := "uv".toList
    buildWheelsFromDependencies := .ok "wheels".toList
    mkdirTemp := .ok "final".toList
    sha256 := fun _ => []
    preparePayloadArtifacts := fun _ _ _ => .ok ([80], [77])
    signPayload := fun _ => .ok [1, 2, 3]
    dev := dev }

/-- A device on which the seven section writes succeed and the write of the
footer (the eighth write) fails after 0 bytes, for example a full disk. -/
def OutputDevice.footerWriteFails : OutputDevice :=
  { openErr := none, writeFault := fun k => if k = 7 then some 0 else none }


/-- The events of the staging part of `setupEnvironment`. -/
def Event.isStaging : Event → Bool
  | .workDirCleared => true
  | .fsCall _ => true
  | .fileWritten _ _ => true
  | .command _ _ _ => true
  | _ => false

/-- The event of `pythonCmd.Run()`. -/
def Event.isInterpreterRun : Event → Bool
  | .interpreterRun _ _ _ => true
  | _ => false

/-- The event of writing `.complete`. -/
def Event.isCompleteWritten : Event → Bool
  | .completeWritten _ => true
  | _ => false

/-- The directory `pspfWorkDir` of `runProvider`. -/
def Launcher.workDir (userCacheDir exePath : GoString) : GoString :=
  filepath.JoinList [userCacheDir, "pyvider".toList, "providers".toList, filepath.Base exePath]

/-- The path of `config.json` that `executePython` reads. -/
def Launcher.configPath (pspfWorkDir : GoString) : GoString :=
  filepath.JoinList [pspfWorkDir, "metadata_extracted".toList, "config.json".toList]

/-- A launcher environment in which every call succeeds: the executable
`/opt/provider` has the content `exe`, its SHA-256 is taken to be the two
bytes `ab cd`, every signature is accepted, every archive decodes to an empty
tar stream, `config.json` has the content `cfg`, which parses to `parsed`,
and the child exits with status 0. -/
def Launcher.sampleEnv (exe : Bytes) (cfg : Except Err Bytes)
    (parsed : ConfigFromMetadata × Option Err) : LauncherEnv :=
  { executable := .ok "/opt/provider".toList
    userCacheDir := .ok "/home/u/.cache".toList
    mkdirAll := fun _ => none
    openFile := fun _ => .ok exe
    copyFault := fun _ => none
    sha256 := fun _ => [0xab, 0xcd]
    verifySignaturePSS := fun _ _ _ => none
    removeAllRemoves := true
    decodeArchive := fun _ => []
    fs := FileSystem.healthy
    writeFile := fun _ => .done
    findExecutable := fun _ _ _ => .ok "/home/u/.cache/pyvider/providers/provider/python/bin/python3".toList
    runCommand := fun _ _ _ => none
    lstatExists := fun _ => false
    remove := fun _ => none
    readFile := fun _ => cfg
    jsonUnmarshal := fun _ => parsed
    windows := false
    getenvPYTHONPATH := []
    environ := []
    runChild := fun _ _ _ => .exited 0 }

/-- The file built from the launcher `LAUNCH`, the resolver `UV`, the runtime
`PY`, the metadata `M`, the payload `P`, a signature of three bytes and a key
of two. -/
def Launcher.sampleExe : Bytes :=
  Packager.builtFile [76, 65, 85, 78, 67, 72] [85, 86] [80, 89] [77] [80] [1, 2, 3] [4, 5]

/-- The sample environment with `sampleExe` as the executable and a
`config.json` that parses to the entry point `m:f`. -/
def Launcher.sampleRun : LauncherEnv :=
  Launcher.sampleEnv Launcher.sampleExe (.ok []) ({ EntryPoint := "m:f".toList }, none)

/-- The sample environment with an executable that is not a PSPF file (it is
empty), so that `setupEnvironment` fails. -/
def Launcher.sampleBroken : LauncherEnv :=
  Launcher.sampleEnv [] (.ok []) ({ EntryPoint := "m:f".toList }, none)

/-- The bytes of the text of a Go string of ASCII characters. -/
def asciiBytes (s : GoString) : Bytes := s.map Char.toNat


/-! ## The checksum methods with the receiver made explicit -/

/-- Method `(*Footer).VerifyChecksum` with its receiver: the values returned
and the footer behind `f` after the call. The method works on the copy
`tempFooter` and never assigns through `f`. -/
def Footer.VerifyChecksumOn (f : Footer) : Except Err Bool × Footer :=
  let storedChecksum := f.FooterStructChecksum
  let tempFooter := f
  let tempFooter := tempFooter.withChecksum 0
  match binaryWrite tempFooter with
  | .error err =>
    (.error (.wrapped "failed to write temp footer to buffer for checksumming" err), f)
  | .ok checksumBuffer =>
    let calculatedChecksum := crc32.ChecksumIEEE checksumBuffer
    (.ok (decide (storedChecksum = calculatedChecksum)), f)

/-! ## `unTar` (packager copy, `pspf-packager/cmd/utils.go`) -/

namespace Packager

/-- The loop of `unTar` of `pspf-packager/cmd/utils.go`: `files` is the list
returned, `done` the file system calls that succeeded so far, in order. -/
def unTarLoop (fs : FileSystem) (dest : GoString) :
    List TarItem → List GoString → List FsOp → Except Err (List GoString) × List FsOp
  | [], files, done => (.ok files, done)
  | .corrupt err :: _, _, done => (.error err, done)
  | .entry header content :: rest, files, done =>
    let target := filepath.Join dest header.Name
    if !(HasPrefix (filepath.Clean target) (filepath.Clean dest)) then
      (.error .zipSlip, done)
    else
      match header.Typeflag with
      | .TypeDir =>
        match fs.fails (.MkdirAll target 0o755) with
        | some err => (.error err, done)
        | none => unTarLoop fs dest rest files (done ++ [.MkdirAll target 0o755])
      | .TypeReg =>
        let files := files ++ [header.Name]
        match fs.fails (.MkdirAll (filepath.Dir target) 0o755) with
        | some err => (.error err, done)
        | none =>
          let done := done ++ [.MkdirAll (filepath.Dir target) 0o755]
          match fs.fails (.OpenFile target header.Mode) with
          | some err => (.error err, done)
          | none =>
            let done := done ++ [.OpenFile target header.Mode]
            match fs.fails (.Copy target content) with
            | some err => (.error err, done)
            | none => unTarLoop fs dest rest files (done ++ [.Copy target content])
      | .TypeSymlink =>
        match fs.fails (.MkdirAll (filepath.Dir target) 0o755) with
        | some err =>
          if fs.lstatIsSymlink (filepath.Dir target) then
            match fs.fails (.Symlink header.Linkname target) with
            | some err => (.error err, done)
            | none => unTarLoop fs dest rest files (done ++ [.Symlink header.Linkname target])
          else (.error err, done)
        | none =>
          let done := done ++ [.MkdirAll (filepath.Dir target) 0o755]
          match fs.fails (.Symlink header.Linkname target) with
          | some err => (.error err, done)
          | none => unTarLoop fs dest rest files (done ++ [.Symlink header.Linkname target])
      | .other => unTarLoop fs dest rest files done

/-- Function `unTar` of `pspf-packager/cmd/utils.go` on the decompressed
stream `archive`: the result and the file system calls that succeeded. -/
def unTar (fs : FileSystem) (archive : List TarItem) (dest : GoString) :
    Except Err (List GoString) × List FsOp :=
  unTarLoop fs dest archive [] []

end Packager

/-! ## `loadPrivateKey` (`pspf-packager/cmd/utils.go`) -/

namespace rsa

/-- The type `rsa.PrivateKey`: modulus, public and private exponent, primes. -/
structure PrivateKey where
  N : Nat
  E : Nat
  D : Nat
  Primes : List Nat
deriving DecidableEq, Repr

end rsa

/-- What `x509.ParsePKCS8PrivateKey` returns on success: an RSA key, or a key
of another algorithm (ECDSA, Ed25519, ECDH), named by `algorithm`. -/
inductive PKCS8Key where
  | rsaKey (key : rsa.PrivateKey)
  | otherKey (algorithm : String)
deriving DecidableEq, Repr

/-- The calls of the two parsers, with the bytes they were given. -/
inductive ParseCall where
  | ParsePKCS8PrivateKey (der : Bytes)
  | ParsePKCS1PrivateKey (der : Bytes)
deriving DecidableEq, Repr

/-- What `loadPrivateKey` gets from the operating system and from the
`encoding/pem` and `crypto/x509` packages; `pemDecode` gives `block.Bytes`,
or `none` when `pem.Decode` returns a nil block. -/
structure KeyEnv where
  readFile : GoString → Except Err Bytes
  pemDecode : Bytes → Option Bytes
  ParsePKCS8PrivateKey : Bytes → Except Err PKCS8Key
  ParsePKCS1PrivateKey : Bytes → Except Err rsa.PrivateKey

namespace Packager

/-- Function `loadPrivateKey`: the value returned and the parser calls made,
in order. -/
def loadPrivateKey (env : KeyEnv) (path : GoString) :
    Except Err rsa.PrivateKey × List ParseCall :=
  match env.readFile path with
  | .error err => (.error err, [])
  | .ok keyData =>
  match env.pemDecode keyData with
  | none => (.error (.ioError ("failed to decode PEM block from " ++ String.mk path)), [])
  | some blockBytes =>
  match env.ParsePKCS8PrivateKey blockBytes with
  | .ok key =>
    match key with
    | .rsaKey rsaKey => (.ok rsaKey, [.ParsePKCS8PrivateKey blockBytes])
    | .otherKey _ =>
      (.error (.ioError ("key in " ++ String.mk path ++ " is not an RSA private key")),
        [.ParsePKCS8PrivateKey blockBytes])
  | .error _ =>
    match env.ParsePKCS1PrivateKey blockBytes with
    | .error _ =>
      (.error (.ioError ("failed to parse private key from " ++ String.mk path)),
        [.ParsePKCS8PrivateKey blockBytes, .ParsePKCS1PrivateKey blockBytes])
    | .ok pkcs1Key =>
      (.ok pkcs1Key, [.ParsePKCS8PrivateKey blockBytes, .ParsePKCS1PrivateKey blockBytes])

end Packager

/-! ## Concrete inputs for the dispatcher, the writer and the key loader -/

/-- The sample environment with a child that is killed by a signal. -/
def Launcher.sampleSignaled : LauncherEnv :=
  { Launcher.sampleRun with runChild := fun _ _ _ => .signaled }

/-- A device on which the write of the trailing marker, the ninth write,
stops after three bytes. -/
def OutputDevice.markerWriteFails : OutputDevice :=
  { openErr := none, writeFault := fun k => if k = 8 then some 3 else none }

/-- A key file `ed.pem` whose PEM block holds a PKCS#8 Ed25519 key: the
PKCS#8 parser succeeds with a key that is not RSA, the PKCS#1 parser fails. -/
def KeyEnv.sampleEd25519 : KeyEnv :=
  { readFile := fun _ => .ok [45, 45, 45]
    pemDecode := fun _ => some [48, 46]
    ParsePKCS8PrivateKey := fun _ => .ok (.otherKey "Ed25519")
    ParsePKCS1PrivateKey := fun _ => .error (.ioError "x509: failed to parse private key") }

/-- A key file whose PEM block holds a PKCS#1 RSA key (as `keygen` writes
it): the PKCS#8 parser fails, the PKCS#1 parser returns the key. -/
def KeyEnv.samplePKCS1 : KeyEnv :=
  { readFile := fun _ => .ok [45, 45, 45]
    pemDecode := fun _ => some [48, 130]
    ParsePKCS8PrivateKey := fun _ => .error (.ioError "x509: failed to parse private key")
    ParsePKCS1PrivateKey := fun _ => .ok { N := 3233, E := 17, D := 413, Primes := [61, 53] } }

/-- The names of the regular-file entries of an archive, in archive order. -/
def regularNames : List TarItem → List GoString
  | [] => []
  | .entry header _ :: rest =>
    if header.Typeflag = .TypeReg then header.Name :: regularNames rest else regularNames rest
  | .corrupt _ :: rest => regularNames rest

/-- A payload archive with a directory `pkg`, the wheel `pkg/a.whl`, a text
file, a symbolic link and a directory whose names end in `.whl`, and the
wheel `b.whl`. -/
def Launcher.samplePayload : List TarItem :=
  [.entry { Name := "pkg".toList, Typeflag := .TypeDir, Linkname := [], Mode := 0o755 } [],
   .entry { Name := "pkg/a.whl".toList, Typeflag := .TypeReg, Linkname := [], Mode := 0o644 }
     [1, 2],
   .entry { Name := "README.txt".toList, Typeflag := .TypeReg, Linkname := [], Mode := 0o644 }
     [3],
   .entry { Name := "link.whl".toList, Typeflag := .TypeSymlink, Linkname := "b.whl".toList,
            Mode := 0o777 } [],
   .entry { Name := "dir.whl".toList, Typeflag := .TypeDir, Linkname := [], Mode := 0o755 } [],
   .entry { Name := "b.whl".toList, Typeflag := .TypeReg, Linkname := [], Mode := 0o644 } [4]]

/-- The sample environment in which the payload section `P` decodes to
`samplePayload` and the other archives are empty. -/
def Launcher.sampleWheels : LauncherEnv :=
  { Launcher.sampleRun with
    decodeArchive := fun b => if b = [80] then Launcher.samplePayload else [] }

/-- The sections of `sampleExe`. -/
def Launcher.sampleSections : Sections :=
  { launcherBytes := [76, 65, 85, 78, 67, 72], uvBinBytes := [85, 86], pythonTgzBytes := [80, 89],
    metadataTgzBytes := [77], payloadTgzBytes := [80], signatureBytes := [1, 2, 3],
    publicKeyPEMBytes := [4, 5] }

/-! ## `createSourceArchive` (`pspf-packager/cmd/utils.go`) -/

/-- The file types that are neither regular file, directory nor symbolic
link, as `fs.FileMode` tells them apart. -/
inductive SpecialKind where
  | namedPipe
  | charDevice
  | blockDevice
  | socket
  | irregular
deriving DecidableEq, Repr

/-- The type bits of an `fs.FileMode`. -/
inductive FileKind where
  | regular
  | dir
  | symlink
  | special (kind : SpecialKind)
deriving DecidableEq, Repr

/-- What `os.Stat` reports of a file, as far as `tar.FileInfoHeader` reads it:
the base name, the type bits of `fi.Mode()`, and in `mode` the permission bits
together with the setuid, setgid and sticky bits as tar stores them. -/
structure FileInfo where
  Name : GoString
  kind : FileKind
  mode : Nat
deriving DecidableEq, Repr

namespace tar

/-- Function `tar.FileInfoHeader(fi, link)` of `archive/tar`, for the header
fields this development keeps. The flags `TypeFifo`, `TypeChar` and
`TypeBlock` are `Typeflag.other`; a socket and a file of unknown type are
errors. -/
def FileInfoHeader (fi : FileInfo) (link : GoString) : Except Err Header :=
  match fi.kind with
  | .regular => .ok { Name := fi.Name, Typeflag := .TypeReg, Linkname := [], Mode := fi.mode }
  | .dir =>
    .ok { Name := fi.Name ++ ['/'], Typeflag := .TypeDir, Linkname := [], Mode := fi.mode }
  | .symlink =>
    .ok { Name := fi.Name, Typeflag := .TypeSymlink, Linkname := link, Mode := fi.mode }
  | .special .charDevice =>
    .ok { Name := fi.Name, Typeflag := .other, Linkname := [], Mode := fi.mode }
  | .special .blockDevice =>
    .ok { Name := fi.Name, Typeflag := .other, Linkname := [], Mode := fi.mode }
  | .special .namedPipe =>
    .ok { Name := fi.Name, Typeflag := .other, Linkname := [], Mode := fi.mode }
  | .special .socket => .error (.ioError "archive/tar: sockets not supported")
  | .special .irregular => .error (.ioError "archive/tar: unknown file mode")

end tar

/-- Function `filepath.ToSlash` (Unix: the separator is `/` already). -/
def filepath.ToSlash (path : GoString) : GoString := path

/-- What `os.Stat` and `os.Open` find at the end of a symbolic link: a
regular file with its mode and what reading it gives, a directory, or a file
of another type. -/
inductive Pointee where
  | regular (mode : Nat) (content : Except Err Bytes)
  | dir (mode : Nat)
  | special (kind : SpecialKind) (mode : Nat)
deriving Repr

/-- A file of the source tree that `os.Lstat` does not report as a directory:
a regular file with its mode and what reading it gives, a symbolic link with
its target text and what it resolves to (`none`: `os.Stat` fails), or a file
of another type. -/
inductive Leaf where
  | regular (mode : Nat) (content : Except Err Bytes)
  | symlink (target : GoString) (pointee : Option Pointee)
  | special (kind : SpecialKind) (mode : Nat)
deriving Repr

/-- The entries of a directory in the order `filepath.Walk` visits them (by
name), each directory with its mode, the error of reading it, if any, and its
own entries. -/
inductive Tree where
  | nil
  | file (name : GoString) (leaf : Leaf) (rest : Tree)
  | dir (name : GoString) (mode : Nat) (readErr : Option Err) (children : Tree) (rest : Tree)
deriving Repr

/-- The call `os.Stat(path)` on a leaf, together with what `os.Open(path)` and
`io.Copy` then read: both follow symbolic links. `none`: `os.Stat` fails. -/
def Leaf.stat (name : GoString) : Leaf → Option (FileInfo × Except Err Bytes)
  | .regular mode content => some ({ Name := name, kind := .regular, mode := mode }, content)
  | .symlink _ none => none
  | .symlink _ (some (.regular mode content)) =>
    some ({ Name := name, kind := .regular, mode := mode }, content)
  | .symlink _ (some (.dir mode)) => some ({ Name := name, kind := .dir, mode := mode }, .ok [])
  | .symlink _ (some (.special kind mode)) =>
    some ({ Name := name, kind := .special kind, mode := mode }, .ok [])
  | .special kind mode => some ({ Name := name, kind := .special kind, mode := mode }, .ok [])

/-- What a call of the function given to `filepath.Walk` returns: `nil`, after
writing `written` to the tar stream, `filepath.SkipDir`, or an error. -/
inductive WalkStep where
  | next (written : List TarItem)
  | skipDir
  | fail (err : Err)
deriving Repr

namespace Packager

/-- The loop over `excludePatterns` in the function given to `filepath.Walk`:
an error of `doublestar.Match` ends it, the first match ends it with `true`. -/
def matchesExclude (doublestarMatch : GoString → GoString → Except Err Bool)
    (relPath : GoString) : List GoString → Except Err Bool
  | [] => .ok false
  | pattern :: rest =>
    match doublestarMatch pattern relPath with
    | .error err => .error err
    | .ok true => .ok true
    | .ok false => matchesExclude doublestarMatch relPath rest

/-- The function `createSourceArchive` gives to `filepath.Walk`, called for a
file with relative path `relPath`; `isDir` is `info.IsDir()` (from
`os.Lstat`), `err` the error `Walk` passes, `stat` what `os.Stat(path)` and
reading the file give. -/
def walkFn (doublestarMatch : GoString → GoString → Except Err Bool)
    (excludePatterns : List GoString) (relPath : GoString) (isDir : Bool) (err : Option Err)
    (stat : Option (FileInfo × Except Err Bytes)) : WalkStep :=
  match err with
  | some err => .fail err
  | none =>
  if relPath = ['.'] then .next []
  else
  match matchesExclude doublestarMatch relPath excludePatterns with
  | .error err => .fail err
  | .ok true => if isDir then .skipDir else .next []
  | .ok false =>
  match stat with
  | none => .next []
  | some (realInfo, content) =>
  match tar.FileInfoHeader realInfo [] with
  | .error err => .fail err
  | .ok hdr =>
  let hdr : Header := { hdr with Name := filepath.ToSlash relPath }
  if realInfo.kind = .regular then
    match content with
    | .error err => .fail err
    | .ok data => .next [.entry hdr data]
  else .next [.entry hdr []]

/-- The path relative to the source directory of the file `name` in the
directory with relative path `dirRel`: `filepath.Rel(sourceDir,
filepath.Join(path, name))`. -/
def relChild (dirRel name : GoString) : GoString :=
  if dirRel = ['.'] then name else dirRel ++ '/' :: name

/-- The loop of `filepath.Walk` over the entries of the directory with
relative path `dirRel`: the entries written to the tar stream or the error
returned. A directory whose call returns `SkipDir` is not entered; `SkipDir`
from a call for another file would leave the rest of the directory out. -/
def walkEntries (doublestarMatch : GoString → GoString → Except Err Bool)
    (excludePatterns : List GoString) (dirRel : GoString) : Tree → Except Err (List TarItem)
  | .nil => .ok []
  | .file name leaf rest =>
    match walkFn doublestarMatch excludePatterns (relChild dirRel name) false none
        (leaf.stat name) with
    | .fail err => .error err
    | .skipDir => .ok []
    | .next written =>
      match walkEntries doublestarMatch excludePatterns dirRel rest with
      | .error err => .error err
      | .ok more => .ok (written ++ more)
  | .dir name mode readErr children rest =>
    match walkFn doublestarMatch excludePatterns (relChild dirRel name) true readErr
        (some ({ Name := name, kind := .dir, mode := mode }, .ok [])) with
    | .fail err => .error err
    | .skipDir => walkEntries doublestarMatch excludePatterns dirRel rest
    | .next written =>
      match (if readErr.isSome then .ok []
          else walkEntries doublestarMatch excludePatterns (relChild dirRel name) children) with
      | .error err => .error err
      | .ok below =>
        match walkEntries doublestarMatch excludePatterns dirRel rest with
        | .error err => .error err
        | .ok more => .ok (written ++ below ++ more)

/-- Function `createSourceArchive`: the entries written to the tar stream, in
order, or the error returned. `sourceDir` is what `filepath.Walk` finds at the
source directory: the error of `os.Lstat` or of reading it, or its entries. -/
def createSourceArchive (doublestarMatch : GoString → GoString → Except Err Bool)
    (sourceDir : Except Err Tree) (excludePatterns : List GoString) :
    Except Err (List TarItem) :=
  match sourceDir with
  | .error err =>
    match walkFn doublestarMatch excludePatterns ['.'] true (some err) none with
    | .fail err => .error err
    | _ => .ok []
  | .ok entries =>
    match walkFn doublestarMatch excludePatterns ['.'] true none
        (some ({ Name := ['.'], kind := .dir, mode := 0o755 }, .ok [])) with
    | .fail err => .error err
    | .skipDir => .ok []
    | .next written =>
      match walkEntries doublestarMatch excludePatterns ['.'] entries with
      | .error err => .error err
      | .ok below => .ok (written ++ below)

end Packager

/-! ### The files of a tree, for the statements about the archive -/

/-- A file of the tree other than the root: a leaf or a directory. -/
inductive TreeItem where
  | leaf (leaf : Leaf)
  | dir (mode : Nat)
deriving Repr

/-- A file of the tree with its `/`-separated path relative to the root and
the paths of the directories of the tree it lies under. -/
structure Located where
  path : GoString
  under : List GoString
  item : TreeItem
deriving Repr

/-- All files of the entries of a directory and below, in the order of the
walk, the directory having the relative path `dirRel` and lying under
`under`. -/
def Tree.located (dirRel : GoString) (under : List GoString) : Tree → List Located
  | .nil => []
  | .file name leaf rest =>
    { path := Packager.relChild dirRel name, under := under, item := .leaf leaf } ::
      Tree.located dirRel under rest
  | .dir name mode _ children rest =>
    { path := Packager.relChild dirRel name, under := under, item := .dir mode } ::
      (Tree.located (Packager.relChild dirRel name) (under ++ [Packager.relChild dirRel name])
          children ++
        Tree.located dirRel under rest)

/-- Whether a path matches one of the exclusion patterns. -/
def matchesAny (doublestarMatch : GoString → GoString → Except Err Bool)
    (excludePatterns : List GoString) (path : GoString) : Bool :=
  excludePatterns.any (fun pattern =>
    match doublestarMatch pattern path with
    | .ok true => true
    | _ => false)

/-- A file is kept when its path matches no exclusion pattern and it lies
under no directory whose path matches one. -/
def Located.kept (doublestarMatch : GoString → GoString → Except Err Bool)
    (excludePatterns : List GoString) (l : Located) : Bool :=
  !matchesAny doublestarMatch excludePatterns l.path &&
    l.under.all (fun d => !matchesAny doublestarMatch excludePatterns d)

/-- A regular file of the tree. -/
def Located.isRegularFile (l : Located) : Bool :=
  match l.item with
  | .leaf (.regular _ _) => true
  | _ => false

/-- A symbolic link of the tree that resolves to a regular file. -/
def Located.isLinkToRegular (l : Located) : Bool :=
  match l.item with
  | .leaf (.symlink _ (some (.regular _ _))) => true
  | _ => false

/-- The header-only entry of a named pipe or device. -/
def specialEntry (path : GoString) (kind : SpecialKind) (mode : Nat) : Option TarItem :=
  match kind with
  | .namedPipe | .charDevice | .blockDevice =>
    some (.entry { Name := path, Typeflag := .other, Linkname := [], Mode := mode } [])
  | .socket | .irregular => none

/-- The archive entry of a file of the tree that is kept: a regular file, or
a symbolic link to one, gives a regular-file entry with the mode and content
found; a directory, or a link to one, a directory entry with the mode found;
a dangling link none; no link target is stored. -/
def Located.entry (l : Located) : Option TarItem :=
  match l.item with
  | .dir mode =>
    some (.entry { Name := l.path, Typeflag := .TypeDir, Linkname := [], Mode := mode } [])
  | .leaf (.regular mode (.ok content)) =>
    some (.entry { Name := l.path, Typeflag := .TypeReg, Linkname := [], Mode := mode } content)
  | .leaf (.regular _ (.error _)) => none
  | .leaf (.symlink _ none) => none
  | .leaf (.symlink _ (some (.regular mode (.ok content)))) =>
    some (.entry { Name := l.path, Typeflag := .TypeReg, Linkname := [], Mode := mode } content)
  | .leaf (.symlink _ (some (.regular _ (.error _)))) => none
  | .leaf (.symlink _ (some (.dir mode))) =>
    some (.entry { Name := l.path, Typeflag := .TypeDir, Linkname := [], Mode := mode } [])
  | .leaf (.symlink _ (some (.special kind mode))) => specialEntry l.path kind mode
  | .leaf (.special kind mode) => specialEntry l.path kind mode

/-- No file at the top of the tree is named `.`; a directory listing never
holds that name. -/
def Tree.namesOk : Tree → Bool
  | .nil => true
  | .file name _ rest => name ≠ ['.'] && Tree.namesOk rest
  | .dir name _ _ _ rest => name ≠ ['.'] && Tree.namesOk rest

/-- Every directory of the tree can be read, every regular file, also behind
a link, can be read, and there is no socket and no file of unknown type, also
behind a link. -/
def Tree.readable : Tree → Bool
  | .nil => true
  | .file _ leaf rest =>
    (match leaf with
     | .regular _ (.ok _) => true
     | .regular _ (.error _) => false
     | .symlink _ none => true
     | .symlink _ (some (.regular _ (.ok _))) => true
     | .symlink _ (some (.regular _ (.error _))) => false
     | .symlink _ (some (.dir _)) => true
     | .symlink _ (some (.special kind _)) => kind ≠ .socket && kind ≠ .irregular
     | .special kind _ => kind ≠ .socket && kind ≠ .irregular) && Tree.readable rest
  | .dir _ _ readErr children rest =>
    readErr.isNone && Tree.readable children && Tree.readable rest

/-- A file that makes `createSourceArchive` fail when it is kept: a regular
file, also behind a link, that cannot be read, a socket or a file of unknown
type, also behind a link. -/
def Located.unreadable (l : Located) : Bool :=
  match l.item with
  | .dir _ => false
  | .leaf (.regular _ (.ok _)) => false
  | .leaf (.regular _ (.error _)) => true
  | .leaf (.symlink _ none) => false
  | .leaf (.symlink _ (some (.regular _ (.ok _)))) => false
  | .leaf (.symlink _ (some (.regular _ (.error _)))) => true
  | .leaf (.symlink _ (some (.dir _))) => false
  | .leaf (.symlink _ (some (.special kind _))) => kind = .socket || kind = .irregular
  | .leaf (.special kind _) => kind = .socket || kind = .irregular

/-- The archive entry of a file of the tree under the exclusion patterns:
its entry when it is kept, none otherwise. -/
def Located.archived (doublestarMatch : GoString → GoString → Except Err Bool)
    (excludePatterns : List GoString) (l : Located) : Option TarItem :=
  if l.kept doublestarMatch excludePatterns then l.entry else none

/-- Function `doublestar.Match` on patterns without metacharacters: such a
pattern matches the path equal to it and no other. -/
def Packager.literalMatch (pattern name : GoString) : Except Err Bool :=
  .ok (decide (pattern = name))

/-- A source directory with the regular file `a.txt` and the symbolic link
`link` to it. -/
def Packager.sampleTreeLink : Tree :=
  .file "a.txt".toList (.regular 0o644 (.ok [104, 105]))
    (.file "link".toList (.symlink "a.txt".toList (some (.regular 0o644 (.ok [104, 105]))))
      .nil)

/-- A source directory with the empty directory `d` of mode 0700, the named
pipe `fifo`, and the symbolic link `link` to the regular file `/etc/hostname`. -/
def Packager.sampleTreeKinds : Tree :=
  .dir "d".toList 0o700 none .nil
    (.file "fifo".toList (.special .namedPipe 0o644)
      (.file "link".toList
        (.symlink "/etc/hostname".toList (some (.regular 0o644 (.ok [104]))))
        .nil))

/-- The source directory of the repository's test: `.venv/ignored.txt`,
`file1.txt` and `subdir/file2.txt`. -/
def Packager.sampleTreeTest : Tree :=
  .dir ".venv".toList 0o755 none
    (.file "ignored.txt".toList (.regular 0o644 (.ok [105])) .nil)
    (.file "file1.txt".toList (.regular 0o644 (.ok [104]))
      (.dir "subdir".toList 0o755 none
        (.file "file2.txt".toList (.regular 0o644 (.ok [119])) .nil)
        .nil))

/-! ## The manifest: `preparePayloadArtifacts` and the check of `verifyCmd` -/

/-- The struct `ManifestFileEntry`. -/
structure ManifestFileEntry where
  PathInArchive : GoString
  Sha256 : GoString
  ArchiveContainer : GoString
deriving DecidableEq, Repr

/-- The struct `Manifests`. -/
structure Manifests where
  UvBinarySha256 : GoString
  Files : List ManifestFileEntry
deriving DecidableEq, Repr

/-- What `preparePayloadArtifacts` gets from the operating system and the
libraries: the matcher, what the walk finds at `payloadDir`, the results of
`os.MkdirTemp`, `os.WriteFile` (by path), SHA-256 and `json.MarshalIndent`.
An archive is kept as the list of its entries; the tar and zstd encodings are
not modelled. -/
structure ArtifactEnv where
  doublestarMatch : GoString → GoString → Except Err Bool
  payloadDir : Except Err Tree
  mkdirTemp : Except Err GoString
  writeFile : GoString → Option Err
  sha256 : Bytes → Bytes
  marshalIndent : Manifests → Except Err Bytes

/-- What the manifest check of `verifyCmd` gets from the operating system and
the libraries. -/
structure VerifyEnv where
  mkdirTemp : Except Err GoString
  fs : FileSystem
  sha256 : Bytes → Bytes
  jsonUnmarshal : Bytes → Except Err Manifests

/-- The content of the file at `path` in a fresh directory after the file
system calls of `unTar`: `os.OpenFile` with `O_CREATE` creates it, `io.Copy`
writes from the start without truncating. `none`: there is no such file. -/
def fileAfter (path : GoString) (ops : List FsOp) : Option Bytes :=
  ops.foldl (fun (cur : Option Bytes) op =>
    match op with
    | .OpenFile p _ => if p = path then some (cur.getD []) else cur
    | .Copy p content =>
      if p = path then some (content ++ (cur.getD []).drop content.length) else cur
    | _ => cur) none

namespace Packager

/-- The value `manifestData` of `preparePayloadArtifacts`: the resolver hash
it was given and, when `configJsonBytes` is not empty, the entry of
`config.json`. -/
def manifestData (sha256 : Bytes → Bytes) (configJsonBytes : Bytes) (uvBinHashHex : GoString) :
    Manifests :=
  let metadataManifestEntries : List ManifestFileEntry :=
    if configJsonBytes.length > 0 then
      [{ PathInArchive := "config.json".toList
         Sha256 := hexEncode (sha256 configJsonBytes)
         ArchiveContainer := "metadata.tgz".toList }]
    else []
  { UvBinarySha256 := uvBinHashHex, Files := metadataManifestEntries }

/-- The metadata assembly directory after the two writes of
`preparePayloadArtifacts`, as the walk finds it: `config.json`, when it was
written, then `manifests.json` (files of mode 0644 under the usual umask). -/
def metadataAssembly (configJsonBytes manifestJsonBytes : Bytes) : Tree :=
  if configJsonBytes.length > 0 then
    .file "config.json".toList (.regular 0o644 (.ok configJsonBytes))
      (.file "manifests.json".toList (.regular 0o644 (.ok manifestJsonBytes)) .nil)
  else .file "manifests.json".toList (.regular 0o644 (.ok manifestJsonBytes)) .nil

/-- Function `preparePayloadArtifacts`: the payload archive and the metadata
archive, or the error. -/
def preparePayloadArtifacts (env : ArtifactEnv) (configJsonBytes : Bytes)
    (uvBinHashHex : GoString) (excludePatterns : List GoString) :
    Except Err (List TarItem × List TarItem) :=
  match createSourceArchive env.doublestarMatch env.payloadDir excludePatterns with
  | .error err => .error err
  | .ok pythonCodeTgzBytes =>
  match env.mkdirTemp with
  | .error err => .error err
  | .ok metadataAssemblyDir =>
  match (if configJsonBytes.length > 0 then
      env.writeFile (filepath.Join metadataAssemblyDir "config.json".toList) else none) with
  | some err => .error err
  | none =>
  match env.marshalIndent (manifestData env.sha256 configJsonBytes uvBinHashHex) with
  | .error err => .error err
  | .ok manifestJsonBytes =>
  match env.writeFile (filepath.Join metadataAssemblyDir "manifests.json".toList) with
  | some err => .error err
  | none =>
  match createSourceArchive env.doublestarMatch
      (.ok (metadataAssembly configJsonBytes manifestJsonBytes)) excludePatterns with
  | .error err => .error err
  | .ok metadataTgzBytes => .ok (pythonCodeTgzBytes, metadataTgzBytes)

/-- Lines 101 and 102 of `build.go`: the call of `preparePayloadArtifacts`
with the hex SHA-256 of the resolver and the `--exclude` patterns. -/
def buildArtifacts (env : ArtifactEnv) (uvBinBytes configJsonBytes : Bytes)
    (buildExcludePatterns : List GoString) : Except Err (List TarItem × List TarItem) :=
  preparePayloadArtifacts env configJsonBytes (hexEncode (env.sha256 uvBinBytes))
    buildExcludePatterns

/-- Lines 99 to 131 of `verify.go`, the manifest check of `verifyCmd` on the
metadata archive and the resolver section read from the file: `.ok` when the
command goes on to report success, the error logged before `os.Exit(1)`
otherwise. -/
def verifyManifest (env : VerifyEnv) (metadataTgz : List TarItem) (uvBinBytes : Bytes) :
    Except Err Unit :=
  match env.mkdirTemp with
  | .error err => .error err
  | .ok tempExtractDir =>
  match unTar env.fs metadataTgz tempExtractDir with
  | (.error err, _) => .error err
  | (.ok _, ops) =>
  match fileAfter (filepath.Join tempExtractDir "manifests.json".toList) ops with
  | none => .error (.ioError "Failed to read manifests.json")
  | some manifestsBytes =>
  match env.jsonUnmarshal manifestsBytes with
  | .error err => .error err
  | .ok manifests =>
  if manifests.UvBinarySha256 ≠ hexEncode (env.sha256 uvBinBytes) then
    .error (.ioError "Embedded UV binary CHECKSUM MISMATCH against manifest.")
  else .ok ()

/-- A build environment for the manifest: an empty payload directory, every
call succeeds, the SHA-256 of anything is taken to be `ab cd`, and
`json.MarshalIndent` is stood in for by the text of `uv_binary_sha256`. -/
def sampleArtifactEnv : ArtifactEnv :=
  { doublestarMatch := literalMatch
    payloadDir := .ok .nil
    mkdirTemp := .ok "/tmp/pspf-metadata-assembly-1".toList
    writeFile := fun _ => none
    sha256 := fun _ => [0xab, 0xcd]
    marshalIndent := fun m => .ok (asciiBytes m.UvBinarySha256) }

/-- The environment of the verify command that goes with `sampleArtifactEnv`:
`json.Unmarshal` reads back the text of `uv_binary_sha256`. -/
def sampleVerifyEnv : VerifyEnv :=
  { mkdirTemp := .ok "/tmp/pspf-verify-extract-1".toList
    fs := FileSystem.healthy
    sha256 := fun _ => [0xab, 0xcd]
    jsonUnmarshal := fun b => .ok { UvBinarySha256 := b.map Char.ofNat, Files := [] } }

end Packager


/-! # Lemmas and theorems -/

/-! ## Little-endian codec lemmas -/

@[simp] theorem putUint_length (w v : Nat) : (putUint w v).length = w := by
  induction w generalizing v with
  | zero => rfl
  | succ w ih => simp [putUint, ih]

theorem putUint_lt (w v b : Nat) (hb : b ∈ putUint w v) : b < 256 := by
  induction w generalizing v with
  | zero => simp [putUint] at hb
  | succ w ih =>
    simp only [putUint, List.mem_cons] at hb
    rcases hb with rfl | hb
    · exact Nat.mod_lt _ (by norm_num)
    · exact ih _ hb

theorem putUint_getElem? (w v i : Nat) (hi : i < w) :
    (putUint w v)[i]? = some (v / 256 ^ i % 256) := by
  induction w generalizing v i with
  | zero => omega
  | succ w ih =>
    cases i with
    | zero => simp [putUint]
    | succ i =>
      simp only [putUint, List.getElem?_cons_succ]
      rw [ih _ _ (by omega), Nat.div_div_eq_div_mul, pow_succ, Nat.mul_comm]

theorem getUint_putUint_append (w v : Nat) (r : Bytes) :
    getUint w (putUint w v ++ r) = v % 256 ^ w := by
  induction w generalizing v with
  | zero => simp [getUint, Nat.mod_one]
  | succ w ih =>
    show v % 256 + 256 * getUint w (putUint w (v / 256) ++ r) = _
    rw [ih, pow_succ, Nat.mul_comm (256 ^ w) 256, Nat.mod_mul]

theorem drop_putUint_append (n w v : Nat) (r : Bytes) (h : w ≤ n) :
    (putUint w v ++ r).drop n = r.drop (n - w) := by
  rw [List.drop_append_eq_append_drop]
  simp [List.drop_of_length_le, h]

theorem take_putUint_append (w v : Nat) (r : Bytes) :
    (putUint w v ++ r).take w = putUint w v := by
  rw [List.take_append_eq_append_take]
  simp

theorem putUint_getUint (w : Nat) (b : Bytes) (hlen : w ≤ b.length)
    (hb : ∀ x ∈ b, x < 256) : putUint w (getUint w b) = b.take w := by
  induction w generalizing b with
  | zero => simp [putUint]
  | succ w ih =>
    cases b with
    | nil => simp at hlen
    | cons x xs =>
      have hx : x < 256 := hb x (by simp)
      have hxs : ∀ y ∈ xs, y < 256 := fun y hy => hb y (by simp [hy])
      simp only [getUint, putUint, List.take_succ_cons]
      have h1 : (x + 256 * getUint w xs) % 256 = x := by omega
      have h2 : (x + 256 * getUint w xs) / 256 = getUint w xs := by omega
      rw [h1, h2, ih xs (by simpa using hlen) hxs]

theorem getUint_lt (w : Nat) (b : Bytes) (hb : ∀ x ∈ b, x < 256) : getUint w b < 256 ^ w := by
  induction w generalizing b with
  | zero => simp [getUint]
  | succ w ih =>
    cases b with
    | nil => simp [getUint]
    | cons x xs =>
      have hx : x < 256 := hb x (by simp)
      have := ih xs (fun y hy => hb y (by simp [hy]))
      simp only [getUint, pow_succ]
      omega

theorem getUint_take (w : Nat) (b : Bytes) : getUint w (b.take w) = getUint w b := by
  induction w generalizing b with
  | zero => simp [getUint]
  | succ w ih =>
    cases b with
    | nil => simp [getUint]
    | cons x xs => simp [getUint, ih]

/-! ## Footer codec lemmas -/

@[simp] theorem Footer.encode_length (f : Footer) : f.encode.length = 108 := by
  simp [Footer.encode]

theorem Footer.encode_lt (f : Footer) (b : Nat) (hb : b ∈ f.encode) : b < 256 := by
  simp only [Footer.encode, List.mem_append] at hb
  rcases hb with h | h | h | h | h | h | h | h | h | h | h | h | h | h | h | h <;>
    exact putUint_lt _ _ _ h

theorem Footer.decode_encode (f : Footer) (hf : f.InRange) : Footer.decode f.encode = f := by
  obtain ⟨h1, h2, h3, h4, h5, h6, h7, h8, h9, h10, h11, h12, h13, h14, h15, h16⟩ := hf
  have e (w v : Nat) : getUint w (putUint w v) = v % 256 ^ w := by
    simpa using getUint_putUint_append w v []
  cases f
  simp only [Footer.decode, Footer.encode, drop_putUint_append, getUint_putUint_append,
    Nat.reduceLeDiff, Nat.reduceSub, List.drop_zero, e, Footer.mk.injEq]
  exact ⟨Nat.mod_eq_of_lt h1, Nat.mod_eq_of_lt h2, Nat.mod_eq_of_lt h3, Nat.mod_eq_of_lt h4,
    Nat.mod_eq_of_lt h5, Nat.mod_eq_of_lt h6, Nat.mod_eq_of_lt h7, Nat.mod_eq_of_lt h8,
    Nat.mod_eq_of_lt h9, Nat.mod_eq_of_lt h10, Nat.mod_eq_of_lt h11, Nat.mod_eq_of_lt h12,
    Nat.mod_eq_of_lt h13, Nat.mod_eq_of_lt h14, Nat.mod_eq_of_lt h15, Nat.mod_eq_of_lt h16⟩


theorem slice_step (b : Bytes) (n k m : Nat) (h : m = n + k) :
    (b.drop n).take k ++ b.drop m = b.drop n := by
  subst h
  rw [← List.drop_drop]
  exact List.take_append_drop k (b.drop n)

theorem Footer.encode_decode (b : Bytes) (hlen : b.length = 108) (hb : ∀ x ∈ b, x < 256) :
    (Footer.decode b).encode = b := by
  have hd (n : Nat) : ∀ x ∈ b.drop n, x < 256 := fun x hx => hb x (List.mem_of_mem_drop hx)
  have e (w n : Nat) (h : n + w ≤ 108) :
      putUint w (getUint w (b.drop n)) = (b.drop n).take w :=
    putUint_getUint w _ (by rw [List.length_drop]; omega) (hd n)
  have e0 : putUint 8 (getUint 8 b) = (b.drop 0).take 8 := by simpa using e 8 0 (by omega)
  have elast : (b.drop 104).take 4 = b.drop 104 :=
    List.take_of_length_le (by rw [List.length_drop]; omega)
  simp only [Footer.decode, Footer.encode]
  rw [e0, e 8 8 (by omega), e 8 16 (by omega), e 8 24 (by omega), e 8 32 (by omega),
    e 8 40 (by omega), e 8 48 (by omega), e 8 56 (by omega), e 8 64 (by omega),
    e 8 72 (by omega), e 8 80 (by omega), e 8 88 (by omega), e 2 96 (by omega),
    e 2 98 (by omega), e 4 100 (by omega), e 4 104 (by omega), elast,
    slice_step b 100 4 104 rfl, slice_step b 98 2 100 rfl, slice_step b 96 2 98 rfl,
    slice_step b 88 8 96 rfl, slice_step b 80 8 88 rfl, slice_step b 72 8 80 rfl,
    slice_step b 64 8 72 rfl, slice_step b 56 8 64 rfl, slice_step b 48 8 56 rfl,
    slice_step b 40 8 48 rfl, slice_step b 32 8 40 rfl, slice_step b 24 8 32 rfl,
    slice_step b 16 8 24 rfl, slice_step b 8 8 16 rfl, slice_step b 0 8 8 rfl, List.drop_zero]

/-! ## CRC-32 lemmas -/

namespace crc32

theorem IEEE_lt : IEEE < 2 ^ 32 := by decide

theorem IEEE_testBit : IEEE.testBit 31 = true := by decide

theorem bitStep_eq (poly crc : Nat) :
    bitStep poly crc = if crc % 2 = 1 then (crc / 2) ^^^ poly else crc / 2 := by
  simp [bitStep, Nat.and_one_is_mod, Nat.shiftRight_eq_div_pow]

theorem bitStep_lt (poly crc : Nat) (hp : poly < 2 ^ 32) (hc : crc < 2 ^ 32) :
    bitStep poly crc < 2 ^ 32 := by
  rw [bitStep_eq]
  have h2 : crc / 2 < 2 ^ 32 := by omega
  split
  · exact Nat.xor_lt_two_pow h2 hp
  · exact h2

theorem bitStep_injective (poly a b : Nat) (hp : poly.testBit 31 = true)
    (ha : a < 2 ^ 32) (hb : b < 2 ^ 32) (h : bitStep poly a = bitStep poly b) : a = b := by
  rw [bitStep_eq, bitStep_eq] at h
  have key (x y : Nat) (hx : x < 2 ^ 32) (hy : y < 2 ^ 32) : (x / 2) ^^^ poly ≠ y / 2 := by
    intro hxy
    have h1 : ((x / 2) ^^^ poly).testBit 31 = true := by
      rw [Nat.testBit_xor, hp, Nat.testBit_lt_two_pow (show x / 2 < 2 ^ 31 by omega)]
      rfl
    rw [hxy, Nat.testBit_lt_two_pow (show y / 2 < 2 ^ 31 by omega)] at h1
    exact Bool.noConfusion h1
  by_cases h1 : a % 2 = 1 <;> by_cases h2 : b % 2 = 1
  · rw [if_pos h1, if_pos h2] at h
    have := Nat.xor_left_injective h
    simp only at this
    omega
  · rw [if_pos h1, if_neg h2] at h
    exact absurd h (key a b ha hb)
  · rw [if_neg h1, if_pos h2] at h
    exact absurd h.symm (key b a hb ha)
  · rw [if_neg h1, if_neg h2] at h
    omega

theorem xor_mod_two (a b : Nat) : (a ^^^ b) % 2 = (a % 2 + b % 2) % 2 := by
  have := Nat.testBit_xor a b 0
  simp only [Nat.testBit_zero] at this
  rcases Nat.mod_two_eq_zero_or_one a with ha | ha <;>
  rcases Nat.mod_two_eq_zero_or_one b with hb | hb <;>
  rcases Nat.mod_two_eq_zero_or_one (a ^^^ b) with hab | hab <;>
  simp [ha, hb, hab] at this ⊢

theorem bitStep_xor (poly a b : Nat) :
    bitStep poly (a ^^^ b) = bitStep poly a ^^^ bitStep poly b := by
  simp only [bitStep_eq]
  rw [xor_mod_two, Nat.xor_div_two]
  rcases Nat.mod_two_eq_zero_or_one a with ha | ha <;>
  rcases Nat.mod_two_eq_zero_or_one b with hb | hb
  · simp [ha, hb]
  · simp only [ha, hb]
    simp [Nat.xor_assoc]
  · simp only [ha, hb]
    simp only [Nat.reduceAdd, Nat.reduceMod, ↓reduceIte, Nat.add_zero, one_ne_zero,
      zero_ne_one]
    rw [Nat.xor_assoc, Nat.xor_assoc, Nat.xor_comm (b / 2) poly]
  · simp only [ha, hb]
    simp only [Nat.reduceAdd, Nat.reduceMod, ↓reduceIte, zero_ne_one]
    rw [Nat.xor_assoc, Nat.xor_comm poly, Nat.xor_assoc, Nat.xor_self, Nat.xor_zero]

theorem bitStep_double (poly h : Nat) : bitStep poly (2 * h) = h := by
  rw [bitStep_eq]
  have h1 : (2 * h) % 2 ≠ 1 := by omega
  rw [if_neg h1]
  omega

theorem iter_lt (poly : Nat) (hp : poly < 2 ^ 32) (k crc : Nat) (hc : crc < 2 ^ 32) :
    (bitStep poly)^[k] crc < 2 ^ 32 := by
  induction k generalizing crc with
  | zero => simpa using hc
  | succ k ih =>
    rw [Function.iterate_succ_apply]
    exact ih _ (bitStep_lt poly crc hp hc)

theorem iter_injective (poly : Nat) (hp : poly < 2 ^ 32) (hb : poly.testBit 31 = true)
    (k a b : Nat) (ha : a < 2 ^ 32) (hb2 : b < 2 ^ 32)
    (h : (bitStep poly)^[k] a = (bitStep poly)^[k] b) : a = b := by
  induction k generalizing a b with
  | zero => simpa using h
  | succ k ih =>
    rw [Function.iterate_succ_apply, Function.iterate_succ_apply] at h
    exact bitStep_injective poly a b hb ha hb2
      (ih _ _ (bitStep_lt poly a hp ha) (bitStep_lt poly b hp hb2) h)

theorem iter_xor (poly k a b : Nat) :
    (bitStep poly)^[k] (a ^^^ b) = (bitStep poly)^[k] a ^^^ (bitStep poly)^[k] b := by
  induction k generalizing a b with
  | zero => rfl
  | succ k ih =>
    rw [Function.iterate_succ_apply, Function.iterate_succ_apply, Function.iterate_succ_apply,
      bitStep_xor, ih]

theorem iter_shift (poly k h : Nat) : (bitStep poly)^[k] (2 ^ k * h) = h := by
  induction k generalizing h with
  | zero => simp
  | succ k ih =>
    rw [Function.iterate_succ_apply, pow_succ, Nat.mul_comm (2 ^ k) 2, Nat.mul_assoc,
      bitStep_double, ih]

theorem split_low_byte (crc : Nat) : crc = (crc % 256) ^^^ (2 ^ 8 * (crc / 256)) := by
  apply Nat.eq_of_testBit_eq
  intro i
  rw [Nat.testBit_xor, Nat.testBit_mul_pow_two, show (256 : Nat) = 2 ^ 8 by norm_num,
    Nat.testBit_mod_two_pow, ← Nat.shiftRight_eq_div_pow, Nat.testBit_shiftRight]
  by_cases hi : i < 8
  · simp [hi, Nat.not_le.mpr hi]
  · have : 8 + (i - 8) = i := by omega
    simp [hi, Nat.le_of_not_lt hi, this]

/-- The table-driven byte update is eight bitwise rounds on `crc ^ v`. -/
theorem updateByte_eq (poly crc v : Nat) :
    updateByte poly crc v = (bitStep poly)^[8] (crc ^^^ v) := by
  have key : crc ^^^ v = ((crc % 256) ^^^ v) ^^^ (2 ^ 8 * (crc / 256)) := by
    conv_lhs => rw [split_low_byte crc]
    rw [Nat.xor_assoc, Nat.xor_comm (2 ^ 8 * (crc / 256)) v, ← Nat.xor_assoc]
  rw [key, iter_xor, iter_shift, updateByte, tableEntry, Nat.shiftRight_eq_div_pow]

theorem updateByte_lt (poly crc v : Nat) (hp : poly < 2 ^ 32) (hc : crc < 2 ^ 32)
    (hv : v < 256) : updateByte poly crc v < 2 ^ 32 := by
  rw [updateByte_eq]
  exact iter_lt poly hp 8 _
    (Nat.xor_lt_two_pow hc (Nat.lt_of_lt_of_le hv (by norm_num)))

theorem updateByte_injective (poly : Nat) (hp : poly < 2 ^ 32) (hb : poly.testBit 31 = true)
    (a b v w : Nat) (ha : a < 2 ^ 32) (hb2 : b < 2 ^ 32) (hv : v < 256) (hw : w < 256)
    (h : updateByte poly a v = updateByte poly b w) : a ^^^ v = b ^^^ w := by
  rw [updateByte_eq, updateByte_eq] at h
  exact iter_injective poly hp hb 8 _ _
    (Nat.xor_lt_two_pow ha (Nat.lt_of_lt_of_le hv (by norm_num)))
    (Nat.xor_lt_two_pow hb2 (Nat.lt_of_lt_of_le hw (by norm_num))) h

theorem foldl_lt (poly : Nat) (hp : poly < 2 ^ 32) (p : Bytes) (hbytes : ∀ x ∈ p, x < 256)
    (s : Nat) (hs : s < 2 ^ 32) : p.foldl (updateByte poly) s < 2 ^ 32 := by
  induction p generalizing s with
  | nil => simpa using hs
  | cons x xs ih =>
    simp only [List.foldl_cons]
    exact ih (fun y hy => hbytes y (by simp [hy])) _
      (updateByte_lt poly s x hp hs (hbytes x (by simp)))

theorem foldl_injective (poly : Nat) (hp : poly < 2 ^ 32) (hb : poly.testBit 31 = true)
    (p : Bytes) (hbytes : ∀ x ∈ p, x < 256) (s t : Nat) (hs : s < 2 ^ 32) (ht : t < 2 ^ 32)
    (h : p.foldl (updateByte poly) s = p.foldl (updateByte poly) t) : s = t := by
  induction p generalizing s t with
  | nil => simpa using h
  | cons x xs ih =>
    simp only [List.foldl_cons] at h
    have hx : x < 256 := hbytes x (by simp)
    have := ih (fun y hy => hbytes y (by simp [hy])) _ _
      (updateByte_lt poly s x hp hs hx) (updateByte_lt poly t x hp ht hx) h
    exact Nat.xor_left_injective (updateByte_injective poly hp hb s t x x hs ht hx hx this)

theorem ChecksumIEEE_lt (data : Bytes) (hbytes : ∀ x ∈ data, x < 256) :
    ChecksumIEEE data < 2 ^ 32 := by
  unfold ChecksumIEEE simpleUpdate
  exact Nat.xor_lt_two_pow (foldl_lt IEEE IEEE_lt data hbytes _ (by decide)) (by decide)

/-- Two messages that differ in exactly one byte have different checksums. -/
theorem ChecksumIEEE_single_byte (pre post : Bytes) (a b : Nat)
    (hpre : ∀ x ∈ pre, x < 256) (hpost : ∀ x ∈ post, x < 256)
    (ha : a < 256) (hb : b < 256) (hab : a ≠ b) :
    ChecksumIEEE (pre ++ a :: post) ≠ ChecksumIEEE (pre ++ b :: post) := by
  unfold ChecksumIEEE simpleUpdate
  intro h
  have h1 := Nat.xor_left_injective h
  simp only [List.foldl_append, List.foldl_cons] at h1
  have hs : pre.foldl (updateByte IEEE) (0 ^^^ 0xffffffff) < 2 ^ 32 :=
    foldl_lt IEEE IEEE_lt pre hpre _ (by decide)
  have h2 := foldl_injective IEEE IEEE_lt IEEE_testBit post hpost _ _
    (updateByte_lt IEEE _ a IEEE_lt hs ha) (updateByte_lt IEEE _ b IEEE_lt hs hb) h1
  have h3 := updateByte_injective IEEE IEEE_lt IEEE_testBit _ _ a b hs hs ha hb h2
  exact hab (Nat.xor_right_injective h3)

/-- Replacing one byte of a message by a different byte changes its checksum. -/
theorem ChecksumIEEE_set_ne (m : Bytes) (hm : ∀ x ∈ m, x < 256) (p b : Nat)
    (hp : p < m.length) (hb : b < 256) (hne : m[p]? ≠ some b) :
    ChecksumIEEE (m.set p b) ≠ ChecksumIEEE m := by
  have hsplit : m = m.take p ++ m[p] :: m.drop (p + 1) := by
    rw [← List.drop_eq_getElem_cons hp, List.take_append_drop]
  have hset : m.set p b = m.take p ++ b :: m.drop (p + 1) := by
    rw [List.set_eq_take_append_cons_drop, if_pos hp]
  have hmp : m[p] ≠ b := by
    intro h
    apply hne
    rw [List.getElem?_eq_getElem hp, h]
  rw [hset]
  conv_rhs => rw [hsplit]
  exact ChecksumIEEE_single_byte _ _ b m[p]
    (fun x hx => hm x (List.mem_of_mem_take hx))
    (fun x hx => hm x (List.mem_of_mem_drop hx))
    hb (hm _ (List.getElem_mem hp)) (Ne.symm hmp)

end crc32

/-! ## Machine integer lemmas -/

theorem toUint64_toInt64 (x : Int) : toUint64 (toInt64 x) = toUint64 x := by
  unfold toUint64 toInt64
  split <;> omega

theorem toUint64_add_toInt64 (a b : Int) : toUint64 (toInt64 a + toInt64 b) = toUint64 (a + b) := by
  unfold toUint64 toInt64
  split <;> split <;> omega

theorem toUint64_addInt64 (a b : Int) : toUint64 (addInt64 a (toInt64 b)) = toUint64 (a + b) := by
  unfold addInt64
  rw [toUint64_toInt64]
  unfold toUint64 toInt64
  split <;> omega

theorem toInt64_addInt64 (a b : Int) : toInt64 (addInt64 a b) = addInt64 a b := by
  unfold addInt64 toInt64
  split <;> split <;> omega

theorem addInt64_congr (a b : Int) : addInt64 (toInt64 a) (toInt64 b) = toInt64 (a + b) := by
  unfold addInt64 toInt64
  split <;> split <;> split <;> split <;> omega

theorem toUint64_natCast (n : Nat) : toUint64 (n : Int) = n % 2 ^ 64 := by
  unfold toUint64
  omega

theorem toInt64_natCast (n : Nat) (h : n < 2 ^ 63) : toInt64 (n : Int) = n := by
  unfold toInt64
  split <;> omega


theorem Footer.CalculateChecksum_eq (f : Footer) : f.CalculateChecksum = .ok f.seal := by
  simp only [Footer.CalculateChecksum, binaryWrite, Footer.seal]

theorem Footer.VerifyChecksum_eq (f : Footer) :
    f.VerifyChecksum = .ok (decide (f.FooterStructChecksum =
      crc32.ChecksumIEEE (f.withChecksum 0).encode)) := by
  simp only [Footer.VerifyChecksum, binaryWrite]

theorem Footer.withChecksum_withChecksum (f : Footer) (c d : Nat) :
    (f.withChecksum c).withChecksum d = f.withChecksum d := by
  cases f; rfl

theorem Footer.withChecksum_checksum (f : Footer) (c : Nat) :
    (f.withChecksum c).FooterStructChecksum = c := by
  cases f; rfl

theorem Footer.withChecksum_magic (f : Footer) (c : Nat) :
    (f.withChecksum c).InternalFooterMagic = f.InternalFooterMagic := by
  cases f; rfl

theorem Footer.withChecksum_UvBinaryOffset (f : Footer) (c : Nat) :
    (f.withChecksum c).UvBinaryOffset = f.UvBinaryOffset := by
  cases f; rfl

theorem Footer.withChecksum_UvBinarySize (f : Footer) (c : Nat) :
    (f.withChecksum c).UvBinarySize = f.UvBinarySize := by
  cases f; rfl

theorem Footer.withChecksum_PythonInstallTgzOffset (f : Footer) (c : Nat) :
    (f.withChecksum c).PythonInstallTgzOffset = f.PythonInstallTgzOffset := by
  cases f; rfl

theorem Footer.withChecksum_PythonInstallTgzSize (f : Footer) (c : Nat) :
    (f.withChecksum c).PythonInstallTgzSize = f.PythonInstallTgzSize := by
  cases f; rfl

theorem Footer.withChecksum_MetadataTgzOffset (f : Footer) (c : Nat) :
    (f.withChecksum c).MetadataTgzOffset = f.MetadataTgzOffset := by
  cases f; rfl

theorem Footer.withChecksum_MetadataTgzSize (f : Footer) (c : Nat) :
    (f.withChecksum c).MetadataTgzSize = f.MetadataTgzSize := by
  cases f; rfl

theorem Footer.withChecksum_PayloadTgzOffset (f : Footer) (c : Nat) :
    (f.withChecksum c).PayloadTgzOffset = f.PayloadTgzOffset := by
  cases f; rfl

theorem Footer.withChecksum_PayloadTgzSize (f : Footer) (c : Nat) :
    (f.withChecksum c).PayloadTgzSize = f.PayloadTgzSize := by
  cases f; rfl

theorem Footer.withChecksum_PackageSignatureOffset (f : Footer) (c : Nat) :
    (f.withChecksum c).PackageSignatureOffset = f.PackageSignatureOffset := by
  cases f; rfl

theorem Footer.withChecksum_PackageSignatureSize (f : Footer) (c : Nat) :
    (f.withChecksum c).PackageSignatureSize = f.PackageSignatureSize := by
  cases f; rfl

theorem Footer.withChecksum_PublicKeyPEMOffset (f : Footer) (c : Nat) :
    (f.withChecksum c).PublicKeyPEMOffset = f.PublicKeyPEMOffset := by
  cases f; rfl

theorem Footer.withChecksum_PublicKeyPEMSize (f : Footer) (c : Nat) :
    (f.withChecksum c).PublicKeyPEMSize = f.PublicKeyPEMSize := by
  cases f; rfl

theorem Footer.withChecksum_PspfVersion (f : Footer) (c : Nat) :
    (f.withChecksum c).PspfVersion = f.PspfVersion := by
  cases f; rfl

theorem Footer.withChecksum_Reserved (f : Footer) (c : Nat) :
    (f.withChecksum c).Reserved = f.Reserved := by
  cases f; rfl

theorem Footer.withChecksum_self (f : Footer) : f.withChecksum f.FooterStructChecksum = f := by
  cases f; rfl

theorem Footer.seal_checksum (f : Footer) :
    f.seal.FooterStructChecksum = crc32.ChecksumIEEE (f.withChecksum 0).encode := by
  rw [Footer.seal, Footer.withChecksum_checksum]

theorem Footer.seal_withChecksum (f : Footer) (c : Nat) :
    f.seal.withChecksum c = f.withChecksum c := by
  rw [Footer.seal, Footer.withChecksum_withChecksum]

theorem Footer.seal_magic (f : Footer) :
    f.seal.InternalFooterMagic = f.InternalFooterMagic := by
  rw [Footer.seal, Footer.withChecksum_magic]

theorem Footer.seal_UvBinaryOffset (f : Footer) : f.seal.UvBinaryOffset = f.UvBinaryOffset := by
  rw [Footer.seal, Footer.withChecksum_UvBinaryOffset]

theorem Footer.seal_UvBinarySize (f : Footer) : f.seal.UvBinarySize = f.UvBinarySize := by
  rw [Footer.seal, Footer.withChecksum_UvBinarySize]

theorem Footer.seal_PythonInstallTgzOffset (f : Footer) : f.seal.PythonInstallTgzOffset = f.PythonInstallTgzOffset := by
  rw [Footer.seal, Footer.withChecksum_PythonInstallTgzOffset]

theorem Footer.seal_PythonInstallTgzSize (f : Footer) : f.seal.PythonInstallTgzSize = f.PythonInstallTgzSize := by
  rw [Footer.seal, Footer.withChecksum_PythonInstallTgzSize]

theorem Footer.seal_MetadataTgzOffset (f : Footer) : f.seal.MetadataTgzOffset = f.MetadataTgzOffset := by
  rw [Footer.seal, Footer.withChecksum_MetadataTgzOffset]

theorem Footer.seal_MetadataTgzSize (f : Footer) : f.seal.MetadataTgzSize = f.MetadataTgzSize := by
  rw [Footer.seal, Footer.withChecksum_MetadataTgzSize]

theorem Footer.seal_PayloadTgzOffset (f : Footer) : f.seal.PayloadTgzOffset = f.PayloadTgzOffset := by
  rw [Footer.seal, Footer.withChecksum_PayloadTgzOffset]

theorem Footer.seal_PayloadTgzSize (f : Footer) : f.seal.PayloadTgzSize = f.PayloadTgzSize := by
  rw [Footer.seal, Footer.withChecksum_PayloadTgzSize]

theorem Footer.seal_PackageSignatureOffset (f : Footer) : f.seal.PackageSignatureOffset = f.PackageSignatureOffset := by
  rw [Footer.seal, Footer.withChecksum_PackageSignatureOffset]

theorem Footer.seal_PackageSignatureSize (f : Footer) : f.seal.PackageSignatureSize = f.PackageSignatureSize := by
  rw [Footer.seal, Footer.withChecksum_PackageSignatureSize]

theorem Footer.seal_PublicKeyPEMOffset (f : Footer) : f.seal.PublicKeyPEMOffset = f.PublicKeyPEMOffset := by
  rw [Footer.seal, Footer.withChecksum_PublicKeyPEMOffset]

theorem Footer.seal_PublicKeyPEMSize (f : Footer) : f.seal.PublicKeyPEMSize = f.PublicKeyPEMSize := by
  rw [Footer.seal, Footer.withChecksum_PublicKeyPEMSize]

theorem Footer.seal_PspfVersion (f : Footer) : f.seal.PspfVersion = f.PspfVersion := by
  rw [Footer.seal, Footer.withChecksum_PspfVersion]

theorem Footer.seal_Reserved (f : Footer) : f.seal.Reserved = f.Reserved := by
  rw [Footer.seal, Footer.withChecksum_Reserved]

theorem Footer.VerifyChecksum_seal (f : Footer) : f.seal.VerifyChecksum = .ok true := by
  rw [Footer.VerifyChecksum_eq, Footer.seal_checksum, Footer.seal_withChecksum]
  simp

theorem addInt64_zero (b : Int) : addInt64 0 (toInt64 b) = toInt64 b := by
  unfold addInt64 toInt64
  split <;> split <;> omega

theorem Packager.BuildAppendedPSPF_healthy (L U P M C S K : Bytes) :
    Packager.BuildAppendedPSPF OutputDevice.healthy L U P M C S K =
      (none, L ++ U ++ P ++ M ++ C ++ S ++ K ++
        (Packager.footerOfLengths L.length U.length P.length M.length C.length S.length
          K.length).seal.encode ++ MagicEOFString) := by
  have e1 : toUint64 (toInt64 (L.length : Int)) = L.length % 2 ^ 64 := by
    rw [toUint64_toInt64, toUint64_natCast]
  have e2 : toUint64 (toInt64 ((L.length : Int) + U.length)) = (L.length + U.length) % 2 ^ 64 := by
    rw [toUint64_toInt64, ← toUint64_natCast]; push_cast; rfl
  have e3 : toUint64 (toInt64 ((L.length : Int) + U.length + P.length)) =
      (L.length + U.length + P.length) % 2 ^ 64 := by
    rw [toUint64_toInt64, ← toUint64_natCast]; push_cast; rfl
  have e4 : toUint64 (toInt64 ((L.length : Int) + U.length + P.length + M.length)) =
      (L.length + U.length + P.length + M.length) % 2 ^ 64 := by
    rw [toUint64_toInt64, ← toUint64_natCast]; push_cast; rfl
  have e5 : toUint64 (toInt64 ((L.length : Int) + U.length + P.length + M.length + C.length)) =
      (L.length + U.length + P.length + M.length + C.length) % 2 ^ 64 := by
    rw [toUint64_toInt64, ← toUint64_natCast]; push_cast; rfl
  have e6 : toUint64 (toInt64 ((L.length : Int) + U.length + P.length + M.length + C.length
      + S.length)) = (L.length + U.length + P.length + M.length + C.length + S.length) % 2 ^ 64 := by
    rw [toUint64_toInt64, ← toUint64_natCast]; push_cast; rfl
  simp only [Packager.BuildAppendedPSPF, OutputDevice.healthy, osWrite, addInt64_zero,
    addInt64_congr, Footer.CalculateChecksum_eq, binaryWrite, e1, e2, e3, e4, e5, e6,
    toUint64_natCast, List.nil_append, List.append_assoc, Packager.footerOfLengths]


theorem ReadAt_footer (file : Bytes) (h : 116 ≤ file.length) :
    ReadAt file FooterSize
      ((file.length : Int) - (FooterSize : Int) - (MagicEOFString.length : Int)) =
      (footerRegion file, none) := by
  have h1 : ((file.length : Int) - (FooterSize : Int) - (MagicEOFString.length : Int)) =
      ((file.length - 116 : Nat) : Int) := by
    simp only [FooterSize, MagicEOFString, List.length_cons, List.length_nil]
    omega
  rw [h1]
  unfold ReadAt
  have h2 : ¬ (((file.length - 116 : Nat) : Int) < 0) := by omega
  rw [if_neg h2]
  simp only [Int.toNat_ofNat, FooterSize, footerRegion]
  have h3 : ¬ ((List.take 108 (List.drop (file.length - 116) file)).length < 108) := by
    rw [List.length_take, List.length_drop]
    omega
  rw [if_neg h3]

theorem footerRegion_length (file : Bytes) (h : 116 ≤ file.length) :
    (footerRegion file).length = 108 := by
  unfold footerRegion
  rw [List.length_take, List.length_drop]
  omega

theorem Launcher.readAndVerifyFooter_small (file : Bytes) (h : file.length < 116) :
    Launcher.readAndVerifyFooter file = .error .fileTooSmall := by
  unfold Launcher.readAndVerifyFooter
  simp only [FooterSize, MagicEOFString, List.length_cons, List.length_nil]
  rw [if_pos (by omega)]

/-- On a file of at least 116 bytes `readAndVerifyFooter` decodes the footer
region, checks the magic, then the checksum. -/
theorem Launcher.readAndVerifyFooter_of_ge (file : Bytes) (h : 116 ≤ file.length) :
    Launcher.readAndVerifyFooter file =
      if (Footer.decode (footerRegion file)).InternalFooterMagic ≠ InternalFooterMagic then
        .error .invalidInternalMagic
      else if (Footer.decode (footerRegion file)).FooterStructChecksum =
          crc32.ChecksumIEEE ((Footer.decode (footerRegion file)).withChecksum 0).encode then
        .ok (Footer.decode (footerRegion file))
      else .error .footerChecksumMismatch := by
  unfold Launcher.readAndVerifyFooter
  have h0 : ¬ ((file.length : Int) < ((FooterSize + MagicEOFString.length : Nat) : Int)) := by
    simp only [FooterSize, MagicEOFString, List.length_cons, List.length_nil]
    omega
  rw [if_neg h0]
  simp only [ReadAt_footer file h, binaryRead, footerRegion_length file h]
  simp only [FooterSize, lt_irrefl, if_false, Footer.VerifyChecksum_eq]
  by_cases hm : (Footer.decode (footerRegion file)).InternalFooterMagic = InternalFooterMagic
  · by_cases hc : (Footer.decode (footerRegion file)).FooterStructChecksum =
        crc32.ChecksumIEEE ((Footer.decode (footerRegion file)).withChecksum 0).encode
    · simp [hm, hc]
    · simp [hm, hc]
  · simp [hm]

theorem Packager.readAndVerifyFooter_eq_launcher (file : Bytes) :
    Packager.readAndVerifyFooter file = Launcher.readAndVerifyFooter file := rfl

theorem Packager.readSection_eq_launcher (file : Bytes) (offset size : Nat) :
    Packager.readSection file offset size = Launcher.readSection file offset size := rfl

theorem footerRegion_append (pre fb : Bytes) (h : fb.length = 108) :
    footerRegion (pre ++ (fb ++ MagicEOFString)) = fb := by
  unfold footerRegion
  have hl : (pre ++ (fb ++ MagicEOFString)).length - 116 = pre.length := by
    simp [MagicEOFString, h]
  rw [hl, List.drop_left, List.take_append_eq_append_take, h]
  simp [← h]


/-! ## The built file -/

theorem Packager.builtFile_eq (L U P M C S K : Bytes) :
    Packager.builtFile L U P M C S K =
      L ++ U ++ P ++ M ++ C ++ S ++ K ++
        (Packager.footerOfLengths L.length U.length P.length M.length C.length S.length
          K.length).seal.encode ++ MagicEOFString := by
  rw [Packager.builtFile, Packager.BuildAppendedPSPF_healthy]

theorem Footer.seal_inRange (f : Footer)
    (h : (f.withChecksum 0).InRange) : f.seal.InRange := by
  have hc := crc32.ChecksumIEEE_lt _ (Footer.encode_lt (f.withChecksum 0))
  unfold Footer.InRange at h ⊢
  rw [Footer.withChecksum_UvBinaryOffset, Footer.withChecksum_UvBinarySize,
    Footer.withChecksum_PythonInstallTgzOffset, Footer.withChecksum_PythonInstallTgzSize,
    Footer.withChecksum_MetadataTgzOffset, Footer.withChecksum_MetadataTgzSize,
    Footer.withChecksum_PayloadTgzOffset, Footer.withChecksum_PayloadTgzSize,
    Footer.withChecksum_PackageSignatureOffset, Footer.withChecksum_PackageSignatureSize,
    Footer.withChecksum_PublicKeyPEMOffset, Footer.withChecksum_PublicKeyPEMSize,
    Footer.withChecksum_PspfVersion, Footer.withChecksum_Reserved,
    Footer.withChecksum_magic] at h
  rw [Footer.seal_UvBinaryOffset, Footer.seal_UvBinarySize,
    Footer.seal_PythonInstallTgzOffset, Footer.seal_PythonInstallTgzSize,
    Footer.seal_MetadataTgzOffset, Footer.seal_MetadataTgzSize,
    Footer.seal_PayloadTgzOffset, Footer.seal_PayloadTgzSize,
    Footer.seal_PackageSignatureOffset, Footer.seal_PackageSignatureSize,
    Footer.seal_PublicKeyPEMOffset, Footer.seal_PublicKeyPEMSize,
    Footer.seal_PspfVersion, Footer.seal_Reserved, Footer.seal_checksum, Footer.seal_magic]
  obtain ⟨h1, h2, h3, h4, h5, h6, h7, h8, h9, h10, h11, h12, h13, h14, _, h16⟩ := h
  exact ⟨h1, h2, h3, h4, h5, h6, h7, h8, h9, h10, h11, h12, h13, h14, hc, h16⟩

theorem Packager.footerOfLengths_inRange (l u p m c s k : Nat) :
    ((Packager.footerOfLengths l u p m c s k).withChecksum 0).InRange := by
  have h (n : Nat) : n % 2 ^ 64 < 2 ^ 64 := Nat.mod_lt _ (by norm_num)
  have e1 : (Packager.footerOfLengths l u p m c s k).PspfVersion = 3 := rfl
  have e2 : (Packager.footerOfLengths l u p m c s k).Reserved = 0 := rfl
  have e3 : (Packager.footerOfLengths l u p m c s k).InternalFooterMagic = 0x30505350 := rfl
  unfold Footer.InRange
  rw [Footer.withChecksum_PspfVersion, Footer.withChecksum_Reserved,
    Footer.withChecksum_checksum, Footer.withChecksum_magic, e1, e2, e3]
  exact ⟨h _, h _, h _, h _, h _, h _, h _, h _, h _, h _, h _, h _,
    by norm_num, by norm_num, by norm_num, by norm_num⟩

/-- Reading back the footer of a built file gives the sealed footer the
packager wrote. -/
theorem Launcher.readAndVerifyFooter_builtFile (L U P M C S K : Bytes) :
    Launcher.readAndVerifyFooter (Packager.builtFile L U P M C S K) =
      .ok (Packager.footerOfLengths L.length U.length P.length M.length C.length S.length
          K.length).seal := by
  have hfile : Packager.builtFile L U P M C S K =
      (L ++ U ++ P ++ M ++ C ++ S ++ K) ++
        ((Packager.footerOfLengths L.length U.length P.length M.length C.length S.length
          K.length).seal.encode ++ MagicEOFString) := by
    rw [Packager.builtFile_eq]
    simp only [List.append_assoc]
  have hlen : 116 ≤ (Packager.builtFile L U P M C S K).length := by
    rw [hfile]
    simp only [List.length_append, Footer.encode_length, MagicEOFString, List.length_cons,
      List.length_nil]
    omega
  rw [Launcher.readAndVerifyFooter_of_ge _ hlen, hfile,
    footerRegion_append _ _ (Footer.encode_length _),
    Footer.decode_encode _ (Footer.seal_inRange _ (Packager.footerOfLengths_inRange ..))]
  have hm : (Packager.footerOfLengths L.length U.length P.length M.length C.length S.length
      K.length).seal.InternalFooterMagic = InternalFooterMagic := by
    rw [Footer.seal_magic]
    rfl
  have hc : (Packager.footerOfLengths L.length U.length P.length M.length C.length S.length
      K.length).seal.FooterStructChecksum = crc32.ChecksumIEEE
        (((Packager.footerOfLengths L.length U.length P.length M.length C.length S.length
          K.length).seal).withChecksum 0).encode := by
    rw [Footer.seal_checksum, Footer.seal_withChecksum]
  rw [if_neg (by simpa using hm), if_pos hc]

/-! ## Claims -/

/-- Known answer of the CRC-32/IEEE model: the checksum of the ASCII string
`123456789` is `0xCBF43926`. -/
theorem crc32.ChecksumIEEE_check :
    crc32.ChecksumIEEE [49, 50, 51, 52, 53, 54, 55, 56, 57] = 0xCBF43926 := by
  simp [crc32.ChecksumIEEE, crc32.simpleUpdate, crc32.updateByte, crc32.tableEntry,
    crc32.bitStep, crc32.IEEE]

/-- C1: for every footer `f`, `CalculateChecksum` succeeds and stores the
CRC-32/IEEE of the 108-byte little-endian serialization of `f` taken with the
checksum field set to zero (bytes 100..103 of that serialization are zero);
`VerifyChecksum` on the sealed footer returns true, and zeroing the stored
checksum and recomputing reproduces the sealed footer. -/
theorem C1_seal_stores_crc_of_zeroed_footer (f : Footer) :
    ∃ g, f.CalculateChecksum = .ok g ∧
      g.FooterStructChecksum = crc32.ChecksumIEEE (f.withChecksum 0).encode ∧
      (f.withChecksum 0).encode.length = 108 ∧
      slice (f.withChecksum 0).encode 100 4 = [0, 0, 0, 0] ∧
      g.VerifyChecksum = .ok true ∧
      (g.withChecksum 0).CalculateChecksum = .ok g := by
  refine ⟨f.seal, Footer.CalculateChecksum_eq f, ?_, Footer.encode_length _, ?_,
    Footer.VerifyChecksum_seal f, ?_⟩
  · exact Footer.seal_checksum f
  · simp only [slice, Footer.encode, drop_putUint_append, Nat.reduceLeDiff, Nat.reduceSub,
      List.drop_zero, take_putUint_append, Footer.withChecksum_checksum]
    rfl
  · rw [Footer.CalculateChecksum_eq, Footer.seal_withChecksum]
    rfl

/-- C2: the serialization of every footer is exactly 108 bytes: the twelve
`u64` offset and size fields, then version (`u16`), reserved (`u16`),
`footer_crc` (`u32`) at bytes 100..103 and `internal_magic` (`u32`) at bytes
104..107, each little-endian (byte `i` of a field is `v / 256 ^ i % 256`) and
in declaration order. -/
theorem C2_footer_layout_108_bytes (f : Footer) :
    f.encode.length = 108 ∧
    slice f.encode 0 8 = putUint 8 f.UvBinaryOffset ∧
    slice f.encode 8 8 = putUint 8 f.UvBinarySize ∧
    slice f.encode 16 8 = putUint 8 f.PythonInstallTgzOffset ∧
    slice f.encode 24 8 = putUint 8 f.PythonInstallTgzSize ∧
    slice f.encode 32 8 = putUint 8 f.MetadataTgzOffset ∧
    slice f.encode 40 8 = putUint 8 f.MetadataTgzSize ∧
    slice f.encode 48 8 = putUint 8 f.PayloadTgzOffset ∧
    slice f.encode 56 8 = putUint 8 f.PayloadTgzSize ∧
    slice f.encode 64 8 = putUint 8 f.PackageSignatureOffset ∧
    slice f.encode 72 8 = putUint 8 f.PackageSignatureSize ∧
    slice f.encode 80 8 = putUint 8 f.PublicKeyPEMOffset ∧
    slice f.encode 88 8 = putUint 8 f.PublicKeyPEMSize ∧
    slice f.encode 96 2 = putUint 2 f.PspfVersion ∧
    slice f.encode 98 2 = putUint 2 f.Reserved ∧
    slice f.encode 100 4 = putUint 4 f.FooterStructChecksum ∧
    slice f.encode 104 4 = putUint 4 f.InternalFooterMagic ∧
    (∀ w v i, i < w → (putUint w v)[i]? = some (v / 256 ^ i % 256)) := by
  have e (w v : Nat) : (putUint w v).take w = putUint w v := by
    simp
  refine ⟨Footer.encode_length f, ?_, ?_, ?_, ?_, ?_, ?_, ?_, ?_, ?_, ?_, ?_, ?_, ?_, ?_, ?_,
    ?_, putUint_getElem?⟩ <;>
  simp only [slice, Footer.encode, drop_putUint_append, Nat.reduceLeDiff, Nat.reduceSub,
      List.drop_zero, take_putUint_append, e]

/-- C3: for every choice of the seven input byte slices (whose total length
fits the `int64` cursor), `BuildAppendedPSPF` returns nil and
`readAndVerifyFooter` on the written file succeeds with a footer whose offsets
are the running sums of the input lengths, whose sizes are the input lengths,
whose version is `0x0003` and whose magic is `0x30505350`. -/
theorem C3_read_footer_of_built_file (L U P M C S K : Bytes)
    (hfit : L.length + U.length + P.length + M.length + C.length + S.length + K.length
      < 2 ^ 63) :
    (Packager.BuildAppendedPSPF OutputDevice.healthy L U P M C S K).1 = none ∧
    ∃ ft, Packager.readAndVerifyFooter (Packager.builtFile L U P M C S K) = .ok ft ∧
      ft.UvBinaryOffset = L.length ∧
      ft.UvBinarySize = U.length ∧
      ft.PythonInstallTgzOffset = L.length + U.length ∧
      ft.PythonInstallTgzSize = P.length ∧
      ft.MetadataTgzOffset = L.length + U.length + P.length ∧
      ft.MetadataTgzSize = M.length ∧
      ft.PayloadTgzOffset = L.length + U.length + P.length + M.length ∧
      ft.PayloadTgzSize = C.length ∧
      ft.PackageSignatureOffset = L.length + U.length + P.length + M.length + C.length ∧
      ft.PackageSignatureSize = S.length ∧
      ft.PublicKeyPEMOffset =
        L.length + U.length + P.length + M.length + C.length + S.length ∧
      ft.PublicKeyPEMSize = K.length ∧
      ft.PspfVersion = 0x0003 ∧
      ft.Reserved = 0 ∧
      ft.InternalFooterMagic = 0x30505350 := by
  refine ⟨by rw [Packager.BuildAppendedPSPF_healthy],
    (Packager.footerOfLengths L.length U.length P.length M.length C.length S.length
      K.length).seal, ?_, ?_⟩
  · rw [Packager.readAndVerifyFooter_eq_launcher]
    exact Launcher.readAndVerifyFooter_builtFile L U P M C S K
  · rw [Footer.seal_UvBinaryOffset, Footer.seal_UvBinarySize,
      Footer.seal_PythonInstallTgzOffset, Footer.seal_PythonInstallTgzSize,
      Footer.seal_MetadataTgzOffset, Footer.seal_MetadataTgzSize,
      Footer.seal_PayloadTgzOffset, Footer.seal_PayloadTgzSize,
      Footer.seal_PackageSignatureOffset, Footer.seal_PackageSignatureSize,
      Footer.seal_PublicKeyPEMOffset, Footer.seal_PublicKeyPEMSize,
      Footer.seal_PspfVersion, Footer.seal_Reserved, Footer.seal_magic]
    simp only [Packager.footerOfLengths, Version, InternalFooterMagic]
    refine ⟨?_, ?_, ?_, ?_, ?_, ?_, ?_, ?_, ?_, ?_, ?_, ?_, trivial, trivial, trivial⟩ <;>
      omega

/-- Witness of C3 on small inputs, one of them empty. -/
theorem C3_read_footer_of_built_file_witness :
    ([1, 2, 3] : Bytes).length + ([4] : Bytes).length + ([] : Bytes).length +
      ([5, 6] : Bytes).length + ([7] : Bytes).length + ([8, 9] : Bytes).length +
      ([10] : Bytes).length < 2 ^ 63 ∧
    ∃ ft, Packager.readAndVerifyFooter
        (Packager.builtFile [1, 2, 3] [4] [] [5, 6] [7] [8, 9] [10]) = .ok ft ∧
      ft.UvBinaryOffset = 3 ∧ ft.PythonInstallTgzOffset = 4 ∧ ft.PublicKeyPEMSize = 1 :=
  ⟨by decide, by
    obtain ⟨_, ft, h, h1, _, h3, _, _, _, _, _, _, _, _, h12, _⟩ :=
      C3_read_footer_of_built_file [1, 2, 3] [4] [] [5, 6] [7] [8, 9] [10] (by decide)
    exact ⟨ft, h, h1, h3, h12⟩⟩


/-! ## Section reads -/

theorem slice_length (file : Bytes) (off size : Nat) (h : off + size ≤ file.length) :
    (slice file off size).length = size := by
  unfold slice
  rw [List.length_take, List.length_drop]
  omega

/-- A section that lies inside the file and within the size limit is read
in full. -/
theorem Launcher.readSection_slice (file : Bytes) (off size : Nat) (hoff : off < 2 ^ 63)
    (hsz : size ≤ maxSensibleReadSize) (hin : off + size ≤ file.length) :
    Launcher.readSection file off size = .ok (slice file off size) := by
  unfold Launcher.readSection
  rw [if_neg (by omega)]
  by_cases h0 : size = 0
  · rw [if_pos h0]
    subst h0
    simp [slice]
  · rw [if_neg h0, toInt64_natCast off hoff]
    have hlen := slice_length file off size hin
    unfold slice at hlen
    unfold ReadAt
    rw [if_neg (by omega)]
    simp only [Int.toNat_ofNat]
    rw [if_neg (by omega)]
    simp only [slice]
    rw [if_neg (by simp [hlen])]

/-- Whatever `readSection` returns without error is the slice of the file at
the requested offset, of the requested size, within the limit. -/
theorem Launcher.readSection_ok (file : Bytes) (off size : Nat) (data : Bytes)
    (hoff : off < 2 ^ 63) (h : Launcher.readSection file off size = .ok data) :
    data = slice file off size ∧ size ≤ maxSensibleReadSize ∧ data.length = size := by
  unfold Launcher.readSection at h
  by_cases hsz : size > maxSensibleReadSize
  · rw [if_pos hsz] at h
    exact absurd h (by simp)
  · rw [if_neg hsz] at h
    by_cases h0 : size = 0
    · rw [if_pos h0] at h
      subst h0
      simp only [Except.ok.injEq] at h
      subst h
      simp [slice, maxSensibleReadSize]
    · rw [if_neg h0, toInt64_natCast off hoff] at h
      unfold ReadAt at h
      rw [if_neg (by omega)] at h
      simp only [Int.toNat_ofNat] at h
      by_cases hl : (List.take size (List.drop off file)).length < size
      · rw [if_pos hl] at h
        exact absurd h (by simp)
      · rw [if_neg hl] at h
        simp only at h
        by_cases hl2 : (List.take size (List.drop off file)).length = size
        · rw [if_neg (by simpa using hl2)] at h
          simp only [Except.ok.injEq] at h
          subst h
          exact ⟨rfl, by omega, hl2⟩
        · rw [if_pos (by simpa using hl2)] at h
          exact absurd h (by simp)

theorem Launcher.readSection_too_large (file : Bytes) (off size : Nat)
    (h : maxSensibleReadSize < size) :
    Launcher.readSection file off size = .error (.sectionTooLarge size maxSensibleReadSize) := by
  unfold Launcher.readSection
  rw [if_pos h]

theorem slice_append_mid (A B R : Bytes) : slice (A ++ (B ++ R)) A.length B.length = B := by
  unfold slice
  rw [List.drop_left, List.take_left]

theorem slice_append_mid_of_eq (A B R : Bytes) (n k : Nat) (hn : n = A.length)
    (hk : k = B.length) : slice (A ++ (B ++ R)) n k = B := by
  subst hn hk
  exact slice_append_mid A B R

theorem slice_zero (B R : Bytes) (k : Nat) (hk : k = B.length) : slice (B ++ R) 0 k = B := by
  simpa using slice_append_mid_of_eq [] B R 0 k rfl hk


/-- The fields of the footer of a built file whose length fits the cursor. -/
theorem Packager.sealed_fields (l u p m c s k : Nat) (hfit : l + u + p + m + c + s + k < 2 ^ 63) :
    (Packager.footerOfLengths l u p m c s k).seal.UvBinaryOffset = l ∧
    (Packager.footerOfLengths l u p m c s k).seal.UvBinarySize = u ∧
    (Packager.footerOfLengths l u p m c s k).seal.PythonInstallTgzOffset = l + u ∧
    (Packager.footerOfLengths l u p m c s k).seal.PythonInstallTgzSize = p ∧
    (Packager.footerOfLengths l u p m c s k).seal.MetadataTgzOffset = l + u + p ∧
    (Packager.footerOfLengths l u p m c s k).seal.MetadataTgzSize = m ∧
    (Packager.footerOfLengths l u p m c s k).seal.PayloadTgzOffset = l + u + p + m ∧
    (Packager.footerOfLengths l u p m c s k).seal.PayloadTgzSize = c ∧
    (Packager.footerOfLengths l u p m c s k).seal.PackageSignatureOffset = l + u + p + m + c ∧
    (Packager.footerOfLengths l u p m c s k).seal.PackageSignatureSize = s ∧
    (Packager.footerOfLengths l u p m c s k).seal.PublicKeyPEMOffset = l + u + p + m + c + s ∧
    (Packager.footerOfLengths l u p m c s k).seal.PublicKeyPEMSize = k := by
  rw [Footer.seal_UvBinaryOffset, Footer.seal_UvBinarySize,
    Footer.seal_PythonInstallTgzOffset, Footer.seal_PythonInstallTgzSize,
    Footer.seal_MetadataTgzOffset, Footer.seal_MetadataTgzSize,
    Footer.seal_PayloadTgzOffset, Footer.seal_PayloadTgzSize,
    Footer.seal_PackageSignatureOffset, Footer.seal_PackageSignatureSize,
    Footer.seal_PublicKeyPEMOffset, Footer.seal_PublicKeyPEMSize]
  simp only [Packager.footerOfLengths]
  refine ⟨?_, ?_, ?_, ?_, ?_, ?_, ?_, ?_, ?_, ?_, ?_, ?_⟩ <;> omega

/-- The seven slices of a built file are the seven inputs. -/
theorem Packager.builtFile_slices (L U P M C S K : Bytes) :
    slice (Packager.builtFile L U P M C S K) 0 L.length = L ∧
    slice (Packager.builtFile L U P M C S K) L.length U.length = U ∧
    slice (Packager.builtFile L U P M C S K) (L.length + U.length) P.length = P ∧
    slice (Packager.builtFile L U P M C S K) (L.length + U.length + P.length) M.length = M ∧
    slice (Packager.builtFile L U P M C S K) (L.length + U.length + P.length + M.length)
      C.length = C ∧
    slice (Packager.builtFile L U P M C S K)
      (L.length + U.length + P.length + M.length + C.length) S.length = S ∧
    slice (Packager.builtFile L U P M C S K)
      (L.length + U.length + P.length + M.length + C.length + S.length) K.length = K := by
  rw [Packager.builtFile_eq]
  generalize (Packager.footerOfLengths L.length U.length P.length M.length C.length S.length
          K.length).seal.encode = fb
  refine ⟨?_, ?_, ?_, ?_, ?_, ?_, ?_⟩
  · simp only [List.append_assoc]
    exact slice_zero _ _ _ rfl
  · simp only [List.append_assoc]
    exact slice_append_mid_of_eq _ _ _ _ _ rfl rfl
  · have h : L ++ U ++ P ++ M ++ C ++ S ++ K ++ fb ++ MagicEOFString =
        (L ++ U) ++ (P ++ (M ++ C ++ S ++ K ++ fb ++ MagicEOFString)) := by
      simp only [List.append_assoc]
    rw [h]
    exact slice_append_mid_of_eq _ _ _ _ _ (by simp) rfl
  · have h : L ++ U ++ P ++ M ++ C ++ S ++ K ++ fb ++ MagicEOFString =
        (L ++ U ++ P) ++ (M ++ (C ++ S ++ K ++ fb ++ MagicEOFString)) := by
      simp only [List.append_assoc]
    rw [h]
    exact slice_append_mid_of_eq _ _ _ _ _ (by simp [Nat.add_assoc]) rfl
  · have h : L ++ U ++ P ++ M ++ C ++ S ++ K ++ fb ++ MagicEOFString =
        (L ++ U ++ P ++ M) ++ (C ++ (S ++ K ++ fb ++ MagicEOFString)) := by
      simp only [List.append_assoc]
    rw [h]
    exact slice_append_mid_of_eq _ _ _ _ _ (by simp [Nat.add_assoc]) rfl
  · have h : L ++ U ++ P ++ M ++ C ++ S ++ K ++ fb ++ MagicEOFString =
        (L ++ U ++ P ++ M ++ C) ++ (S ++ (K ++ fb ++ MagicEOFString)) := by
      simp only [List.append_assoc]
    rw [h]
    exact slice_append_mid_of_eq _ _ _ _ _ (by simp [Nat.add_assoc]) rfl
  · have h : L ++ U ++ P ++ M ++ C ++ S ++ K ++ fb ++ MagicEOFString =
        (L ++ U ++ P ++ M ++ C ++ S) ++ (K ++ (fb ++ MagicEOFString)) := by
      simp only [List.append_assoc]
    rw [h]
    exact slice_append_mid_of_eq _ _ _ _ _ (by simp [Nat.add_assoc]) rfl

theorem Packager.builtFile_length (L U P M C S K : Bytes) :
    (Packager.builtFile L U P M C S K).length =
      L.length + U.length + P.length + M.length + C.length + S.length + K.length + 108 + 8 := by
  rw [Packager.builtFile_eq]
  simp only [List.length_append, Footer.encode_length, MagicEOFString, List.length_cons,
    List.length_nil]

/-- The signed region of a built file is its first `signature_offset` bytes. -/
theorem Packager.builtFile_take (L U P M C S K : Bytes) :
    (Packager.builtFile L U P M C S K).take
        (L.length + U.length + P.length + M.length + C.length) =
      L ++ U ++ P ++ M ++ C := by
  rw [Packager.builtFile_eq]
  have h (R : Bytes) : L ++ U ++ P ++ M ++ C ++ S ++ K ++ R ++ MagicEOFString =
      (L ++ U ++ P ++ M ++ C) ++ (S ++ K ++ R ++ MagicEOFString) := by
    simp only [List.append_assoc]
  rw [h]
  exact List.take_left' (by simp [Nat.add_assoc])


/-- The reads of the launcher on a built file, with the offsets and sizes of
its footer made explicit. -/
theorem Launcher.readSections_builtFile_unfold (L U P M C S K : Bytes)
    (hfit : L.length + U.length + P.length + M.length + C.length + S.length + K.length
      < 2 ^ 63) :
    Launcher.readSections (Packager.builtFile L U P M C S K) =
      match Launcher.readSection (Packager.builtFile L U P M C S K) 0 L.length with
      | .error err => .error err
      | .ok launcherBytes =>
      match Launcher.readSection (Packager.builtFile L U P M C S K) L.length U.length with
      | .error err => .error err
      | .ok uvBinBytes =>
      match Launcher.readSection (Packager.builtFile L U P M C S K)
          (L.length + U.length) P.length with
      | .error err => .error err
      | .ok pythonTgzBytes =>
      match Launcher.readSection (Packager.builtFile L U P M C S K)
          (L.length + U.length + P.length) M.length with
      | .error err => .error err
      | .ok metadataTgzBytes =>
      match Launcher.readSection (Packager.builtFile L U P M C S K)
          (L.length + U.length + P.length + M.length) C.length with
      | .error err => .error err
      | .ok payloadTgzBytes =>
      match Launcher.readSection (Packager.builtFile L U P M C S K)
          (L.length + U.length + P.length + M.length + C.length) S.length with
      | .error err => .error err
      | .ok signatureBytes =>
      match Launcher.readSection (Packager.builtFile L U P M C S K)
          (L.length + U.length + P.length + M.length + C.length + S.length) K.length with
      | .error err => .error err
      | .ok publicKeyPEMBytes =>
      .ok { launcherBytes, uvBinBytes, pythonTgzBytes, metadataTgzBytes, payloadTgzBytes,
            signatureBytes, publicKeyPEMBytes } := by
  obtain ⟨h1, h2, h3, h4, h5, h6, h7, h8, h9, h10, h11, h12⟩ :=
    Packager.sealed_fields L.length U.length P.length M.length C.length S.length K.length hfit
  unfold Launcher.readSections
  rw [Launcher.readAndVerifyFooter_builtFile]
  simp only [h1, h2, h3, h4, h5, h6, h7, h8, h9, h10, h11, h12]

theorem Packager.verifyCmd_reads_unfold (L U P M C S K : Bytes)
    (hfit : L.length + U.length + P.length + M.length + C.length + S.length + K.length
      < 2 ^ 63) :
    Packager.readSections (Packager.builtFile L U P M C S K) =
      match Launcher.readSection (Packager.builtFile L U P M C S K) 0 L.length with
      | .error err => .error err
      | .ok launcherBytes =>
      match Launcher.readSection (Packager.builtFile L U P M C S K) L.length U.length with
      | .error err => .error err
      | .ok uvBinBytes =>
      match Launcher.readSection (Packager.builtFile L U P M C S K)
          (L.length + U.length) P.length with
      | .error err => .error err
      | .ok pythonTgzBytes =>
      match Launcher.readSection (Packager.builtFile L U P M C S K)
          (L.length + U.length + P.length) M.length with
      | .error err => .error err
      | .ok metadataTgzBytes =>
      match Launcher.readSection (Packager.builtFile L U P M C S K)
          (L.length + U.length + P.length + M.length) C.length with
      | .error err => .error err
      | .ok payloadTgzBytes =>
      match Launcher.readSection (Packager.builtFile L U P M C S K)
          (L.length + U.length + P.length + M.length + C.length) S.length with
      | .error err => .error err
      | .ok signatureBytes =>
      .ok { launcherBytes, uvBinBytes, pythonTgzBytes, metadataTgzBytes, payloadTgzBytes,
            signatureBytes, publicKeyPEMBytes := [] } := by
  obtain ⟨h1, h2, h3, h4, h5, h6, h7, h8, h9, h10, _, _⟩ :=
    Packager.sealed_fields L.length U.length P.length M.length C.length S.length K.length hfit
  unfold Packager.readSections
  rw [Packager.readAndVerifyFooter_eq_launcher, Launcher.readAndVerifyFooter_builtFile]
  simp only [h1, h2, h3, h4, h5, h6, h7, h8, h9, h10, Packager.readSection_eq_launcher]

/-- Reading a section of a built file at its place: the input bytes when the
size is within the limit, the size error otherwise. -/
theorem Launcher.readSection_builtFile (file B : Bytes) (off : Nat)
    (hoff : off < 2 ^ 63) (hin : off + B.length ≤ file.length)
    (hs : slice file off B.length = B) :
    Launcher.readSection file off B.length =
      if B.length ≤ maxSensibleReadSize then .ok B
      else .error (.sectionTooLarge B.length maxSensibleReadSize) := by
  by_cases h : B.length ≤ maxSensibleReadSize
  · rw [if_pos h, Launcher.readSection_slice file off B.length hoff h hin, hs]
  · rw [if_neg h, Launcher.readSection_too_large file off B.length (by omega)]

/-- The launcher reads back the seven inputs of a built file whose parts
are each within the size limit. -/
theorem Launcher.readSections_builtFile (L U P M C S K : Bytes)
    (hfit : L.length + U.length + P.length + M.length + C.length + S.length + K.length
      < 2 ^ 63)
    (hL : L.length ≤ maxSensibleReadSize) (hU : U.length ≤ maxSensibleReadSize)
    (hP : P.length ≤ maxSensibleReadSize) (hM : M.length ≤ maxSensibleReadSize)
    (hC : C.length ≤ maxSensibleReadSize) (hS : S.length ≤ maxSensibleReadSize)
    (hK : K.length ≤ maxSensibleReadSize) :
    Launcher.readSections (Packager.builtFile L U P M C S K) =
      .ok { launcherBytes := L, uvBinBytes := U, pythonTgzBytes := P, metadataTgzBytes := M,
            payloadTgzBytes := C, signatureBytes := S, publicKeyPEMBytes := K } := by
  obtain ⟨s1, s2, s3, s4, s5, s6, s7⟩ := Packager.builtFile_slices L U P M C S K
  have hlen := Packager.builtFile_length L U P M C S K
  rw [Launcher.readSections_builtFile_unfold L U P M C S K hfit,
    Launcher.readSection_builtFile _ L 0 (by omega) (by omega) s1,
    Launcher.readSection_builtFile _ U _ (by omega) (by omega) s2,
    Launcher.readSection_builtFile _ P _ (by omega) (by omega) s3,
    Launcher.readSection_builtFile _ M _ (by omega) (by omega) s4,
    Launcher.readSection_builtFile _ C _ (by omega) (by omega) s5,
    Launcher.readSection_builtFile _ S _ (by omega) (by omega) s6,
    Launcher.readSection_builtFile _ K _ (by omega) (by omega) s7]
  simp only [if_pos hL, if_pos hU, if_pos hP, if_pos hM, if_pos hC, if_pos hS, if_pos hK]

/-- Whenever the launcher's reads succeed on a built file, they return the
seven inputs. -/
theorem Launcher.readSections_builtFile_ok (L U P M C S K : Bytes) (s : Sections)
    (hfit : L.length + U.length + P.length + M.length + C.length + S.length + K.length
      < 2 ^ 63)
    (h : Launcher.readSections (Packager.builtFile L U P M C S K) = .ok s) :
    s = { launcherBytes := L, uvBinBytes := U, pythonTgzBytes := P, metadataTgzBytes := M,
          payloadTgzBytes := C, signatureBytes := S, publicKeyPEMBytes := K } := by
  obtain ⟨s1, s2, s3, s4, s5, s6, s7⟩ := Packager.builtFile_slices L U P M C S K
  have hlen := Packager.builtFile_length L U P M C S K
  rw [Launcher.readSections_builtFile_unfold L U P M C S K hfit,
    Launcher.readSection_builtFile _ L 0 (by omega) (by omega) s1,
    Launcher.readSection_builtFile _ U _ (by omega) (by omega) s2,
    Launcher.readSection_builtFile _ P _ (by omega) (by omega) s3,
    Launcher.readSection_builtFile _ M _ (by omega) (by omega) s4,
    Launcher.readSection_builtFile _ C _ (by omega) (by omega) s5,
    Launcher.readSection_builtFile _ S _ (by omega) (by omega) s6,
    Launcher.readSection_builtFile _ K _ (by omega) (by omega) s7] at h
  by_cases hL : L.length ≤ maxSensibleReadSize
  swap; · simp [hL] at h
  by_cases hU : U.length ≤ maxSensibleReadSize
  swap; · simp [hL, hU] at h
  by_cases hP : P.length ≤ maxSensibleReadSize
  swap; · simp [hL, hU, hP] at h
  by_cases hM : M.length ≤ maxSensibleReadSize
  swap; · simp [hL, hU, hP, hM] at h
  by_cases hC : C.length ≤ maxSensibleReadSize
  swap; · simp [hL, hU, hP, hM, hC] at h
  by_cases hS : S.length ≤ maxSensibleReadSize
  swap; · simp [hL, hU, hP, hM, hC, hS] at h
  by_cases hK : K.length ≤ maxSensibleReadSize
  swap; · simp [hL, hU, hP, hM, hC, hS, hK] at h
  simp only [if_pos hL, if_pos hU, if_pos hP, if_pos hM, if_pos hC, if_pos hS, if_pos hK,
    Except.ok.injEq] at h
  exact h.symm

theorem Packager.verifyCmd_reads (L U P M C S K : Bytes)
    (hfit : L.length + U.length + P.length + M.length + C.length + S.length + K.length
      < 2 ^ 63)
    (hL : L.length ≤ maxSensibleReadSize) (hU : U.length ≤ maxSensibleReadSize)
    (hP : P.length ≤ maxSensibleReadSize) (hM : M.length ≤ maxSensibleReadSize)
    (hC : C.length ≤ maxSensibleReadSize) (hS : S.length ≤ maxSensibleReadSize) :
    Packager.readSections (Packager.builtFile L U P M C S K) =
      .ok { launcherBytes := L, uvBinBytes := U, pythonTgzBytes := P, metadataTgzBytes := M,
            payloadTgzBytes := C, signatureBytes := S, publicKeyPEMBytes := [] } := by
  obtain ⟨s1, s2, s3, s4, s5, s6, _⟩ := Packager.builtFile_slices L U P M C S K
  have hlen := Packager.builtFile_length L U P M C S K
  rw [Packager.verifyCmd_reads_unfold L U P M C S K hfit,
    Launcher.readSection_builtFile _ L 0 (by omega) (by omega) s1,
    Launcher.readSection_builtFile _ U _ (by omega) (by omega) s2,
    Launcher.readSection_builtFile _ P _ (by omega) (by omega) s3,
    Launcher.readSection_builtFile _ M _ (by omega) (by omega) s4,
    Launcher.readSection_builtFile _ C _ (by omega) (by omega) s5,
    Launcher.readSection_builtFile _ S _ (by omega) (by omega) s6]
  simp only [if_pos hL, if_pos hU, if_pos hP, if_pos hM, if_pos hC, if_pos hS]

theorem Packager.verifyCmd_reads_ok (L U P M C S K : Bytes) (s : Sections)
    (hfit : L.length + U.length + P.length + M.length + C.length + S.length + K.length
      < 2 ^ 63)
    (h : Packager.readSections (Packager.builtFile L U P M C S K) = .ok s) :
    s = { launcherBytes := L, uvBinBytes := U, pythonTgzBytes := P, metadataTgzBytes := M,
          payloadTgzBytes := C, signatureBytes := S, publicKeyPEMBytes := [] } := by
  obtain ⟨s1, s2, s3, s4, s5, s6, _⟩ := Packager.builtFile_slices L U P M C S K
  have hlen := Packager.builtFile_length L U P M C S K
  rw [Packager.verifyCmd_reads_unfold L U P M C S K hfit,
    Launcher.readSection_builtFile _ L 0 (by omega) (by omega) s1,
    Launcher.readSection_builtFile _ U _ (by omega) (by omega) s2,
    Launcher.readSection_builtFile _ P _ (by omega) (by omega) s3,
    Launcher.readSection_builtFile _ M _ (by omega) (by omega) s4,
    Launcher.readSection_builtFile _ C _ (by omega) (by omega) s5,
    Launcher.readSection_builtFile _ S _ (by omega) (by omega) s6] at h
  by_cases hL : L.length ≤ maxSensibleReadSize
  swap; · simp [hL] at h
  by_cases hU : U.length ≤ maxSensibleReadSize
  swap; · simp [hL, hU] at h
  by_cases hP : P.length ≤ maxSensibleReadSize
  swap; · simp [hL, hU, hP] at h
  by_cases hM : M.length ≤ maxSensibleReadSize
  swap; · simp [hL, hU, hP, hM] at h
  by_cases hC : C.length ≤ maxSensibleReadSize
  swap; · simp [hL, hU, hP, hM, hC] at h
  by_cases hS : S.length ≤ maxSensibleReadSize
  swap; · simp [hL, hU, hP, hM, hC, hS] at h
  simp only [if_pos hL, if_pos hU, if_pos hP, if_pos hM, if_pos hC, if_pos hS,
    Except.ok.injEq] at h
  exact h.symm


/-- The footer stored in a built file is the sealed footer the packager
computed. -/
theorem Packager.decode_footerRegion_builtFile (L U P M C S K : Bytes) :
    Footer.decode (footerRegion (Packager.builtFile L U P M C S K)) =
      (Packager.footerOfLengths L.length U.length P.length M.length C.length S.length
        K.length).seal := by
  have hfile : Packager.builtFile L U P M C S K =
      (L ++ U ++ P ++ M ++ C ++ S ++ K) ++
        ((Packager.footerOfLengths L.length U.length P.length M.length C.length S.length
          K.length).seal.encode ++ MagicEOFString) := by
    rw [Packager.builtFile_eq]
    simp only [List.append_assoc]
  rw [hfile, footerRegion_append _ _ (Footer.encode_length _),
    Footer.decode_encode _ (Footer.seal_inRange _ (Packager.footerOfLengths_inRange ..))]

/-- C4: in the footer of every file written by `BuildAppendedPSPF` with all
writes succeeding (total length within the `int64` cursor), the sections in
canonical order are contiguous: each offset is the previous offset plus the
previous size, whether or not sections are empty. -/
theorem C4_sections_contiguous (L U P M C S K : Bytes)
    (hfit : L.length + U.length + P.length + M.length + C.length + S.length + K.length
      < 2 ^ 63) :
    (Packager.BuildAppendedPSPF OutputDevice.healthy L U P M C S K).1 = none ∧
    ∃ ft, Footer.decode (footerRegion (Packager.builtFile L U P M C S K)) = ft ∧
      ft.PythonInstallTgzOffset = ft.UvBinaryOffset + ft.UvBinarySize ∧
      ft.MetadataTgzOffset = ft.PythonInstallTgzOffset + ft.PythonInstallTgzSize ∧
      ft.PayloadTgzOffset = ft.MetadataTgzOffset + ft.MetadataTgzSize ∧
      ft.PackageSignatureOffset = ft.PayloadTgzOffset + ft.PayloadTgzSize ∧
      ft.PublicKeyPEMOffset = ft.PackageSignatureOffset + ft.PackageSignatureSize := by
  obtain ⟨h1, h2, h3, h4, h5, h6, h7, h8, h9, h10, h11, _⟩ :=
    Packager.sealed_fields L.length U.length P.length M.length C.length S.length K.length hfit
  refine ⟨by rw [Packager.BuildAppendedPSPF_healthy], _,
    Packager.decode_footerRegion_builtFile L U P M C S K, ?_, ?_, ?_, ?_, ?_⟩
  · rw [h3, h1, h2]
  · rw [h5, h3, h4]
  · rw [h7, h5, h6]
  · rw [h9, h7, h8]
  · rw [h11, h9, h10]

/-- Witness of C4 on inputs with empty runtime and signature sections. -/
theorem C4_sections_contiguous_witness :
    ([1, 2, 3] : Bytes).length + ([4] : Bytes).length + ([] : Bytes).length +
      ([5, 6] : Bytes).length + ([7] : Bytes).length + ([] : Bytes).length +
      ([10] : Bytes).length < 2 ^ 63 ∧
    ∃ ft, Footer.decode (footerRegion (Packager.builtFile [1, 2, 3] [4] [] [5, 6] [7] [] [10]))
        = ft ∧
      ft.PythonInstallTgzOffset = ft.UvBinaryOffset + ft.UvBinarySize ∧
      ft.MetadataTgzOffset = ft.PythonInstallTgzOffset + ft.PythonInstallTgzSize ∧
      ft.PayloadTgzOffset = ft.MetadataTgzOffset + ft.MetadataTgzSize ∧
      ft.PackageSignatureOffset = ft.PayloadTgzOffset + ft.PayloadTgzSize ∧
      ft.PublicKeyPEMOffset = ft.PackageSignatureOffset + ft.PackageSignatureSize :=
  ⟨by decide, (C4_sections_contiguous [1, 2, 3] [4] [] [5, 6] [7] [] [10] (by decide)).2⟩

/-- C5: for every file written by `BuildAppendedPSPF` whose six indexed
sections are each at most 2 GiB, the launcher reads the footer, the region
`[0, resolver_offset)` is the launcher (and `readSection` returns it when the
launcher too is at most 2 GiB), and `readSection` at each footer offset and
size returns exactly the bytes passed to the packager for that section. -/
theorem C5_sections_read_back (L U P M C S K : Bytes)
    (hfit : L.length + U.length + P.length + M.length + C.length + S.length + K.length
      < 2 ^ 63)
    (hU : U.length ≤ 2 ^ 31) (hP : P.length ≤ 2 ^ 31) (hM : M.length ≤ 2 ^ 31)
    (hC : C.length ≤ 2 ^ 31) (hS : S.length ≤ 2 ^ 31) (hK : K.length ≤ 2 ^ 31) :
    ∃ ft, Launcher.readAndVerifyFooter (Packager.builtFile L U P M C S K) = .ok ft ∧
      slice (Packager.builtFile L U P M C S K) 0 ft.UvBinaryOffset = L ∧
      (L.length ≤ 2 ^ 31 →
        Launcher.readSection (Packager.builtFile L U P M C S K) 0 ft.UvBinaryOffset = .ok L) ∧
      Launcher.readSection (Packager.builtFile L U P M C S K)
        ft.UvBinaryOffset ft.UvBinarySize = .ok U ∧
      Launcher.readSection (Packager.builtFile L U P M C S K)
        ft.PythonInstallTgzOffset ft.PythonInstallTgzSize = .ok P ∧
      Launcher.readSection (Packager.builtFile L U P M C S K)
        ft.MetadataTgzOffset ft.MetadataTgzSize = .ok M ∧
      Launcher.readSection (Packager.builtFile L U P M C S K)
        ft.PayloadTgzOffset ft.PayloadTgzSize = .ok C ∧
      Launcher.readSection (Packager.builtFile L U P M C S K)
        ft.PackageSignatureOffset ft.PackageSignatureSize = .ok S ∧
      Launcher.readSection (Packager.builtFile L U P M C S K)
        ft.PublicKeyPEMOffset ft.PublicKeyPEMSize = .ok K := by
  obtain ⟨h1, h2, h3, h4, h5, h6, h7, h8, h9, h10, h11, h12⟩ :=
    Packager.sealed_fields L.length U.length P.length M.length C.length S.length K.length hfit
  obtain ⟨s1, s2, s3, s4, s5, s6, s7⟩ := Packager.builtFile_slices L U P M C S K
  have hlen := Packager.builtFile_length L U P M C S K
  have hmax : maxSensibleReadSize = 2 ^ 31 := by norm_num [maxSensibleReadSize]
  refine ⟨_, Launcher.readAndVerifyFooter_builtFile L U P M C S K, ?_, ?_, ?_, ?_, ?_, ?_, ?_,
    ?_⟩
  · rw [h1]; exact s1
  · intro hL
    rw [h1, Launcher.readSection_slice _ 0 _ (by omega) (by omega) (by omega), s1]
  · rw [h1, h2, Launcher.readSection_slice _ _ _ (by omega) (by omega) (by omega), s2]
  · rw [h3, h4, Launcher.readSection_slice _ _ _ (by omega) (by omega) (by omega), s3]
  · rw [h5, h6, Launcher.readSection_slice _ _ _ (by omega) (by omega) (by omega), s4]
  · rw [h7, h8, Launcher.readSection_slice _ _ _ (by omega) (by omega) (by omega), s5]
  · rw [h9, h10, Launcher.readSection_slice _ _ _ (by omega) (by omega) (by omega), s6]
  · rw [h11, h12, Launcher.readSection_slice _ _ _ (by omega) (by omega) (by omega), s7]

/-- Witness of C5 on small inputs. -/
theorem C5_sections_read_back_witness :
    (([1, 2, 3] : Bytes).length + ([4] : Bytes).length + ([] : Bytes).length +
      ([5, 6] : Bytes).length + ([7] : Bytes).length + ([8, 9] : Bytes).length +
      ([10] : Bytes).length < 2 ^ 63 ∧
     ([4] : Bytes).length ≤ 2 ^ 31 ∧ ([] : Bytes).length ≤ 2 ^ 31 ∧
     ([5, 6] : Bytes).length ≤ 2 ^ 31 ∧ ([7] : Bytes).length ≤ 2 ^ 31 ∧
     ([8, 9] : Bytes).length ≤ 2 ^ 31 ∧ ([10] : Bytes).length ≤ 2 ^ 31) ∧
    ∃ ft, Launcher.readAndVerifyFooter
        (Packager.builtFile [1, 2, 3] [4] [] [5, 6] [7] [8, 9] [10]) = .ok ft ∧
      Launcher.readSection (Packager.builtFile [1, 2, 3] [4] [] [5, 6] [7] [8, 9] [10])
        ft.MetadataTgzOffset ft.MetadataTgzSize = .ok [5, 6] := by
  refine ⟨by decide, ?_⟩
  obtain ⟨ft, h, _, _, _, _, hm, _⟩ :=
    C5_sections_read_back [1, 2, 3] [4] [] [5, 6] [7] [8, 9] [10] (by decide) (by decide)
      (by decide) (by decide) (by decide) (by decide) (by decide)
  exact ⟨ft, h, hm⟩

/-- C6: for every file the build produces (the signature being whatever
`signPayload` returned for `contentToSign`), the byte string the launcher and
the verify command reassemble, whenever their reads succeed, is
`launcher ++ resolver ++ runtime ++ metadata ++ payload`: it is the string the
build signed and the first `signature_offset` bytes of the file, and it is the
same for any other signature and public key. The reads do succeed when every
part is at most 2 GiB, and the launcher then hands exactly that string, the
signature and the public key to `verifySignaturePSS`. -/
theorem C6_signed_byte_string (signPayload : Bytes → Except Err Bytes)
    (L U P M C K sig : Bytes)
    (hsig : signPayload (Packager.contentToSign L U P M C) = .ok sig)
    (hfit : L.length + U.length + P.length + M.length + C.length + sig.length + K.length
      < 2 ^ 63) :
    Packager.signAndAssemble signPayload OutputDevice.healthy L U P M C K =
      (none, Packager.builtFile L U P M C sig K) ∧
    Packager.contentToSign L U P M C = L ++ U ++ P ++ M ++ C ∧
    (∀ s, Launcher.readSections (Packager.builtFile L U P M C sig K) = .ok s →
      Launcher.contentToVerify s = Packager.contentToSign L U P M C ∧
      Launcher.contentToVerify s = (Packager.builtFile L U P M C sig K).take
        (Footer.decode (footerRegion (Packager.builtFile L U P M C sig K))).PackageSignatureOffset) ∧
    (∀ s, Packager.readSections (Packager.builtFile L U P M C sig K) = .ok s →
      Packager.contentToVerify s = Packager.contentToSign L U P M C ∧
      Packager.contentToVerify s = (Packager.builtFile L U P M C sig K).take
        (Footer.decode (footerRegion (Packager.builtFile L U P M C sig K))).PackageSignatureOffset) ∧
    (L.length ≤ 2 ^ 31 → U.length ≤ 2 ^ 31 → P.length ≤ 2 ^ 31 → M.length ≤ 2 ^ 31 →
      C.length ≤ 2 ^ 31 → sig.length ≤ 2 ^ 31 → K.length ≤ 2 ^ 31 →
      (∃ s, Launcher.readSections (Packager.builtFile L U P M C sig K) = .ok s) ∧
      (∃ s, Packager.readSections (Packager.builtFile L U P M C sig K) = .ok s)) ∧
    (L.length ≤ 2 ^ 31 → U.length ≤ 2 ^ 31 → P.length ≤ 2 ^ 31 → M.length ≤ 2 ^ 31 →
      C.length ≤ 2 ^ 31 → sig.length ≤ 2 ^ 31 → K.length ≤ 2 ^ 31 →
      ∀ verifySignaturePSS : Bytes → Bytes → Bytes → Option Err,
        Launcher.verifyPackage verifySignaturePSS (Packager.builtFile L U P M C sig K) =
          match verifySignaturePSS (Packager.contentToSign L U P M C) sig K with
          | some err => .error err
          | none => .ok { launcherBytes := L, uvBinBytes := U, pythonTgzBytes := P,
                          metadataTgzBytes := M, payloadTgzBytes := C, signatureBytes := sig,
                          publicKeyPEMBytes := K }) ∧
    (∀ sig2 K2 s s2,
      L.length + U.length + P.length + M.length + C.length + sig2.length + K2.length < 2 ^ 63 →
      Launcher.readSections (Packager.builtFile L U P M C sig K) = .ok s →
      Launcher.readSections (Packager.builtFile L U P M C sig2 K2) = .ok s2 →
      Launcher.contentToVerify s2 = Launcher.contentToVerify s) := by
  have hsign : Packager.contentToSign L U P M C = L ++ U ++ P ++ M ++ C := by
    simp only [Packager.contentToSign, List.nil_append]
  have hoff : (Footer.decode (footerRegion (Packager.builtFile L U P M C sig K))).PackageSignatureOffset
      = L.length + U.length + P.length + M.length + C.length := by
    rw [Packager.decode_footerRegion_builtFile]
    exact (Packager.sealed_fields _ _ _ _ _ _ _ hfit).2.2.2.2.2.2.2.2.1
  have hmax : maxSensibleReadSize = 2 ^ 31 := by norm_num [maxSensibleReadSize]
  refine ⟨?_, hsign, ?_, ?_, ?_, ?_, ?_⟩
  · rw [Packager.builtFile_eq]
    simp only [Packager.signAndAssemble, hsig, Packager.BuildAppendedPSPF_healthy]
  · intro s hs
    have := Launcher.readSections_builtFile_ok L U P M C sig K s hfit hs
    subst this
    rw [hoff, Packager.builtFile_take, hsign]
    simp only [Launcher.contentToVerify, List.nil_append, and_self]
  · intro s hs
    have := Packager.verifyCmd_reads_ok L U P M C sig K s hfit hs
    subst this
    rw [hoff, Packager.builtFile_take, hsign]
    simp only [Packager.contentToVerify, List.nil_append, and_self]
  · intro hL hU hP hM hC hS hK
    exact ⟨⟨_, Launcher.readSections_builtFile L U P M C sig K hfit (by omega) (by omega)
        (by omega) (by omega) (by omega) (by omega) (by omega)⟩,
      ⟨_, Packager.verifyCmd_reads L U P M C sig K hfit (by omega) (by omega)
        (by omega) (by omega) (by omega) (by omega)⟩⟩
  · intro hL hU hP hM hC hS hK verifySignaturePSS
    unfold Launcher.verifyPackage
    rw [Launcher.readSections_builtFile L U P M C sig K hfit (by omega) (by omega)
        (by omega) (by omega) (by omega) (by omega) (by omega), hsign]
    simp only [Launcher.contentToVerify, List.nil_append]
  · intro sig2 K2 s s2 hfit2 hs hs2
    have e1 := Launcher.readSections_builtFile_ok L U P M C sig K s hfit hs
    have e2 := Launcher.readSections_builtFile_ok L U P M C sig2 K2 s2 hfit2 hs2
    subst e1 e2
    simp only [Launcher.contentToVerify]

/-- Witness of C6 with a signer that returns two fixed bytes. -/
theorem C6_signed_byte_string_witness :
    (fun _ => Except.ok [8, 9] : Bytes → Except Err Bytes)
        (Packager.contentToSign [1, 2, 3] [4] [] [5, 6] [7]) = .ok [8, 9] ∧
    ([1, 2, 3] : Bytes).length + ([4] : Bytes).length + ([] : Bytes).length +
      ([5, 6] : Bytes).length + ([7] : Bytes).length + ([8, 9] : Bytes).length +
      ([10] : Bytes).length < 2 ^ 63 ∧
    Packager.signAndAssemble (fun _ => Except.ok [8, 9]) OutputDevice.healthy
        [1, 2, 3] [4] [] [5, 6] [7] [10] =
      (none, Packager.builtFile [1, 2, 3] [4] [] [5, 6] [7] [8, 9] [10]) :=
  ⟨rfl, by decide,
    (C6_signed_byte_string (fun _ => Except.ok [8, 9]) [1, 2, 3] [4] [] [5, 6] [7] [10] [8, 9]
      rfl (by decide)).1⟩


/-! ## Tampering with the footer bytes -/

theorem take_putUint_append_ge (n w v : Nat) (r : Bytes) (h : w ≤ n) :
    (putUint w v ++ r).take n = putUint w v ++ r.take (n - w) := by
  rw [List.take_append_eq_append_take, putUint_length, List.take_of_length_le (by simp [h])]

/-- Assigning the checksum field changes exactly bytes 100..103 of the
encoding. -/
theorem Footer.encode_withChecksum (f : Footer) (c : Nat) :
    (f.withChecksum c).encode = f.encode.take 100 ++ (putUint 4 c ++ f.encode.drop 104) := by
  cases f
  simp only [Footer.withChecksum, Footer.encode, take_putUint_append_ge, drop_putUint_append,
    Nat.reduceLeDiff, Nat.reduceSub, List.take_zero, List.drop_zero, List.append_nil,
    List.append_assoc]

theorem Footer.decode_checksum (b : Bytes) :
    (Footer.decode b).FooterStructChecksum = getUint 4 (b.drop 100) := rfl

theorem Footer.decode_magic (b : Bytes) :
    (Footer.decode b).InternalFooterMagic = getUint 4 (b.drop 104) := rfl

/-- The message whose CRC `VerifyChecksum` computes for a decoded footer: the
footer bytes with bytes 100..103 zeroed. -/
theorem Footer.encode_decode_zeroed (b : Bytes) (hlen : b.length = 108)
    (hb : ∀ x ∈ b, x < 256) :
    ((Footer.decode b).withChecksum 0).encode = b.take 100 ++ ([0, 0, 0, 0] ++ b.drop 104) := by
  rw [Footer.encode_withChecksum, Footer.encode_decode b hlen hb]
  rfl

theorem getUint_injective (w : Nat) (a b : Bytes) (ha : a.length = w) (hb : b.length = w)
    (hal : ∀ x ∈ a, x < 256) (hbl : ∀ x ∈ b, x < 256) (h : getUint w a = getUint w b) :
    a = b := by
  have h1 := putUint_getUint w a (by omega) hal
  have h2 := putUint_getUint w b (by omega) hbl
  rw [h, h2] at h1
  rw [List.take_of_length_le (by omega), List.take_of_length_le (by omega)] at h1
  exact h1.symm

theorem set_lt (b : Bytes) (hb : ∀ x ∈ b, x < 256) (i x : Nat) (hx : x < 256) :
    ∀ y ∈ b.set i x, y < 256 := by
  intro y hy
  rcases List.mem_or_eq_of_mem_set hy with h | h
  · exact hb y h
  · omega

/-- Changing one of the bytes 0..99 of a footer whose checksum matched makes
the checksum of the decoded footer differ from the stored one, and leaves the
stored checksum and the magic as they were. -/
theorem tamper_checksum (b : Bytes) (hlen : b.length = 108) (hb : ∀ x ∈ b, x < 256)
    (hvalid : (Footer.decode b).FooterStructChecksum =
      crc32.ChecksumIEEE ((Footer.decode b).withChecksum 0).encode)
    (i x : Nat) (hi : i < 100) (hx : x < 256) (hne : b[i]? ≠ some x) :
    (Footer.decode (b.set i x)).InternalFooterMagic = (Footer.decode b).InternalFooterMagic ∧
    (Footer.decode (b.set i x)).FooterStructChecksum ≠
      crc32.ChecksumIEEE ((Footer.decode (b.set i x)).withChecksum 0).encode := by
  have hb2 := set_lt b hb i x hx
  have hlen2 : (b.set i x).length = 108 := by rw [List.length_set, hlen]
  rw [Footer.decode_magic, Footer.decode_magic, Footer.decode_checksum,
    Footer.encode_decode_zeroed _ hlen2 hb2, List.drop_set_of_lt x b (show i < 104 by omega),
    List.drop_set_of_lt x b (show i < 100 by omega), List.set_take]
  rw [Footer.decode_checksum, Footer.encode_decode_zeroed b hlen hb] at hvalid
  refine ⟨rfl, ?_⟩
  rw [hvalid]
  have hlt : i < (b.take 100).length := by rw [List.length_take, hlen]; omega
  rw [← List.set_append_left i x hlt]
  refine Ne.symm (crc32.ChecksumIEEE_set_ne _ ?_ i x ?_ hx ?_)
  · intro y hy
    rcases List.mem_append.mp hy with h | h
    · exact hb y (List.mem_of_mem_take h)
    · rcases List.mem_append.mp h with h | h
      · simp only [List.mem_cons, List.mem_singleton, List.not_mem_nil, or_false] at h
        omega
      · exact hb y (List.mem_of_mem_drop h)
  · rw [List.length_append]; omega
  · rw [List.getElem?_append_left hlt, List.getElem?_take_of_lt hi]
    exact hne

/-- Changing one of the bytes 104..107 of a footer changes the decoded magic. -/
theorem tamper_magic (b : Bytes) (hlen : b.length = 108) (hb : ∀ x ∈ b, x < 256)
    (i x : Nat) (hi : 104 ≤ i) (hi2 : i < 108) (hx : x < 256) (hne : b[i]? ≠ some x) :
    (Footer.decode (b.set i x)).InternalFooterMagic ≠ (Footer.decode b).InternalFooterMagic := by
  rw [Footer.decode_magic, Footer.decode_magic]
  intro h
  have hinj := getUint_injective 4 _ _ (by rw [List.length_drop, List.length_set]; omega)
    (by rw [List.length_drop]; omega)
    (fun y hy => set_lt b hb i x hx y (List.mem_of_mem_drop hy))
    (fun y hy => hb y (List.mem_of_mem_drop hy)) h
  have h1 : ((b.set i x).drop 104)[i - 104]? = (b.drop 104)[i - 104]? := by rw [hinj]
  rw [List.getElem?_drop, List.getElem?_drop, show 104 + (i - 104) = i by omega,
    List.getElem?_set_self (by omega)] at h1
  exact hne h1.symm

/-- Replacing a byte of the footer region of a file replaces that byte of
the region. -/
theorem footerRegion_set (file : Bytes) (i x : Nat) :
    footerRegion (file.set (file.length - 116 + i) x) = (footerRegion file).set i x := by
  unfold footerRegion
  rw [List.length_set, List.drop_set, if_neg (by omega),
    show file.length - 116 + i - (file.length - 116) = i by omega, List.set_take]

theorem footerRegion_getElem? (file : Bytes) (i : Nat) (hi : i < 108) :
    (footerRegion file)[i]? = file[file.length - 116 + i]? := by
  unfold footerRegion
  rw [List.getElem?_take_of_lt hi, List.getElem?_drop]

theorem footerRegion_lt (file : Bytes) (hb : ∀ x ∈ file, x < 256) :
    ∀ x ∈ footerRegion file, x < 256 :=
  fun x hx => hb x (List.mem_of_mem_drop (List.mem_of_mem_take hx))


theorem Packager.footerRegion_builtFile (L U P M C S K : Bytes) :
    footerRegion (Packager.builtFile L U P M C S K) =
      (Packager.footerOfLengths L.length U.length P.length M.length C.length S.length
        K.length).seal.encode := by
  have hfile : Packager.builtFile L U P M C S K =
      (L ++ U ++ P ++ M ++ C ++ S ++ K) ++
        ((Packager.footerOfLengths L.length U.length P.length M.length C.length S.length
          K.length).seal.encode ++ MagicEOFString) := by
    rw [Packager.builtFile_eq]
    simp only [List.append_assoc]
  rw [hfile, footerRegion_append _ _ (Footer.encode_length _)]

/-- The footer region of a built file decodes to a footer with the right
magic and a matching checksum. -/
theorem Packager.builtFile_footer_valid (L U P M C S K : Bytes) :
    (Footer.decode (footerRegion (Packager.builtFile L U P M C S K))).InternalFooterMagic =
      InternalFooterMagic ∧
    (Footer.decode (footerRegion (Packager.builtFile L U P M C S K))).FooterStructChecksum =
      crc32.ChecksumIEEE
        ((Footer.decode (footerRegion (Packager.builtFile L U P M C S K))).withChecksum 0).encode := by
  rw [Packager.decode_footerRegion_builtFile, Footer.seal_magic, Footer.seal_checksum,
    Footer.seal_withChecksum]
  exact ⟨rfl, rfl⟩

/-- The outcome of `readAndVerifyFooter` after one byte of the footer region
of a built file is replaced by a different byte. -/
theorem Launcher.readAndVerifyFooter_tampered (L U P M C S K : Bytes) (i x : Nat)
    (hx : x < 256)
    (hne : (Packager.builtFile L U P M C S K)[(Packager.builtFile L U P M C S K).length
      - 116 + i]? ≠ some x) :
    (i < 100 → Launcher.readAndVerifyFooter ((Packager.builtFile L U P M C S K).set
        ((Packager.builtFile L U P M C S K).length - 116 + i) x) =
      .error .footerChecksumMismatch) ∧
    (104 ≤ i → i < 108 → Launcher.readAndVerifyFooter ((Packager.builtFile L U P M C S K).set
        ((Packager.builtFile L U P M C S K).length - 116 + i) x) =
      .error .invalidInternalMagic) := by
  have hlen : 116 ≤ (Packager.builtFile L U P M C S K).length := by
    rw [Packager.builtFile_length]; omega
  have hlen2 : 116 ≤ ((Packager.builtFile L U P M C S K).set
      ((Packager.builtFile L U P M C S K).length - 116 + i) x).length := by
    rw [List.length_set]; exact hlen
  obtain ⟨hmagic, hcrc⟩ := Packager.builtFile_footer_valid L U P M C S K
  have hrl := footerRegion_length _ hlen
  have hrb : ∀ y ∈ footerRegion (Packager.builtFile L U P M C S K), y < 256 := by
    rw [Packager.footerRegion_builtFile]
    exact Footer.encode_lt _
  constructor
  · intro hi
    have hne2 : (footerRegion (Packager.builtFile L U P M C S K))[i]? ≠ some x := by
      rw [footerRegion_getElem? _ i (by omega)]; exact hne
    obtain ⟨h1, h2⟩ := tamper_checksum _ hrl hrb hcrc i x hi hx hne2
    rw [Launcher.readAndVerifyFooter_of_ge _ hlen2, footerRegion_set, h1, hmagic,
      if_neg (by simp), if_neg h2]
  · intro hi hi2
    have hne2 : (footerRegion (Packager.builtFile L U P M C S K))[i]? ≠ some x := by
      rw [footerRegion_getElem? _ i (by omega)]; exact hne
    have h1 := tamper_magic _ hrl hrb i x hi hi2 hx hne2
    rw [hmagic] at h1
    rw [Launcher.readAndVerifyFooter_of_ge _ hlen2, footerRegion_set, if_pos h1]

/-- Byte 104 of an encoded footer is the low byte of its magic. -/
theorem Footer.encode_getElem?_104 (f : Footer) :
    f.encode[104]? = some (f.InternalFooterMagic % 256) := by
  have h : (slice f.encode 104 4)[0]? = f.encode[104]? := by
    unfold slice
    rw [List.getElem?_take_of_lt (by norm_num), List.getElem?_drop]
  have e (w v : Nat) : (putUint w v).take w = putUint w v := by simp
  rw [← h]
  simp only [slice, Footer.encode, drop_putUint_append, Nat.reduceLeDiff, Nat.reduceSub,
    List.drop_zero, e]
  rw [putUint_getElem? 4 _ 0 (by norm_num)]
  simp

/-- The magic field of the footer of a file is the little-endian value of
the four bytes at `file_size - 12`. -/
theorem decode_footerRegion_magic (file : Bytes) (hlen : 116 ≤ file.length) :
    (Footer.decode (footerRegion file)).InternalFooterMagic =
      getUint 4 (slice file (file.length - 12) 4) := by
  rw [Footer.decode_magic]
  unfold footerRegion slice
  rw [List.drop_take, List.drop_drop, getUint_take,
    show file.length - 116 + 104 = file.length - 12 by omega, getUint_take]


/-- C7 as stated fails: take the file built from launcher `LAUNCH`, resolver
`UV`, runtime `PY`, metadata `M`, payload `P`, a three-byte signature and a
two-byte key. It has 133 bytes, its footer region is bytes 17..124, and byte
121 (footer byte 104) is `0x50`, the low byte of the magic and not one of the
`footer_crc` bytes. Replacing that byte by 0 makes `readAndVerifyFooter` fail
with `invalid internal magic`, which is not the checksum-mismatch error. -/
theorem C7_flip_magic_byte_counterexample :
    (Packager.builtFile [76, 65, 85, 78, 67, 72] [85, 86] [80, 89] [77] [80] [1, 2, 3]
      [4, 5]).length = 133 ∧
    (Packager.builtFile [76, 65, 85, 78, 67, 72] [85, 86] [80, 89] [77] [80] [1, 2, 3]
      [4, 5])[133 - 116 + 104]? = some 0x50 ∧
    Launcher.readAndVerifyFooter ((Packager.builtFile [76, 65, 85, 78, 67, 72] [85, 86]
      [80, 89] [77] [80] [1, 2, 3] [4, 5]).set (133 - 116 + 104) 0) =
      .error .invalidInternalMagic ∧
    Launcher.readAndVerifyFooter ((Packager.builtFile [76, 65, 85, 78, 67, 72] [85, 86]
      [80, 89] [77] [80] [1, 2, 3] [4, 5]).set (133 - 116 + 104) 0) ≠
      .error .footerChecksumMismatch := by
  have hlen : (Packager.builtFile [76, 65, 85, 78, 67, 72] [85, 86] [80, 89] [77] [80]
      [1, 2, 3] [4, 5]).length = 133 := by
    rw [Packager.builtFile_length]; rfl
  have h104 : (Packager.builtFile [76, 65, 85, 78, 67, 72] [85, 86] [80, 89] [77] [80]
      [1, 2, 3] [4, 5])[133 - 116 + 104]? = some 0x50 := by
    have := footerRegion_getElem? (Packager.builtFile [76, 65, 85, 78, 67, 72] [85, 86]
      [80, 89] [77] [80] [1, 2, 3] [4, 5]) 104 (by norm_num)
    rw [hlen] at this
    rw [← this, Packager.footerRegion_builtFile, Footer.encode_getElem?_104, Footer.seal_magic]
    rfl
  have hne : (Packager.builtFile [76, 65, 85, 78, 67, 72] [85, 86] [80, 89] [77] [80]
      [1, 2, 3] [4, 5])[(Packager.builtFile [76, 65, 85, 78, 67, 72] [85, 86] [80, 89] [77]
      [80] [1, 2, 3] [4, 5]).length - 116 + 104]? ≠ some 0 := by
    rw [hlen, h104]
    simp
  have h := (Launcher.readAndVerifyFooter_tampered [76, 65, 85, 78, 67, 72] [85, 86]
    [80, 89] [77] [80] [1, 2, 3] [4, 5] 104 0 (by norm_num) hne).2 (le_refl _) (by norm_num)
  rw [hlen] at h
  refine ⟨hlen, h104, h, ?_⟩
  rw [h]
  simp

/-- C7, amended: for every built PSPF file, replacing one byte of the 108-byte
footer region by a different byte makes `readAndVerifyFooter` fail with the
checksum-mismatch error when the byte is one of bytes 0..99 of the footer, and
with the invalid-magic error when it is one of the magic bytes 104..107. -/
theorem C7_flip_footer_byte (L U P M C S K : Bytes) (i x : Nat) (hx : x < 256)
    (hne : (Packager.builtFile L U P M C S K)[(Packager.builtFile L U P M C S K).length
      - 116 + i]? ≠ some x) :
    (i < 100 → Launcher.readAndVerifyFooter ((Packager.builtFile L U P M C S K).set
        ((Packager.builtFile L U P M C S K).length - 116 + i) x) =
      .error .footerChecksumMismatch) ∧
    (104 ≤ i → i < 108 → Launcher.readAndVerifyFooter ((Packager.builtFile L U P M C S K).set
        ((Packager.builtFile L U P M C S K).length - 116 + i) x) =
      .error .invalidInternalMagic) :=
  Launcher.readAndVerifyFooter_tampered L U P M C S K i x hx hne

/-- Byte 0 of the footer of the file built from a one-byte launcher and six
empty sections is 1 (the low byte of `resolver_offset`). -/
theorem Packager.builtFile_one_getElem? :
    (Packager.builtFile [7] [] [] [] [] [] [])[(Packager.builtFile [7] [] [] [] [] []
      []).length - 116 + 0]? = some 1 := by
  rw [← footerRegion_getElem? _ 0 (by norm_num), Packager.footerRegion_builtFile]
  have h : (slice (Packager.footerOfLengths ([7] : Bytes).length ([] : Bytes).length
      ([] : Bytes).length ([] : Bytes).length ([] : Bytes).length ([] : Bytes).length
      ([] : Bytes).length).seal.encode 0 8)[0]? =
      (Packager.footerOfLengths ([7] : Bytes).length ([] : Bytes).length
      ([] : Bytes).length ([] : Bytes).length ([] : Bytes).length ([] : Bytes).length
      ([] : Bytes).length).seal.encode[0]? := by
    unfold slice
    rw [List.getElem?_take_of_lt (by norm_num), List.getElem?_drop]
  rw [← h]
  simp only [slice, Footer.encode, List.drop_zero, take_putUint_append]
  rw [putUint_getElem? 8 _ 0 (by norm_num), Footer.seal_UvBinaryOffset]
  rfl

/-- Witness of the amended C7: byte 0 of the footer of a small built file,
changed from 1 to 2. -/
theorem C7_flip_footer_byte_witness :
    2 < 256 ∧
    (Packager.builtFile [7] [] [] [] [] [] [])[(Packager.builtFile [7] [] [] [] [] []
      []).length - 116 + 0]? ≠ some 2 ∧
    Launcher.readAndVerifyFooter ((Packager.builtFile [7] [] [] [] [] [] []).set
        ((Packager.builtFile [7] [] [] [] [] [] []).length - 116 + 0) 2) =
      .error .footerChecksumMismatch :=
  ⟨by norm_num, by rw [Packager.builtFile_one_getElem?]; simp,
    (C7_flip_footer_byte [7] [] [] [] [] [] [] 0 2 (by norm_num)
      (by rw [Packager.builtFile_one_getElem?]; simp)).1 (by norm_num)⟩


/-- The encoding of a sealed footer decodes to a footer whose stored checksum
matches, whatever the field values. -/
theorem Footer.seal_encode_valid (f : Footer) :
    (Footer.decode f.seal.encode).FooterStructChecksum =
      crc32.ChecksumIEEE ((Footer.decode f.seal.encode).withChecksum 0).encode := by
  have hlt := crc32.ChecksumIEEE_lt _ (Footer.encode_lt (f.withChecksum 0))
  rw [Footer.encode_decode_zeroed _ (Footer.encode_length _) (Footer.encode_lt _),
    Footer.decode_checksum]
  have h1 : getUint 4 (f.seal.encode.drop 100) = f.seal.FooterStructChecksum % 256 ^ 4 := by
    simp only [Footer.encode, drop_putUint_append, Nat.reduceLeDiff, Nat.reduceSub,
      List.drop_zero, getUint_putUint_append]
  have h2 : f.seal.encode.take 100 ++ ([0, 0, 0, 0] ++ f.seal.encode.drop 104) =
      (f.withChecksum 0).encode := by
    rw [← Footer.seal_withChecksum f 0, Footer.encode_withChecksum]
    rfl
  rw [h1, h2, Footer.seal_checksum]
  exact Nat.mod_eq_of_lt hlt

/-- C8: for every sealed footer, changing exactly one byte of its encoding
among bytes 0..95 (the section offsets and sizes) leaves the decoded magic as
it was and makes `VerifyChecksum` return false; when the magic is the PSPF
magic, `readAndVerifyFooter` on any file that ends with the changed footer and
the trailing marker fails with `footer checksum mismatch`. The CRC-32 of a
message changes whenever one of its bytes is replaced by a different byte. -/
theorem C8_single_byte_change_detected (f : Footer) (i x : Nat) (hi : i < 96) (hx : x < 256)
    (hne : f.seal.encode[i]? ≠ some x) :
    (Footer.decode (f.seal.encode.set i x)).InternalFooterMagic =
      (Footer.decode f.seal.encode).InternalFooterMagic ∧
    (Footer.decode (f.seal.encode.set i x)).VerifyChecksum = .ok false ∧
    ((Footer.decode f.seal.encode).InternalFooterMagic = InternalFooterMagic →
      ∀ pre : Bytes, Launcher.readAndVerifyFooter
        (pre ++ (f.seal.encode.set i x ++ MagicEOFString)) = .error .footerChecksumMismatch) ∧
    Err.footerChecksumMismatch.message = "footer checksum mismatch" ∧
    (∀ (m : Bytes) (p b : Nat), (∀ y ∈ m, y < 256) → p < m.length → b < 256 → m[p]? ≠ some b →
      crc32.ChecksumIEEE (m.set p b) ≠ crc32.ChecksumIEEE m) := by
  obtain ⟨h1, h2⟩ := tamper_checksum f.seal.encode (Footer.encode_length _)
    (Footer.encode_lt _) (Footer.seal_encode_valid f) i x (by omega) hx hne
  refine ⟨h1, ?_, ?_, rfl, fun m p b hm hp hb hmb => crc32.ChecksumIEEE_set_ne m hm p b hp hb hmb⟩
  · rw [Footer.VerifyChecksum_eq]
    simp only [h2, decide_False]
  · intro hm pre
    have hl : (f.seal.encode.set i x).length = 108 := by
      rw [List.length_set, Footer.encode_length]
    have hlen : 116 ≤ (pre ++ (f.seal.encode.set i x ++ MagicEOFString)).length := by
      simp only [List.length_append, hl, MagicEOFString, List.length_cons, List.length_nil]
      omega
    rw [Launcher.readAndVerifyFooter_of_ge _ hlen, footerRegion_append _ _ hl, h1, hm,
      if_neg (by simp), if_neg h2]

/-- Byte 8 of the encoding of the sealed all-zero footer is 0. -/
theorem Footer.zero_seal_getElem?_8 :
    (Footer.mk 0 0 0 0 0 0 0 0 0 0 0 0 0 0 0 0).seal.encode[8]? = some 0 := by
  have h : (slice (Footer.mk 0 0 0 0 0 0 0 0 0 0 0 0 0 0 0 0).seal.encode 8 8)[0]? =
      (Footer.mk 0 0 0 0 0 0 0 0 0 0 0 0 0 0 0 0).seal.encode[8]? := by
    unfold slice
    rw [List.getElem?_take_of_lt (by norm_num), List.getElem?_drop]
  rw [← h]
  simp only [slice, Footer.encode, drop_putUint_append, Nat.reduceLeDiff, Nat.reduceSub,
    List.drop_zero, take_putUint_append]
  rw [putUint_getElem? 8 _ 0 (by norm_num), Footer.seal_UvBinarySize]
  rfl

/-- Witness of C8: byte 8 of the sealed all-zero footer changed from 0 to 1. -/
theorem C8_single_byte_change_detected_witness :
    (8 < 96 ∧ 1 < 256 ∧ (Footer.mk 0 0 0 0 0 0 0 0 0 0 0 0 0 0 0 0).seal.encode[8]? ≠ some 1) ∧
    (Footer.decode ((Footer.mk 0 0 0 0 0 0 0 0 0 0 0 0 0 0 0 0).seal.encode.set 8
      1)).VerifyChecksum = .ok false :=
  ⟨⟨by norm_num, by norm_num, by rw [Footer.zero_seal_getElem?_8]; simp⟩,
    (C8_single_byte_change_detected (Footer.mk 0 0 0 0 0 0 0 0 0 0 0 0 0 0 0 0) 8 1
      (by norm_num) (by norm_num) (by rw [Footer.zero_seal_getElem?_8]; simp)).2.1⟩

/-- C9: on every file of at least 116 bytes, `readAndVerifyFooter` checks the
magic before the CRC: when the magic field (the little-endian value of the
four bytes at `file_size - 12`) differs from `0x30505350` it fails with
`invalid internal magic`, whatever the checksum; when the magic is right and
`VerifyChecksum` returns false it fails with `footer checksum mismatch`; the
two errors are distinct. -/
theorem C9_magic_checked_before_crc (file : Bytes) (hlen : 116 ≤ file.length) :
    (getUint 4 (slice file (file.length - 12) 4) ≠ 0x30505350 →
      Launcher.readAndVerifyFooter file = .error .invalidInternalMagic) ∧
    (getUint 4 (slice file (file.length - 12) 4) = 0x30505350 →
      (Footer.decode (footerRegion file)).VerifyChecksum = .ok false →
      Launcher.readAndVerifyFooter file = .error .footerChecksumMismatch) ∧
    Err.invalidInternalMagic.message = "invalid internal magic" ∧
    Err.footerChecksumMismatch.message = "footer checksum mismatch" ∧
    Err.invalidInternalMagic ≠ Err.footerChecksumMismatch ∧
    Err.invalidInternalMagic.message ≠ Err.footerChecksumMismatch.message := by
  have hm := decode_footerRegion_magic file hlen
  have hM : InternalFooterMagic = 0x30505350 := rfl
  refine ⟨?_, ?_, rfl, rfl, by simp, by decide⟩
  · intro h
    rw [Launcher.readAndVerifyFooter_of_ge file hlen, hm, hM, if_pos h]
  · intro h hv
    rw [Footer.VerifyChecksum_eq] at hv
    have hv2 : ¬ (Footer.decode (footerRegion file)).FooterStructChecksum =
        crc32.ChecksumIEEE ((Footer.decode (footerRegion file)).withChecksum 0).encode := by
      simpa using hv
    rw [Launcher.readAndVerifyFooter_of_ge file hlen, hm, hM, if_neg (by simp [h]), if_neg hv2]

/-- Witness of C9: a file of 116 zero bytes has magic field 0. -/
theorem C9_magic_checked_before_crc_witness :
    116 ≤ (List.replicate 116 0 : Bytes).length ∧
    Launcher.readAndVerifyFooter (List.replicate 116 0) = .error .invalidInternalMagic :=
  ⟨by simp, (C9_magic_checked_before_crc (List.replicate 116 0) (by simp)).1 (by decide)⟩


/-- C10, the code at the failing input: with destination `/tmp/foo`, an
archive holding one regular file named `../foobar/evil.txt` passes the
prefix test of `unTar` (the cleaned target `/tmp/foobar/evil.txt` starts with
the characters `/tmp/foo`), so `unTar` returns no error and creates the
directory `/tmp/foobar` and the file `/tmp/foobar/evil.txt`, both outside
`/tmp/foo`. -/
theorem C10_sibling_directory_escapes :
    filepath.Clean (filepath.Join "/tmp/foo".toList "../foobar/evil.txt".toList) =
      "/tmp/foobar/evil.txt".toList ∧
    isWithin "/tmp/foo".toList "/tmp/foobar/evil.txt".toList = false ∧
    HasPrefix "/tmp/foobar/evil.txt".toList (filepath.Clean "/tmp/foo".toList) = true ∧
    Launcher.unTar FileSystem.healthy
        [.entry { Name := "../foobar/evil.txt".toList, Typeflag := .TypeReg, Linkname := [],
                  Mode := 0o600 } [101, 118, 105, 108]]
        "/tmp/foo".toList =
      (.ok ["../foobar/evil.txt".toList],
       [.MkdirAll "/tmp/foobar".toList 0o755,
        .OpenFile "/tmp/foobar/evil.txt".toList 0o600,
        .Copy "/tmp/foobar/evil.txt".toList [101, 118, 105, 108]]) := by
  refine ⟨by decide, by decide, by decide, by rfl⟩

/-- The entry of the repository's test, `../evil.txt`, is rejected. -/
theorem Launcher.unTar_test_entry_rejected :
    Launcher.unTar FileSystem.healthy
        [.entry { Name := "../evil.txt".toList, Typeflag := .TypeReg, Linkname := [],
                  Mode := 0o600 } [101]]
        "/tmp/foo".toList = (.error .zipSlip, []) := by
  rfl


/-! ## Magic location and trailing marker (C13, C14) -/

theorem slice_footerRegion (file : Bytes) (i k : Nat) (hik : i + k ≤ 108) :
    slice (footerRegion file) i k = slice file (file.length - 116 + i) k := by
  unfold slice footerRegion
  rw [List.drop_take, List.drop_drop, List.take_take, Nat.min_eq_left (by omega)]

theorem Footer.encode_slice_magic (f : Footer) :
    slice f.encode 104 4 = putUint 4 f.InternalFooterMagic := by
  have e (w v : Nat) : (putUint w v).take w = putUint w v := by simp
  simp only [slice, Footer.encode, drop_putUint_append, Nat.reduceLeDiff, Nat.reduceSub,
    List.drop_zero, e]

theorem Packager.builtFile_split (L U P M C S K : Bytes) :
    Packager.builtFile L U P M C S K =
      (L ++ U ++ P ++ M ++ C ++ S ++ K) ++
        ((Packager.footerOfLengths L.length U.length P.length M.length C.length S.length
          K.length).seal.encode ++ MagicEOFString) := by
  rw [Packager.builtFile_eq]
  simp only [List.append_assoc]

/-- C13: in every file written by `BuildAppendedPSPF` (all writes done), the
four bytes at offset `file_size - 8 - 108 + 104` are the little-endian
encoding of `0x30505350`, that is the bytes `P`, `S`, `P`, `0`. -/
theorem C13_magic_location (L U P M C S K : Bytes) :
    slice (Packager.builtFile L U P M C S K)
        ((Packager.builtFile L U P M C S K).length - 8 - 108 + 104) 4 =
      putUint 4 0x30505350 ∧
    putUint 4 0x30505350 = ['P', 'S', 'P', '0'].map Char.toNat ∧
    getUint 4 (slice (Packager.builtFile L U P M C S K)
        ((Packager.builtFile L U P M C S K).length - 8 - 108 + 104) 4) = 0x30505350 := by
  have hl := Packager.builtFile_length L U P M C S K
  have h1 : slice (Packager.builtFile L U P M C S K)
      ((Packager.builtFile L U P M C S K).length - 8 - 108 + 104) 4 = putUint 4 0x30505350 := by
    rw [show (Packager.builtFile L U P M C S K).length - 8 - 108 + 104 =
        (Packager.builtFile L U P M C S K).length - 116 + 104 by omega,
      ← slice_footerRegion _ 104 4 (by norm_num), Packager.footerRegion_builtFile,
      Footer.encode_slice_magic, Footer.seal_magic]
    rfl
  refine ⟨h1, by decide, ?_⟩
  rw [h1]
  decide

/-- C14: in every file written by `BuildAppendedPSPF` (all writes done), the
last 8 bytes are `!PSPF` followed by three NUL bytes, and the 108 bytes just
before them are the encoded footer. -/
theorem C14_trailing_marker (L U P M C S K : Bytes) :
    slice (Packager.builtFile L U P M C S K) ((Packager.builtFile L U P M C S K).length - 8) 8 =
      MagicEOFString ∧
    (Packager.builtFile L U P M C S K).drop ((Packager.builtFile L U P M C S K).length - 8) =
      MagicEOFString ∧
    MagicEOFString = ['!', 'P', 'S', 'P', 'F'].map Char.toNat ++ [0, 0, 0] ∧
    slice (Packager.builtFile L U P M C S K)
        ((Packager.builtFile L U P M C S K).length - 8 - 108) 108 =
      (Packager.footerOfLengths L.length U.length P.length M.length C.length S.length
        K.length).seal.encode ∧
    Footer.decode (slice (Packager.builtFile L U P M C S K)
        ((Packager.builtFile L U P M C S K).length - 8 - 108) 108) =
      (Packager.footerOfLengths L.length U.length P.length M.length C.length S.length
        K.length).seal := by
  have hl := Packager.builtFile_length L U P M C S K
  have hd : (Packager.builtFile L U P M C S K).drop
      ((Packager.builtFile L U P M C S K).length - 8) = MagicEOFString := by
    have hsplit : Packager.builtFile L U P M C S K =
        (L ++ U ++ P ++ M ++ C ++ S ++ K ++
          (Packager.footerOfLengths L.length U.length P.length M.length C.length S.length
            K.length).seal.encode) ++ MagicEOFString := by
      rw [Packager.builtFile_eq]
    have hn : (Packager.builtFile L U P M C S K).length - 8 =
        (L ++ U ++ P ++ M ++ C ++ S ++ K ++
          (Packager.footerOfLengths L.length U.length P.length M.length C.length S.length
            K.length).seal.encode).length := by
      rw [hl]
      simp only [List.length_append, Footer.encode_length]
      omega
    rw [hn]
    conv_lhs => rw [hsplit]
    exact List.drop_left _ _
  have hf : slice (Packager.builtFile L U P M C S K)
      ((Packager.builtFile L U P M C S K).length - 8 - 108) 108 =
      (Packager.footerOfLengths L.length U.length P.length M.length C.length S.length
        K.length).seal.encode := by
    have := Packager.footerRegion_builtFile L U P M C S K
    unfold footerRegion at this
    unfold slice
    rw [show (Packager.builtFile L U P M C S K).length - 8 - 108 =
      (Packager.builtFile L U P M C S K).length - 116 by omega]
    exact this
  refine ⟨?_, hd, by decide, hf, ?_⟩
  · unfold slice
    rw [hd]
    rfl
  · rw [hf]
    exact Footer.decode_encode _
      (Footer.seal_inRange _ (Packager.footerOfLengths_inRange ..))

/-! ## Reads and the calls they make (C15, C16) -/

theorem Launcher.readAndVerifyFooterCalls_small (file : Bytes) (h : file.length < 116) :
    Launcher.readAndVerifyFooterCalls file = (.error .fileTooSmall, [.Stat]) := by
  unfold Launcher.readAndVerifyFooterCalls
  simp only [FooterSize, MagicEOFString, List.length_cons, List.length_nil]
  rw [if_pos (by omega)]

theorem Launcher.readAndVerifyFooterCalls_of_ge (file : Bytes) (h : 116 ≤ file.length) :
    Launcher.readAndVerifyFooterCalls file =
      (Launcher.readAndVerifyFooter file,
        [.Stat, .Make 108, .ReadAt 108 ((file.length : Int) - 8 - 108)]) := by
  rw [Launcher.readAndVerifyFooter_of_ge file h]
  unfold Launcher.readAndVerifyFooterCalls
  have h0 : ¬ ((file.length : Int) < ((FooterSize + MagicEOFString.length : Nat) : Int)) := by
    simp only [FooterSize, MagicEOFString, List.length_cons, List.length_nil]
    omega
  have e : (file.length : Int) - (FooterSize : Int) - (MagicEOFString.length : Int) =
      (file.length : Int) - 8 - 108 := by
    simp only [FooterSize, MagicEOFString, List.length_cons, List.length_nil]
    omega
  rw [if_neg h0]
  simp only [ReadAt_footer file h, binaryRead, footerRegion_length file h]
  rw [e]
  simp only [FooterSize, lt_irrefl, if_false, Footer.VerifyChecksum_eq]
  by_cases hm : (Footer.decode (footerRegion file)).InternalFooterMagic = InternalFooterMagic
  · by_cases hc : (Footer.decode (footerRegion file)).FooterStructChecksum =
        crc32.ChecksumIEEE ((Footer.decode (footerRegion file)).withChecksum 0).encode
    · simp [hm, hc]
    · simp [hm, hc]
  · simp [hm]

theorem Launcher.readAndVerifyFooterCalls_fst (file : Bytes) :
    (Launcher.readAndVerifyFooterCalls file).1 = Launcher.readAndVerifyFooter file := by
  by_cases h : file.length < 116
  · rw [Launcher.readAndVerifyFooterCalls_small file h, Launcher.readAndVerifyFooter_small file h]
  · rw [Launcher.readAndVerifyFooterCalls_of_ge file (by omega)]

theorem Launcher.readSectionCalls_fst (f : Bytes) (offset size : Nat) :
    (Launcher.readSectionCalls f offset size).1 = Launcher.readSection f offset size := by
  unfold Launcher.readSectionCalls Launcher.readSection
  by_cases hsz : size > maxSensibleReadSize
  · rw [if_pos hsz, if_pos hsz]
  · rw [if_neg hsz, if_neg hsz]
    by_cases h0 : size = 0
    · rw [if_pos h0, if_pos h0]
    · rw [if_neg h0, if_neg h0]
      generalize ReadAt f size (toInt64 offset) = r
      rcases r with ⟨data, _ | e⟩
      · by_cases hl : data.length = size
        · simp [hl]
        · simp [hl]
      · cases e <;> simp

/-- C15: `readAndVerifyFooter` fails with `file too small` on every file
shorter than 116 bytes after `Stat` alone, without a read; on every file of at
least 116 bytes its only read is of 108 bytes at offset `file_size - 8 - 108`,
its outcome is determined by those 108 bytes, and the footer it returns is
their decoding. -/
theorem C15_footer_read_position (file : Bytes) :
    (Launcher.readAndVerifyFooterCalls file).1 = Launcher.readAndVerifyFooter file ∧
    (file.length < 116 →
      Launcher.readAndVerifyFooterCalls file = (.error .fileTooSmall, [.Stat]) ∧
      Err.fileTooSmall.message = "file too small") ∧
    (116 ≤ file.length →
      (Launcher.readAndVerifyFooterCalls file).2 =
        [.Stat, .Make 108, .ReadAt 108 ((file.length : Int) - 8 - 108)] ∧
      Launcher.readAndVerifyFooter file ≠ .error .fileTooSmall ∧
      (∀ ft, Launcher.readAndVerifyFooter file = .ok ft →
        ft = Footer.decode (slice file (file.length - 8 - 108) 108)) ∧
      (∀ file2 : Bytes, 116 ≤ file2.length →
        slice file2 (file2.length - 8 - 108) 108 = slice file (file.length - 8 - 108) 108 →
        Launcher.readAndVerifyFooter file2 = Launcher.readAndVerifyFooter file)) := by
  have hreg (g : Bytes) : footerRegion g = slice g (g.length - 8 - 108) 108 := by
    unfold footerRegion slice
    rw [show g.length - 8 - 108 = g.length - 116 by omega]
  refine ⟨Launcher.readAndVerifyFooterCalls_fst file, ?_, ?_⟩
  · intro h
    exact ⟨Launcher.readAndVerifyFooterCalls_small file h, rfl⟩
  · intro h
    refine ⟨?_, ?_, ?_, ?_⟩
    · rw [Launcher.readAndVerifyFooterCalls_of_ge file h]
    · rw [Launcher.readAndVerifyFooter_of_ge file h]
      split
      · simp
      · split <;> simp
    · intro ft hft
      rw [Launcher.readAndVerifyFooter_of_ge file h] at hft
      rw [← hreg]
      split at hft
      · simp at hft
      · split at hft
        · simpa using hft.symm
        · simp at hft
    · intro file2 h2 hs
      rw [Launcher.readAndVerifyFooter_of_ge file h, Launcher.readAndVerifyFooter_of_ge file2 h2,
        hreg, hreg, hs]

/-- C16: `readSection` fails with the section-too-large error, before any
allocation or read, for every size above 2 GiB (`2 ^ 31` bytes) whatever the
file and the offset; for every size up to and including `2 ^ 31` it does not
return that error. -/
theorem C16_section_size_limit (file : Bytes) (offset size : Nat) :
    maxSensibleReadSize = 2 ^ 31 ∧
    (Launcher.readSectionCalls file offset size).1 = Launcher.readSection file offset size ∧
    (2 ^ 31 < size →
      Launcher.readSectionCalls file offset size =
        (.error (.sectionTooLarge size maxSensibleReadSize), [])) ∧
    (size ≤ 2 ^ 31 → ∀ a b, Launcher.readSection file offset size ≠ .error (.sectionTooLarge a b)) := by
  have hmax : maxSensibleReadSize = 2 ^ 31 := by norm_num [maxSensibleReadSize]
  refine ⟨hmax, Launcher.readSectionCalls_fst file offset size, ?_, ?_⟩
  · intro h
    unfold Launcher.readSectionCalls
    rw [if_pos (by omega)]
  · intro h a b
    unfold Launcher.readSection
    rw [if_neg (by omega)]
    split
    · simp
    · split
      · simp
      · simp
      · split <;> simp

/-- Witness of C15 on the empty file and on a file of 116 zero bytes. -/
theorem C15_footer_read_position_witness :
    (([] : Bytes).length < 116 ∧
      Launcher.readAndVerifyFooterCalls [] = (.error .fileTooSmall, [.Stat])) ∧
    (116 ≤ (List.replicate 116 0 : Bytes).length ∧
      (Launcher.readAndVerifyFooterCalls (List.replicate 116 0)).2 =
        [.Stat, .Make 108,
          .ReadAt 108 (((List.replicate 116 0 : Bytes).length : Int) - 8 - 108)]) :=
  ⟨⟨by decide, ((C15_footer_read_position []).2.1 (by decide)).1⟩,
   ⟨by simp, ((C15_footer_read_position (List.replicate 116 0)).2.2 (by simp)).1⟩⟩

/-- Witness of C16 on the sizes `2 ^ 31 + 1` and `2 ^ 31`. -/
theorem C16_section_size_limit_witness :
    (2 ^ 31 < 2 ^ 31 + 1 ∧
      Launcher.readSectionCalls [] 0 (2 ^ 31 + 1) =
        (.error (.sectionTooLarge (2 ^ 31 + 1) maxSensibleReadSize), [])) ∧
    (2 ^ 31 ≤ 2 ^ 31 ∧
      ∀ a b, Launcher.readSection [] 0 (2 ^ 31) ≠ .error (.sectionTooLarge a b)) :=
  ⟨⟨by omega, (C16_section_size_limit [] 0 (2 ^ 31 + 1)).2.2.1 (by omega)⟩,
   ⟨le_refl _, (C16_section_size_limit [] 0 (2 ^ 31)).2.2.2 (le_refl _)⟩⟩


/-! ## The packager's command and its output (C11, C12) -/

/-- When opening and the seven section writes succeed, `BuildAppendedPSPF`
returns nil, whatever happens to the writes of the footer and of the marker. -/
theorem Packager.BuildAppendedPSPF_sections_written (dev : OutputDevice) (L U P M C S K : Bytes)
    (hopen : dev.openErr = none) (h0 : dev.writeFault 0 = none) (h1 : dev.writeFault 1 = none)
    (h2 : dev.writeFault 2 = none) (h3 : dev.writeFault 3 = none)
    (h4 : dev.writeFault 4 = none) (h5 : dev.writeFault 5 = none)
    (h6 : dev.writeFault 6 = none) :
    Packager.BuildAppendedPSPF dev L U P M C S K =
      (none, (osWrite (dev.writeFault 8)
        (osWrite (dev.writeFault 7) (L ++ U ++ P ++ M ++ C ++ S ++ K)
          (Packager.footerOfLengths L.length U.length P.length M.length C.length S.length
            K.length).seal.encode).1 MagicEOFString).1) := by
  have e1 : toUint64 (toInt64 (L.length : Int)) = L.length % 2 ^ 64 := by
    rw [toUint64_toInt64, toUint64_natCast]
  have e2 : toUint64 (toInt64 ((L.length : Int) + U.length)) = (L.length + U.length) % 2 ^ 64 := by
    rw [toUint64_toInt64, ← toUint64_natCast]; push_cast; rfl
  have e3 : toUint64 (toInt64 ((L.length : Int) + U.length + P.length)) =
      (L.length + U.length + P.length) % 2 ^ 64 := by
    rw [toUint64_toInt64, ← toUint64_natCast]; push_cast; rfl
  have e4 : toUint64 (toInt64 ((L.length : Int) + U.length + P.length + M.length)) =
      (L.length + U.length + P.length + M.length) % 2 ^ 64 := by
    rw [toUint64_toInt64, ← toUint64_natCast]; push_cast; rfl
  have e5 : toUint64 (toInt64 ((L.length : Int) + U.length + P.length + M.length + C.length)) =
      (L.length + U.length + P.length + M.length + C.length) % 2 ^ 64 := by
    rw [toUint64_toInt64, ← toUint64_natCast]; push_cast; rfl
  have e6 : toUint64 (toInt64 ((L.length : Int) + U.length + P.length + M.length + C.length
      + S.length)) = (L.length + U.length + P.length + M.length + C.length + S.length) % 2 ^ 64 := by
    rw [toUint64_toInt64, ← toUint64_natCast]; push_cast; rfl
  simp only [Packager.BuildAppendedPSPF, hopen, h0, h1, h2, h3, h4, h5, h6, osWrite,
    addInt64_zero, addInt64_congr, Footer.CalculateChecksum_eq, binaryWrite, e1, e2, e3, e4, e5,
    e6, toUint64_natCast, List.nil_append, List.append_assoc, Packager.footerOfLengths]

/-- What `buildCmd` does in the sample environment. -/
theorem Packager.buildCmd_sample (launcherData : Bytes) (dev : OutputDevice) :
    Packager.buildCmd Packager.sampleFlags (Packager.sampleEnv launcherData dev) =
      match Packager.BuildAppendedPSPF dev launcherData [85, 86] [80, 89] [77] [80] [1, 2, 3]
          [4, 5] with
      | (some _, out) => (1, some out)
      | (none, out) => (0, some out) := by
  simp [Packager.buildCmd, Packager.sampleFlags, Packager.sampleEnv]

/-- C11 as stated fails: with every required flag given and an empty file as
launcher binary, `buildCmd` finishes with status 0 and writes a file whose
footer validates and has `resolver_offset = 0`. -/
theorem C11_empty_launcher_counterexample :
    Packager.buildCmd Packager.sampleFlags (Packager.sampleEnv [] OutputDevice.healthy) =
      (0, some (Packager.builtFile [] [85, 86] [80, 89] [77] [80] [1, 2, 3] [4, 5])) ∧
    ∃ ft, Launcher.readAndVerifyFooter
        (Packager.builtFile [] [85, 86] [80, 89] [77] [80] [1, 2, 3] [4, 5]) = .ok ft ∧
      ft.UvBinaryOffset = 0 ∧ ¬ (ft.UvBinaryOffset > 0) := by
  refine ⟨?_, _, Launcher.readAndVerifyFooter_builtFile _ _ _ _ _ _ _, ?_, ?_⟩
  · rw [Packager.buildCmd_sample, Packager.builtFile, Packager.BuildAppendedPSPF_healthy]
  · rw [Footer.seal_UvBinaryOffset]; rfl
  · rw [Footer.seal_UvBinaryOffset]; decide

/-- Whatever `buildCmd` writes with status 0 on a healthy device is the file
`BuildAppendedPSPF` builds from the content of the launcher file and six
other sections. -/
theorem Packager.buildCmd_output (flags : Packager.BuildFlags) (env : Packager.BuildEnv)
    (out : Bytes) (hdev : env.dev = OutputDevice.healthy)
    (h : Packager.buildCmd flags env = (0, some out)) :
    ∃ L U P M C S K, env.readFile flags.buildLauncherBin = .ok L ∧
      out = Packager.builtFile L U P M C S K := by
  unfold Packager.buildCmd at h
  by_cases hf : flags.buildOutPath = [] ∨ flags.buildLauncherBin = [] ∨
      flags.buildPackageKeyPath = [] ∨ flags.buildPublicKeyPath = [] ∨
      flags.buildPythonInstallDir = []
  · rw [if_pos hf] at h; simp at h
  rw [if_neg hf] at h
  by_cases hk : env.statNotExist flags.buildPackageKeyPath = true
  · rw [if_pos hk] at h; simp at h
  rw [if_neg hk] at h
  by_cases hp : env.statNotExist flags.buildPublicKeyPath = true
  · rw [if_pos hp] at h; simp at h
  rw [if_neg hp] at h
  cases hL : env.readFile flags.buildLauncherBin with
  | error e => rw [hL] at h; simp at h
  | ok L =>
  rw [hL] at h
  simp only at h
  cases hP : env.createSourceArchive flags.buildPythonInstallDir with
  | error e => rw [hP] at h; simp at h
  | ok P =>
  rw [hP] at h
  simp only at h
  generalize (if flags.buildUvPath = [] then env.lookPathUv else flags.buildUvPath) = uvPath at h
  cases hU : env.readFile uvPath with
  | error e => rw [hU] at h; simp at h
  | ok U =>
  rw [hU] at h
  simp only at h
  cases hW : env.buildWheelsFromDependencies with
  | error e => rw [hW] at h; simp at h
  | ok W =>
  rw [hW] at h
  simp only at h
  cases hT : env.mkdirTemp with
  | error e => rw [hT] at h; simp at h
  | ok T =>
  rw [hT] at h
  simp only at h
  generalize (if flags.buildConfigFile ≠ [] then
      match env.readFile flags.buildConfigFile with
      | .error _ => []
      | .ok b => b
    else "\x7b\"entry_point\": \"pyvider.provider_core:setup_provider\"\x7d".toList.map
      Char.toNat) = cfg at h
  cases hA : env.preparePayloadArtifacts T cfg (hexEncode (env.sha256 U)) with
  | error e => rw [hA] at h; simp at h
  | ok CM =>
  obtain ⟨C, M⟩ := CM
  rw [hA] at h
  simp only at h
  cases hS : env.signPayload (Packager.contentToSign L U P M C) with
  | error e => rw [hS] at h; simp at h
  | ok S =>
  rw [hS] at h
  simp only at h
  cases hK : env.readFile flags.buildPublicKeyPath with
  | error e => rw [hK] at h; simp at h
  | ok K =>
  rw [hK] at h
  simp only at h
  rw [hdev, Packager.BuildAppendedPSPF_healthy] at h
  simp only [Prod.mk.injEq, Option.some.injEq, true_and] at h
  refine ⟨L, U, P, M, C, S, K, rfl, ?_⟩
  rw [Packager.builtFile_eq]
  exact h.symm

/-- C11, amended: every file `buildCmd` writes (status 0, all writes done) has
`resolver_offset` equal to the length of the launcher binary it read, so
`resolver_offset > 0` exactly when that binary is not empty; the packager
does not reject an empty launcher binary. -/
theorem C11_resolver_offset_is_launcher_length (flags : Packager.BuildFlags)
    (env : Packager.BuildEnv) (launcherData out : Bytes)
    (hdev : env.dev = OutputDevice.healthy)
    (hread : env.readFile flags.buildLauncherBin = .ok launcherData)
    (hlen : launcherData.length < 2 ^ 63)
    (h : Packager.buildCmd flags env = (0, some out)) :
    ∃ ft, Launcher.readAndVerifyFooter out = .ok ft ∧
      ft.UvBinaryOffset = launcherData.length ∧
      (ft.UvBinaryOffset > 0 ↔ launcherData ≠ []) := by
  obtain ⟨L, U, P, M, C, S, K, hL, hout⟩ := Packager.buildCmd_output flags env out hdev h
  rw [hread] at hL
  simp only [Except.ok.injEq] at hL
  subst hL hout
  have hoff : (Packager.footerOfLengths launcherData.length U.length P.length M.length C.length
      S.length K.length).seal.UvBinaryOffset = launcherData.length := by
    rw [Footer.seal_UvBinaryOffset]
    simp only [Packager.footerOfLengths]
    omega
  refine ⟨_, Launcher.readAndVerifyFooter_builtFile _ _ _ _ _ _ _, hoff, ?_⟩
  rw [hoff]
  cases launcherData <;> simp

/-- Witness of the amended C11 with the launcher `LAUNCH`. -/
theorem C11_resolver_offset_is_launcher_length_witness :
    ∃ ft, Launcher.readAndVerifyFooter
        (Packager.builtFile [76, 65, 85, 78, 67, 72] [85, 86] [80, 89] [77] [80] [1, 2, 3]
          [4, 5]) = .ok ft ∧
      ft.UvBinaryOffset = ([76, 65, 85, 78, 67, 72] : Bytes).length ∧
      (ft.UvBinaryOffset > 0 ↔ ([76, 65, 85, 78, 67, 72] : Bytes) ≠ []) :=
  C11_resolver_offset_is_launcher_length Packager.sampleFlags
    (Packager.sampleEnv [76, 65, 85, 78, 67, 72] OutputDevice.healthy)
    [76, 65, 85, 78, 67, 72]
    (Packager.builtFile [76, 65, 85, 78, 67, 72] [85, 86] [80, 89] [77] [80] [1, 2, 3] [4, 5])
    rfl rfl (by decide)
    (by rw [Packager.buildCmd_sample, Packager.builtFile, Packager.BuildAppendedPSPF_healthy])

/-- C12, the code at the failing input: on a device where the seven section
writes succeed and the write of the footer fails, `BuildAppendedPSPF` still
returns nil (and `buildCmd` status 0); for the inputs `LAUNCH`, `UV`, `PY`,
`M`, `P`, a three-byte signature and a two-byte key the file it leaves has
25 bytes (the sections and the marker), not `17 + 108 + 8 = 133`. -/
theorem C12_footer_write_failure_goes_unreported :
    (Packager.BuildAppendedPSPF OutputDevice.footerWriteFails [76, 65, 85, 78, 67, 72]
      [85, 86] [80, 89] [77] [80] [1, 2, 3] [4, 5]).1 = none ∧
    (Packager.BuildAppendedPSPF OutputDevice.footerWriteFails [76, 65, 85, 78, 67, 72]
      [85, 86] [80, 89] [77] [80] [1, 2, 3] [4, 5]).2 =
      [76, 65, 85, 78, 67, 72, 85, 86, 80, 89, 77, 80, 1, 2, 3, 4, 5] ++ MagicEOFString ∧
    (Packager.BuildAppendedPSPF OutputDevice.footerWriteFails [76, 65, 85, 78, 67, 72]
      [85, 86] [80, 89] [77] [80] [1, 2, 3] [4, 5]).2.length = 25 ∧
    (25 : Nat) ≠ 6 + 2 + 2 + 1 + 1 + 3 + 2 + 108 + 8 ∧
    (Packager.buildCmd Packager.sampleFlags
      (Packager.sampleEnv [76, 65, 85, 78, 67, 72] OutputDevice.footerWriteFails)).1 = 0 := by
  have h := Packager.BuildAppendedPSPF_sections_written OutputDevice.footerWriteFails
    [76, 65, 85, 78, 67, 72] [85, 86] [80, 89] [77] [80] [1, 2, 3] [4, 5] rfl rfl rfl rfl rfl
    rfl rfl rfl
  have h7 : OutputDevice.footerWriteFails.writeFault 7 = some 0 := rfl
  have h8 : OutputDevice.footerWriteFails.writeFault 8 = none := rfl
  rw [h7, h8] at h
  simp only [osWrite, List.take_zero, List.append_nil] at h
  refine ⟨by rw [h], by rw [h]; rfl, by rw [h]; rfl, by decide, ?_⟩
  rw [Packager.buildCmd_sample, h]


/-! ## The launcher's default flow (C17 to C20) -/

theorem hexEncode_length (b : Bytes) : (hexEncode b).length = 2 * b.length := by
  induction b with
  | nil => rfl
  | cons x xs ih => simp only [hexEncode, List.length_cons, ih]; omega

theorem getD_hex_mem (n : Nat) :
    "0123456789abcdef".toList.getD n '0' ∈ "0123456789abcdef".toList := by
  by_cases h : n < 16
  · interval_cases n <;> decide
  · have : "0123456789abcdef".toList.getD n '0' = '0' := by
      apply List.getD_eq_default
      have : "0123456789abcdef".toList.length = 16 := by decide
      omega
    rw [this]
    decide

theorem hexEncode_mem (b : Bytes) :
    ∀ c ∈ hexEncode b, c ∈ "0123456789abcdef".toList := by
  induction b with
  | nil => intro c hc; simp [hexEncode] at hc
  | cons x xs ih =>
    intro c hc
    simp only [hexEncode, List.mem_cons] at hc
    rcases hc with rfl | rfl | hc
    · exact getD_hex_mem _
    · exact getD_hex_mem _
    · exact ih c hc

theorem Launcher.unTarEvents_staging (env : LauncherEnv) (archive : Bytes) (dest : GoString) :
    (Launcher.unTarEvents env archive dest).all Event.isStaging = true := by
  simp [Launcher.unTarEvents, Event.isStaging]

/-- The staging part of `setupEnvironment` only clears the work directory,
extracts, writes the resolver and runs the resolver. -/
theorem Launcher.stage_events (env : LauncherEnv) (wd : GoString) (s : Sections) :
    (Launcher.stage env wd s).2.all Event.isStaging = true := by
  unfold Launcher.stage
  simp only []
  repeat' split
  all_goals
    simp [List.all_append, Launcher.unTarEvents_staging, Event.isStaging]


/-- What `executePython` adds to a run: nothing and status 1 when
`config.json` cannot be read, otherwise one run of the interpreter on the
bootstrap text built from the parsed entry point. It leaves `.complete` as it
was. -/
theorem Launcher.executePython_spec (env : LauncherEnv) (wd : GoString) (evs : List Event)
    (c : Option GoString) :
    (Launcher.executePython env wd evs c).complete = c ∧
    ((∃ e, env.readFile (Launcher.configPath wd) = .error e ∧
        (Launcher.executePython env wd evs c).events = evs ∧
        (Launcher.executePython env wd evs c).exitCode = 1) ∨
     (∃ cfgBytes, env.readFile (Launcher.configPath wd) = .ok cfgBytes ∧
        (Launcher.executePython env wd evs c).events = evs ++
          [.interpreterRun (Launcher.venvPython env wd)
            ["-c".toList, Launcher.pyCmdString (env.jsonUnmarshal cfgBytes).1.EntryPoint]
            (Launcher.pythonCmdEnv env wd)])) := by
  unfold Launcher.executePython Launcher.configPath
  cases hr : env.readFile (filepath.JoinList [wd, "metadata_extracted".toList,
      "config.json".toList]) with
  | error e => exact ⟨rfl, Or.inl ⟨e, rfl, rfl, rfl⟩⟩
  | ok cfgBytes =>
    simp only []
    constructor
    · split <;> rfl
    · refine Or.inr ⟨cfgBytes, rfl, ?_⟩
      split <;> rfl

/-- What `setupEnvironment` does: it is counted once, it neither runs the
interpreter nor writes `.complete`, it leaves `.complete` as it was or
removed, and when it returns nil it has validated the footer, then verified
the signature, then staged. -/
theorem Launcher.setupEnvironment_spec (env : LauncherEnv) (exe wd : GoString)
    (c : Option GoString) :
    ((Launcher.setupEnvironment env exe wd c).2.2 = c ∨
      (Launcher.setupEnvironment env exe wd c).2.2 = none) ∧
    (∃ rest, (Launcher.setupEnvironment env exe wd c).2.1 = .setupEnvironment :: rest ∧
      rest.all (fun e => e.isStaging || e == .footerValidated || e == .signatureVerified)
        = true) ∧
    ((Launcher.setupEnvironment env exe wd c).1 = none →
      ∃ st, (Launcher.setupEnvironment env exe wd c).2.1 =
          [.setupEnvironment, .footerValidated, .signatureVerified] ++ st ∧
        st.all Event.isStaging = true) := by
  unfold Launcher.setupEnvironment
  cases ho : env.openFile exe with
  | error e => exact ⟨Or.inl rfl, ⟨[], rfl, rfl⟩, fun h => by simp at h⟩
  | ok file =>
    simp only []
    cases hs : Launcher.readSections file with
    | error e =>
      refine ⟨Or.inl rfl, ?_, fun h => by simp at h⟩
      simp only []
      split
      · exact ⟨[.footerValidated], rfl, by decide⟩
      · exact ⟨[], rfl, rfl⟩
    | ok s =>
      simp only []
      cases hv : env.verifySignaturePSS (Launcher.contentToVerify s) s.signatureBytes
          s.publicKeyPEMBytes with
      | some e =>
        exact ⟨Or.inl rfl, ⟨[.footerValidated], rfl, by decide⟩, fun h => by simp at h⟩
      | none =>
        simp only []
        have hst := Launcher.stage_events env wd s
        refine ⟨?_, ?_, fun _ => ⟨(Launcher.stage env wd s).2, rfl, hst⟩⟩
        · by_cases hr : env.removeAllRemoves = true
          · right; simp [hr]
          · left; simp [hr]
        · refine ⟨[.footerValidated, .signatureVerified] ++ (Launcher.stage env wd s).2,
            by simp, ?_⟩
          rw [List.all_append]
          simp only [Bool.and_eq_true]
          refine ⟨by decide, ?_⟩
          rw [List.all_eq_true] at hst ⊢
          intro x hx
          simp [hst x hx]

theorem Launcher.calculateSelfHash_eq (env : LauncherEnv) (exePath : GoString) (content : Bytes)
    (hopen : env.openFile exePath = .ok content) (hcopy : env.copyFault exePath = none) :
    Launcher.calculateSelfHash env exePath = .ok (hexEncode (env.sha256 content)) := by
  simp only [Launcher.calculateSelfHash, hopen, hcopy]

/-- The flow of `runProvider` once the executable, the cache directory and
the hash of the executable are known. -/
theorem Launcher.runProvider_eq (env : LauncherEnv) (c : Option GoString)
    (exePath userCacheDir : GoString) (content : Bytes)
    (hexe : env.executable = .ok exePath) (hdir : env.userCacheDir = .ok userCacheDir)
    (hmk : env.mkdirAll (Launcher.workDir userCacheDir exePath) = none)
    (hopen : env.openFile exePath = .ok content) (hcopy : env.copyFault exePath = none) :
    Launcher.runProvider env c =
      if c = some (hexEncode (env.sha256 content)) then
        Launcher.executePython env (Launcher.workDir userCacheDir exePath) [] c
      else
        match Launcher.setupEnvironment env exePath (Launcher.workDir userCacheDir exePath) c with
        | (some _, events, complete) => { exitCode := 1, events := events, complete := complete }
        | (none, events, complete) =>
          match env.writeFile
              (filepath.Join (Launcher.workDir userCacheDir exePath) ".complete".toList) with
          | .notOpened _ => { exitCode := 1, events := events, complete := complete }
          | .short n _ =>
            { exitCode := 1, events := events,
              complete := some ((hexEncode (env.sha256 content)).take n) }
          | .done =>
            Launcher.executePython env (Launcher.workDir userCacheDir exePath)
              (events ++ [Event.completeWritten (hexEncode (env.sha256 content))])
              (some (hexEncode (env.sha256 content))) := by
  unfold Launcher.runProvider
  unfold Launcher.workDir at hmk ⊢
  simp only [hexe, hdir, hmk, Launcher.calculateSelfHash_eq env exePath content hopen hcopy]

/-- When the executable, the cache directory or the hash is not available,
`runProvider` exits with status 1 and has done nothing. -/
theorem Launcher.runProvider_cases (env : LauncherEnv) (c : Option GoString) :
    ((Launcher.runProvider env c).events = [] ∧ (Launcher.runProvider env c).exitCode = 1 ∧
      (Launcher.runProvider env c).complete = c) ∨
    (∃ exePath userCacheDir content, env.executable = .ok exePath ∧
      env.userCacheDir = .ok userCacheDir ∧
      env.mkdirAll (Launcher.workDir userCacheDir exePath) = none ∧
      env.openFile exePath = .ok content ∧ env.copyFault exePath = none) := by
  cases hexe : env.executable with
  | error e =>
    left
    unfold Launcher.runProvider
    simp only [hexe, and_self]
  | ok exePath =>
  cases hdir : env.userCacheDir with
  | error e =>
    left
    unfold Launcher.runProvider
    simp only [hexe, hdir, and_self]
  | ok userCacheDir =>
  cases hmk : env.mkdirAll (Launcher.workDir userCacheDir exePath) with
  | some e =>
    left
    unfold Launcher.workDir at hmk
    unfold Launcher.runProvider
    simp only [hexe, hdir, hmk, and_self]
  | none =>
  cases hopen : env.openFile exePath with
  | error e =>
    left
    unfold Launcher.workDir at hmk
    unfold Launcher.runProvider
    simp only [hexe, hdir, hmk, Launcher.calculateSelfHash, hopen, and_self]
  | ok content =>
  cases hcopy : env.copyFault exePath with
  | some e =>
    left
    unfold Launcher.workDir at hmk
    unfold Launcher.runProvider
    simp only [hexe, hdir, hmk, Launcher.calculateSelfHash, hopen, hcopy, and_self]
  | none => exact Or.inr ⟨exePath, userCacheDir, content, rfl, rfl, hmk, hopen, hcopy⟩


theorem append_cons_ne_of_all (p : Event → Bool) (l pre post : List Event) (x : Event)
    (hl : l.all (fun e => !p e) = true) (hx : p x = true) : pre ++ x :: post ≠ l := by
  intro h
  have hmem : x ∈ l := by rw [← h]; simp
  rw [List.all_eq_true] at hl
  have := hl x hmem
  simp [hx] at this

theorem append_cons_eq_append_singleton (p : Event → Bool) (l pre post : List Event)
    (x y : Event) (hl : l.all (fun e => !p e) = true) (hx : p x = true)
    (h : pre ++ x :: post = l ++ [y]) : pre = l ∧ post = [] ∧ x = y := by
  induction l generalizing pre with
  | nil =>
    cases pre with
    | nil =>
      simp only [List.nil_append, List.cons.injEq] at h
      exact ⟨rfl, h.2, h.1⟩
    | cons a pre2 => simp at h
  | cons a l2 ih =>
    cases pre with
    | nil =>
      simp only [List.nil_append, List.cons_append, List.cons.injEq] at h
      simp only [List.all_cons, Bool.and_eq_true] at hl
      rw [← h.1] at hl
      simp [hx] at hl
    | cons b pre2 =>
      simp only [List.cons_append, List.cons.injEq] at h
      simp only [List.all_cons, Bool.and_eq_true] at hl
      obtain ⟨h1, h2, h3⟩ := ih pre2 hl.2 h.2
      exact ⟨by rw [h.1, h1], h2, h3⟩

/-- The events of `setupEnvironment` hold no run of the interpreter. -/
theorem Launcher.setupEnvironment_noRun (env : LauncherEnv) (exe wd : GoString)
    (c : Option GoString) :
    (Launcher.setupEnvironment env exe wd c).2.1.all (fun e => !e.isInterpreterRun) = true ∧
    (Launcher.setupEnvironment env exe wd c).2.1.all (fun e => !e.isCompleteWritten) = true ∧
    (Launcher.setupEnvironment env exe wd c).2.1.count .setupEnvironment = 1 := by
  obtain ⟨_, ⟨rest, hr, hall⟩, _⟩ := Launcher.setupEnvironment_spec env exe wd c
  rw [hr]
  rw [List.all_eq_true] at hall
  have key : ∀ x ∈ rest, x.isInterpreterRun = false ∧ x.isCompleteWritten = false ∧
      x ≠ Event.setupEnvironment := by
    intro x hx
    have := hall x hx
    cases x <;> simp [Event.isStaging, Event.isInterpreterRun, Event.isCompleteWritten] at this ⊢
  refine ⟨?_, ?_, ?_⟩
  · rw [List.all_eq_true]
    intro x hx
    rcases List.mem_cons.mp hx with rfl | hx
    · rfl
    · simp [(key x hx).1]
  · rw [List.all_eq_true]
    intro x hx
    rcases List.mem_cons.mp hx with rfl | hx
    · rfl
    · simp [(key x hx).2.1]
  · rw [List.count_cons_self, List.count_eq_zero.mpr]
    intro hmem
    exact (key _ hmem).2.2 rfl

theorem all_staging_noRun (st : List Event) (h : st.all Event.isStaging = true) :
    st.all (fun e => !e.isInterpreterRun) = true := by
  rw [List.all_eq_true] at h ⊢
  intro x hx
  have := h x hx
  cases x <;> simp [Event.isStaging, Event.isInterpreterRun] at this ⊢

/-- C17 as stated fails: with the `.complete` file equal to the hash of the
executable (`abcd` in the sample environment), `runProvider` runs the
interpreter and nothing else: the footer is not read and the signature is not
verified in that run. -/
theorem C17_cache_hit_skips_verification_counterexample :
    (Launcher.runProvider
      (Launcher.sampleEnv
        (Packager.builtFile [76, 65, 85, 78, 67, 72] [85, 86] [80, 89] [77] [80] [1, 2, 3] [4, 5])
        (.ok []) ({ EntryPoint := "m:f".toList }, none))
      (some "abcd".toList)).events =
      [.interpreterRun
        (Launcher.venvPython (Launcher.sampleEnv
          (Packager.builtFile [76, 65, 85, 78, 67, 72] [85, 86] [80, 89] [77] [80] [1, 2, 3]
            [4, 5]) (.ok []) ({ EntryPoint := "m:f".toList }, none))
          (Launcher.workDir "/home/u/.cache".toList "/opt/provider".toList))
        ["-c".toList, Launcher.pyCmdString "m:f".toList]
        (Launcher.pythonCmdEnv (Launcher.sampleEnv
          (Packager.builtFile [76, 65, 85, 78, 67, 72] [85, 86] [80, 89] [77] [80] [1, 2, 3]
            [4, 5]) (.ok []) ({ EntryPoint := "m:f".toList }, none))
          (Launcher.workDir "/home/u/.cache".toList "/opt/provider".toList))] ∧
    Event.footerValidated ∉ (Launcher.runProvider
      (Launcher.sampleEnv
        (Packager.builtFile [76, 65, 85, 78, 67, 72] [85, 86] [80, 89] [77] [80] [1, 2, 3] [4, 5])
        (.ok []) ({ EntryPoint := "m:f".toList }, none))
      (some "abcd".toList)).events ∧
    Event.signatureVerified ∉ (Launcher.runProvider
      (Launcher.sampleEnv
        (Packager.builtFile [76, 65, 85, 78, 67, 72] [85, 86] [80, 89] [77] [80] [1, 2, 3] [4, 5])
        (.ok []) ({ EntryPoint := "m:f".toList }, none))
      (some "abcd".toList)).events := by
  have hhash : hexEncode [0xab, 0xcd] = "abcd".toList := by decide
  have h := Launcher.runProvider_eq
    (Launcher.sampleEnv
      (Packager.builtFile [76, 65, 85, 78, 67, 72] [85, 86] [80, 89] [77] [80] [1, 2, 3] [4, 5])
      (.ok []) ({ EntryPoint := "m:f".toList }, none))
    (some "abcd".toList) "/opt/provider".toList "/home/u/.cache".toList
    (Packager.builtFile [76, 65, 85, 78, 67, 72] [85, 86] [80, 89] [77] [80] [1, 2, 3] [4, 5])
    rfl rfl rfl rfl rfl
  have hsha : (Launcher.sampleEnv
      (Packager.builtFile [76, 65, 85, 78, 67, 72] [85, 86] [80, 89] [77] [80] [1, 2, 3] [4, 5])
      (.ok []) ({ EntryPoint := "m:f".toList }, none)).sha256
      (Packager.builtFile [76, 65, 85, 78, 67, 72] [85, 86] [80, 89] [77] [80] [1, 2, 3] [4, 5])
      = [0xab, 0xcd] := rfl
  rw [hsha, hhash, if_pos rfl] at h
  refine ⟨?_, ?_, ?_⟩
  · rw [h]
    rfl
  · rw [h]
    intro hmem
    simp [Launcher.executePython, Launcher.sampleEnv] at hmem
  · rw [h]
    intro hmem
    simp [Launcher.executePython, Launcher.sampleEnv] at hmem

/-- C17, amended: in every run of `runProvider` that runs the interpreter,
either the `.complete` file was not the hash of the executable, and then
`setupEnvironment` ran before in that same run, validated the footer, then
verified the signature, staged, and `.complete` was written; or the
`.complete` file was the hash of the executable, and then the interpreter is
run without reading the footer or verifying the signature in that run. -/
theorem C17_dispatch_after_setup_or_cache_hit (env : LauncherEnv) (c : Option GoString)
    (pre post : List Event) (path : GoString) (args cmdEnv : List GoString)
    (h : (Launcher.runProvider env c).events = pre ++ .interpreterRun path args cmdEnv :: post) :
    ∃ exePath content, env.executable = .ok exePath ∧ env.openFile exePath = .ok content ∧
      post = [] ∧
      ((c = some (hexEncode (env.sha256 content)) ∧ pre = []) ∨
       (c ≠ some (hexEncode (env.sha256 content)) ∧
        ∃ st, st.all Event.isStaging = true ∧
          pre = [.setupEnvironment, .footerValidated, .signatureVerified] ++ st ++
            [.completeWritten (hexEncode (env.sha256 content))])) := by
  have hp : (Event.interpreterRun path args cmdEnv).isInterpreterRun = true := rfl
  rcases Launcher.runProvider_cases env c with ⟨h0, _, _⟩ | ⟨exePath, ucd, content, hexe, hdir,
      hmk, hopen, hcopy⟩
  · rw [h0] at h
    simp at h
  refine ⟨exePath, content, hexe, hopen, ?_⟩
  rw [Launcher.runProvider_eq env c exePath ucd content hexe hdir hmk hopen hcopy] at h
  by_cases hit : c = some (hexEncode (env.sha256 content))
  · rw [if_pos hit] at h
    obtain ⟨_, ⟨e, _, hev, _⟩ | ⟨cfg, _, hev⟩⟩ :=
      Launcher.executePython_spec env (Launcher.workDir ucd exePath) [] c
    · rw [hev] at h
      simp at h
    · rw [hev] at h
      obtain ⟨h1, h2, _⟩ := append_cons_eq_append_singleton Event.isInterpreterRun [] pre post _ _
        rfl hp h.symm
      exact ⟨h2, Or.inl ⟨hit, h1⟩⟩
  · rw [if_neg hit] at h
    obtain ⟨hnr, _, _⟩ := Launcher.setupEnvironment_noRun env exePath
      (Launcher.workDir ucd exePath) c
    obtain ⟨_, _, hok⟩ := Launcher.setupEnvironment_spec env exePath
      (Launcher.workDir ucd exePath) c
    rcases hs : Launcher.setupEnvironment env exePath (Launcher.workDir ucd exePath) c with
      ⟨err, evs, c2⟩
    rw [hs] at h hnr hok
    simp only at hnr hok
    cases err with
    | some e =>
      simp only at h
      exact absurd h.symm (append_cons_ne_of_all Event.isInterpreterRun evs pre post _ hnr hp)
    | none =>
      simp only at h
      obtain ⟨st, hst, hall⟩ := hok rfl
      cases hw : env.writeFile (filepath.Join (Launcher.workDir ucd exePath)
          ".complete".toList) with
      | notOpened e =>
        rw [hw] at h
        exact absurd h.symm (append_cons_ne_of_all Event.isInterpreterRun evs pre post _ hnr hp)
      | short n e =>
        rw [hw] at h
        exact absurd h.symm (append_cons_ne_of_all Event.isInterpreterRun evs pre post _ hnr hp)
      | done =>
        rw [hw] at h
        simp only at h
        have hnr2 : (evs ++ [Event.completeWritten (hexEncode (env.sha256 content))]).all
            (fun e => !e.isInterpreterRun) = true := by
          rw [List.all_append, hnr]
          rfl
        obtain ⟨_, ⟨e, _, hev, _⟩ | ⟨cfg, _, hev⟩⟩ :=
          Launcher.executePython_spec env (Launcher.workDir ucd exePath)
            (evs ++ [Event.completeWritten (hexEncode (env.sha256 content))])
            (some (hexEncode (env.sha256 content)))
        · rw [hev] at h
          exact absurd h.symm (append_cons_ne_of_all Event.isInterpreterRun _ pre post _ hnr2 hp)
        · rw [hev] at h
          obtain ⟨h1, h2, _⟩ := append_cons_eq_append_singleton Event.isInterpreterRun _ pre post
            _ _ hnr2 hp h.symm
          refine ⟨h2, Or.inr ⟨hit, st, hall, ?_⟩⟩
          rw [h1, hst]

/-- In the sample environment staging returns nil. -/
theorem Launcher.stage_sample (exe : Bytes) (cfg : Except Err Bytes)
    (parsed : ConfigFromMetadata × Option Err) (wd : GoString) (s : Sections) :
    (Launcher.stage (Launcher.sampleEnv exe cfg parsed) wd s).1 = none := by
  simp [Launcher.stage, Launcher.sampleEnv, unTar, unTarLoop, Launcher.wheelsToInstall]

/-- In the sample environment `setupEnvironment` returns nil when the
sections of the executable can be read. -/
theorem Launcher.setupEnvironment_sample (exe : Bytes) (cfg : Except Err Bytes)
    (parsed : ConfigFromMetadata × Option Err) (p wd : GoString) (c : Option GoString)
    (s : Sections) (hs : Launcher.readSections exe = .ok s) :
    (Launcher.setupEnvironment (Launcher.sampleEnv exe cfg parsed) p wd c).1 = none := by
  have hst := Launcher.stage_sample exe cfg parsed wd s
  unfold Launcher.setupEnvironment
  have ho : (Launcher.sampleEnv exe cfg parsed).openFile p = .ok exe := rfl
  have hv : (Launcher.sampleEnv exe cfg parsed).verifySignaturePSS (Launcher.contentToVerify s)
      s.signatureBytes s.publicKeyPEMBytes = none := rfl
  simp only [ho, hs, hv]
  exact hst


/-- Witness of the amended C17 on a run of the sample environment that finds
`.complete` equal to the hash `abcd` of the executable. -/
theorem C17_dispatch_after_setup_or_cache_hit_witness :
    (Launcher.runProvider Launcher.sampleRun (some "abcd".toList)).events =
      [] ++ Event.interpreterRun
        (Launcher.venvPython Launcher.sampleRun
          (Launcher.workDir "/home/u/.cache".toList "/opt/provider".toList))
        ["-c".toList, Launcher.pyCmdString "m:f".toList]
        (Launcher.pythonCmdEnv Launcher.sampleRun
          (Launcher.workDir "/home/u/.cache".toList "/opt/provider".toList)) :: [] ∧
    ∃ exePath content, Launcher.sampleRun.executable = .ok exePath ∧
      Launcher.sampleRun.openFile exePath = .ok content ∧
      ([] : List Event) = [] ∧
      ((some "abcd".toList = some (hexEncode (Launcher.sampleRun.sha256 content)) ∧
          ([] : List Event) = []) ∨
       (some "abcd".toList ≠ some (hexEncode (Launcher.sampleRun.sha256 content)) ∧
        ∃ st, st.all Event.isStaging = true ∧
          ([] : List Event) = [.setupEnvironment, .footerValidated, .signatureVerified] ++ st ++
            [.completeWritten (hexEncode (Launcher.sampleRun.sha256 content))])) := by
  have hhash : hexEncode [0xab, 0xcd] = "abcd".toList := by decide
  have h := Launcher.runProvider_eq Launcher.sampleRun (some "abcd".toList)
    "/opt/provider".toList "/home/u/.cache".toList Launcher.sampleExe rfl rfl rfl rfl rfl
  have hsha : Launcher.sampleRun.sha256 Launcher.sampleExe = [0xab, 0xcd] := rfl
  rw [hsha, hhash, if_pos rfl] at h
  have hev : (Launcher.runProvider Launcher.sampleRun (some "abcd".toList)).events =
      [] ++ Event.interpreterRun
        (Launcher.venvPython Launcher.sampleRun
          (Launcher.workDir "/home/u/.cache".toList "/opt/provider".toList))
        ["-c".toList, Launcher.pyCmdString "m:f".toList]
        (Launcher.pythonCmdEnv Launcher.sampleRun
          (Launcher.workDir "/home/u/.cache".toList "/opt/provider".toList)) :: [] := by
    rw [h]
    rfl
  exact ⟨hev, C17_dispatch_after_setup_or_cache_hit Launcher.sampleRun (some "abcd".toList)
    [] [] _ _ _ hev⟩

/-- C18: take a launcher whose executable and cache directory are available,
a first run that does not find the hash of the executable in `.complete`,
whose `setupEnvironment` returns nil and whose write of `.complete` succeeds,
and a second run that starts from the `.complete` the first one left. Then the
first run runs `setupEnvironment` once and writes `.complete`, the second run
does not run it, and after each of the two runs `.complete` holds the hex
encoding of the SHA-256 of the executable: two characters out of
`0123456789abcdef` per byte, and nothing after them. -/
theorem C18_setup_once_in_two_runs (env : LauncherEnv) (s0 : Option GoString)
    (exePath userCacheDir : GoString) (content : Bytes)
    (hexe : env.executable = .ok exePath) (hdir : env.userCacheDir = .ok userCacheDir)
    (hmk : env.mkdirAll (Launcher.workDir userCacheDir exePath) = none)
    (hopen : env.openFile exePath = .ok content) (hcopy : env.copyFault exePath = none)
    (hmiss : s0 ≠ some (hexEncode (env.sha256 content)))
    (hsetup : (Launcher.setupEnvironment env exePath
      (Launcher.workDir userCacheDir exePath) s0).1 = none)
    (hwrite : env.writeFile
      (filepath.Join (Launcher.workDir userCacheDir exePath) ".complete".toList) = .done) :
    (Launcher.runProvider env s0).complete = some (hexEncode (env.sha256 content)) ∧
    (Launcher.runProvider env (Launcher.runProvider env s0).complete).complete =
      some (hexEncode (env.sha256 content)) ∧
    (Launcher.runProvider env s0).events.count .setupEnvironment = 1 ∧
    Event.completeWritten (hexEncode (env.sha256 content)) ∈
      (Launcher.runProvider env s0).events ∧
    (Launcher.runProvider env (Launcher.runProvider env s0).complete).events.count
      .setupEnvironment = 0 ∧
    (hexEncode (env.sha256 content)).length = 2 * (env.sha256 content).length ∧
    (∀ ch ∈ hexEncode (env.sha256 content), ch ∈ "0123456789abcdef".toList) ∧
    '\n' ∉ hexEncode (env.sha256 content) := by
  have h1 := Launcher.runProvider_eq env s0 exePath userCacheDir content hexe hdir hmk hopen hcopy
  rw [if_neg hmiss] at h1
  obtain ⟨_, _, hcount⟩ := Launcher.setupEnvironment_noRun env exePath
    (Launcher.workDir userCacheDir exePath) s0
  rcases hs : Launcher.setupEnvironment env exePath (Launcher.workDir userCacheDir exePath) s0
    with ⟨err, evs, c2⟩
  rw [hs] at h1 hsetup hcount
  simp only at hsetup hcount
  subst hsetup
  simp only [hwrite] at h1
  obtain ⟨hc1, hev1⟩ := Launcher.executePython_spec env (Launcher.workDir userCacheDir exePath)
    (evs ++ [Event.completeWritten (hexEncode (env.sha256 content))])
    (some (hexEncode (env.sha256 content)))
  rw [← h1] at hc1 hev1
  have h2 := Launcher.runProvider_eq env (some (hexEncode (env.sha256 content))) exePath
    userCacheDir content hexe hdir hmk hopen hcopy
  rw [if_pos rfl] at h2
  obtain ⟨hc2, hev2⟩ := Launcher.executePython_spec env (Launcher.workDir userCacheDir exePath)
    [] (some (hexEncode (env.sha256 content)))
  rw [← h2] at hc2 hev2
  rw [hc1]
  refine ⟨rfl, hc2, ?_, ?_, ?_, hexEncode_length _, hexEncode_mem _, ?_⟩
  · rcases hev1 with ⟨_, _, hev, _⟩ | ⟨_, _, hev⟩
    · rw [hev, List.count_append, hcount]
      rfl
    · rw [hev, List.count_append, List.count_append, hcount]
      rfl
  · rcases hev1 with ⟨_, _, hev, _⟩ | ⟨_, _, hev⟩
    · rw [hev]
      simp
    · rw [hev]
      simp
  · rcases hev2 with ⟨_, _, hev, _⟩ | ⟨_, _, hev⟩
    · rw [hev]
      rfl
    · rw [hev]
      rfl
  · intro hmem
    have := hexEncode_mem _ _ hmem
    revert this
    decide

/-- Witness of C18 in the sample environment, started without a `.complete`
file: both runs leave `abcd`, the hex encoding of the sample hash. -/
theorem C18_setup_once_in_two_runs_witness :
    (Launcher.runProvider Launcher.sampleRun none).complete = some "abcd".toList ∧
    (Launcher.runProvider Launcher.sampleRun
      (Launcher.runProvider Launcher.sampleRun none).complete).complete = some "abcd".toList ∧
    (Launcher.runProvider Launcher.sampleRun none).events.count .setupEnvironment = 1 ∧
    (Launcher.runProvider Launcher.sampleRun
      (Launcher.runProvider Launcher.sampleRun none).complete).events.count
        .setupEnvironment = 0 := by
  have hhash : hexEncode (Launcher.sampleRun.sha256 Launcher.sampleExe) = "abcd".toList := by
    decide
  have hread := Launcher.readSections_builtFile [76, 65, 85, 78, 67, 72] [85, 86] [80, 89] [77]
    [80] [1, 2, 3] [4, 5] (by decide) (by decide) (by decide) (by decide) (by decide)
    (by decide) (by decide) (by decide)
  obtain ⟨a, b, c, _, d, _, _, _⟩ := C18_setup_once_in_two_runs Launcher.sampleRun none
    "/opt/provider".toList "/home/u/.cache".toList Launcher.sampleExe rfl rfl rfl rfl rfl
    (by simp)
    (Launcher.setupEnvironment_sample Launcher.sampleExe _ _ _ _ _ _ hread) rfl
  rw [hhash] at a b
  exact ⟨a, b, c, d⟩

/-- C19: take a launcher whose executable and cache directory are available
and a run that does not find the hash of the executable in `.complete`, so
that it runs `setupEnvironment`. If `setupEnvironment` returns an error, the
run exits with status 1, has not run the interpreter and has not written
`.complete`; the `.complete` it leaves is the old one or none, so it is not
the hash of the executable, and the next run runs `setupEnvironment` again. -/
theorem C19_setup_failure_is_retried (env : LauncherEnv) (s0 : Option GoString)
    (exePath userCacheDir : GoString) (content : Bytes) (e : Err)
    (hexe : env.executable = .ok exePath) (hdir : env.userCacheDir = .ok userCacheDir)
    (hmk : env.mkdirAll (Launcher.workDir userCacheDir exePath) = none)
    (hopen : env.openFile exePath = .ok content) (hcopy : env.copyFault exePath = none)
    (hmiss : s0 ≠ some (hexEncode (env.sha256 content)))
    (hfail : (Launcher.setupEnvironment env exePath
      (Launcher.workDir userCacheDir exePath) s0).1 = some e) :
    (Launcher.runProvider env s0).exitCode = 1 ∧
    (Launcher.runProvider env s0).events.all (fun ev => !ev.isInterpreterRun) = true ∧
    (Launcher.runProvider env s0).events.all (fun ev => !ev.isCompleteWritten) = true ∧
    ((Launcher.runProvider env s0).complete = s0 ∨
      (Launcher.runProvider env s0).complete = none) ∧
    (Launcher.runProvider env s0).complete ≠ some (hexEncode (env.sha256 content)) ∧
    (Launcher.runProvider env (Launcher.runProvider env s0).complete).events.count
      .setupEnvironment = 1 := by
  have h1 := Launcher.runProvider_eq env s0 exePath userCacheDir content hexe hdir hmk hopen hcopy
  rw [if_neg hmiss] at h1
  obtain ⟨hnr, hnc, _⟩ := Launcher.setupEnvironment_noRun env exePath
    (Launcher.workDir userCacheDir exePath) s0
  obtain ⟨hsent, _, _⟩ := Launcher.setupEnvironment_spec env exePath
    (Launcher.workDir userCacheDir exePath) s0
  rcases hs : Launcher.setupEnvironment env exePath (Launcher.workDir userCacheDir exePath) s0
    with ⟨err, evs, c2⟩
  rw [hs] at h1 hfail hnr hnc hsent
  simp only at hfail hnr hnc hsent
  subst hfail
  simp only at h1
  have hne : c2 ≠ some (hexEncode (env.sha256 content)) := by
    rcases hsent with h | h
    · rw [h]; exact hmiss
    · rw [h]; simp
  have hex : (Launcher.runProvider env s0).exitCode = 1 := by rw [h1]
  have hev : (Launcher.runProvider env s0).events = evs := by rw [h1]
  have hco : (Launcher.runProvider env s0).complete = c2 := by rw [h1]
  refine ⟨hex, by rw [hev]; exact hnr, by rw [hev]; exact hnc, by rw [hco]; exact hsent,
    by rw [hco]; exact hne, ?_⟩
  rw [hco]
  have h2 := Launcher.runProvider_eq env c2 exePath userCacheDir content hexe hdir hmk hopen hcopy
  rw [if_neg hne] at h2
  obtain ⟨_, _, hcount⟩ := Launcher.setupEnvironment_noRun env exePath
    (Launcher.workDir userCacheDir exePath) c2
  rcases hs2 : Launcher.setupEnvironment env exePath (Launcher.workDir userCacheDir exePath) c2
    with ⟨err2, evs2, c3⟩
  rw [hs2] at h2 hcount
  simp only at hcount
  cases err2 with
  | some e2 =>
    simp only at h2
    rw [h2]
    exact hcount
  | none =>
    simp only at h2
    cases hw : env.writeFile (filepath.Join (Launcher.workDir userCacheDir exePath)
        ".complete".toList) with
    | notOpened e3 =>
      rw [hw] at h2
      rw [h2]
      exact hcount
    | short n e3 =>
      rw [hw] at h2
      rw [h2]
      exact hcount
    | done =>
      rw [hw] at h2
      simp only at h2
      obtain ⟨_, hev2⟩ := Launcher.executePython_spec env (Launcher.workDir userCacheDir exePath)
        (evs2 ++ [Event.completeWritten (hexEncode (env.sha256 content))])
        (some (hexEncode (env.sha256 content)))
      rw [← h2] at hev2
      rcases hev2 with ⟨_, _, hev3, _⟩ | ⟨_, _, hev3⟩
      · rw [hev3, List.count_append, hcount]
        rfl
      · rw [hev3, List.count_append, List.count_append, hcount]
        rfl

/-- Witness of C19 in the sample environment with an empty executable, which
has no footer: the run exits with status 1 and leaves no `.complete`. -/
theorem C19_setup_failure_is_retried_witness :
    (Launcher.setupEnvironment Launcher.sampleBroken "/opt/provider".toList
      (Launcher.workDir "/home/u/.cache".toList "/opt/provider".toList) none).1 =
      some .fileTooSmall ∧
    (Launcher.runProvider Launcher.sampleBroken none).exitCode = 1 ∧
    (Launcher.runProvider Launcher.sampleBroken none).events.all
      (fun ev => !ev.isInterpreterRun) = true ∧
    (Launcher.runProvider Launcher.sampleBroken
      (Launcher.runProvider Launcher.sampleBroken none).complete).events.count
        .setupEnvironment = 1 := by
  have hfail : (Launcher.setupEnvironment Launcher.sampleBroken "/opt/provider".toList
      (Launcher.workDir "/home/u/.cache".toList "/opt/provider".toList) none).1 =
      some .fileTooSmall := by
    have hr : Launcher.readSections [] = .error .fileTooSmall := by
      unfold Launcher.readSections
      rw [Launcher.readAndVerifyFooter_small [] (by decide)]
    have ho : Launcher.sampleBroken.openFile "/opt/provider".toList = .ok [] := rfl
    unfold Launcher.setupEnvironment
    simp only [ho, hr]
  obtain ⟨a, b, _, _, _, c⟩ := C19_setup_failure_is_retried Launcher.sampleBroken none
    "/opt/provider".toList "/home/u/.cache".toList [] .fileTooSmall rfl rfl rfl rfl rfl
    (by simp) hfail
  exact ⟨hfail, a, b, c⟩

/-- C20 as stated fails: with a `config.json` that is the JSON object
`\x7b"entry_point":"nocolon"\x7d`, whose entry point is not of the form
`module:function`, `executePython` runs the interpreter, with the bootstrap
text built from `nocolon`, and exits with the status of the child. -/
theorem C20_entry_point_without_colon_counterexample :
    Launcher.executePython
      (Launcher.sampleEnv Launcher.sampleExe
        (.ok (asciiBytes "\x7b\"entry_point\":\"nocolon\"\x7d".toList))
        ({ EntryPoint := "nocolon".toList }, none))
      (Launcher.workDir "/home/u/.cache".toList "/opt/provider".toList) []
      (some "abcd".toList) =
      { exitCode := 0
        events := [.interpreterRun
          (Launcher.venvPython (Launcher.sampleEnv Launcher.sampleExe
            (.ok (asciiBytes "\x7b\"entry_point\":\"nocolon\"\x7d".toList))
            ({ EntryPoint := "nocolon".toList }, none))
            (Launcher.workDir "/home/u/.cache".toList "/opt/provider".toList))
          ["-c".toList, Launcher.pyCmdString "nocolon".toList]
          (Launcher.pythonCmdEnv (Launcher.sampleEnv Launcher.sampleExe
            (.ok (asciiBytes "\x7b\"entry_point\":\"nocolon\"\x7d".toList))
            ({ EntryPoint := "nocolon".toList }, none))
            (Launcher.workDir "/home/u/.cache".toList "/opt/provider".toList))]
        complete := some "abcd".toList } ∧
    ':' ∉ "nocolon".toList := by
  refine ⟨rfl, by decide⟩

/-- C20, amended: `executePython` exits with status 1 without running the
interpreter when `config.json` cannot be read. Whenever the file is read and
`json.Unmarshal` parses it without error to an entry point, of the form
`module:function` or not, `executePython` runs the interpreter once, with the
arguments `-c` and the bootstrap text built from that entry point. -/
theorem C20_dispatch_on_readable_config (env : LauncherEnv) (wd : GoString)
    (evs : List Event) (c : Option GoString) :
    (∀ e, env.readFile (Launcher.configPath wd) = .error e →
      (Launcher.executePython env wd evs c).exitCode = 1 ∧
      (Launcher.executePython env wd evs c).events = evs) ∧
    (∀ cfgBytes entryPoint, env.readFile (Launcher.configPath wd) = .ok cfgBytes →
      env.jsonUnmarshal cfgBytes = ({ EntryPoint := entryPoint }, none) →
      (Launcher.executePython env wd evs c).events = evs ++
        [.interpreterRun (Launcher.venvPython env wd)
          ["-c".toList, Launcher.pyCmdString entryPoint] (Launcher.pythonCmdEnv env wd)]) := by
  obtain ⟨_, hspec⟩ := Launcher.executePython_spec env wd evs c
  constructor
  · intro e he
    rcases hspec with ⟨_, _, hev, hex⟩ | ⟨cfg, hr, _⟩
    · exact ⟨hex, hev⟩
    · rw [he] at hr
      cases hr
  · intro cfgBytes entryPoint hr hj
    rcases hspec with ⟨_, he, _, _⟩ | ⟨cfg, hr2, hev⟩
    · rw [hr] at he
      cases he
    · rw [hr] at hr2
      cases hr2
      rw [hev, hj]

/-- Witness of the amended C20: an unreadable `config.json` in the sample
environment, and a readable one that parses to `m:f`. -/
theorem C20_dispatch_on_readable_config_witness :
    ((Launcher.sampleEnv Launcher.sampleExe (.error (.ioError "no such file or directory"))
        ({ EntryPoint := [] }, none)).readFile
        (Launcher.configPath "/c".toList) = .error (.ioError "no such file or directory") ∧
      (Launcher.executePython (Launcher.sampleEnv Launcher.sampleExe (.error (.ioError "no such file or directory"))
        ({ EntryPoint := [] }, none)) "/c".toList [] none).exitCode = 1 ∧
      (Launcher.executePython (Launcher.sampleEnv Launcher.sampleExe (.error (.ioError "no such file or directory"))
        ({ EntryPoint := [] }, none)) "/c".toList [] none).events = []) ∧
    (Launcher.sampleRun.readFile (Launcher.configPath "/c".toList) = .ok [] ∧
      Launcher.sampleRun.jsonUnmarshal [] = ({ EntryPoint := "m:f".toList }, none) ∧
      (Launcher.executePython Launcher.sampleRun "/c".toList [] none).events = [] ++
        [.interpreterRun (Launcher.venvPython Launcher.sampleRun "/c".toList)
          ["-c".toList, Launcher.pyCmdString "m:f".toList]
          (Launcher.pythonCmdEnv Launcher.sampleRun "/c".toList)]) :=
  ⟨⟨rfl, (C20_dispatch_on_readable_config _ "/c".toList [] none).1 (.ioError "no such file or directory") rfl⟩,
   ⟨rfl, rfl, (C20_dispatch_on_readable_config Launcher.sampleRun "/c".toList [] none).2
      [] "m:f".toList rfl rfl⟩⟩


/-! ## Frame of the checksum methods, the packager copies, exit codes (C21, C22, C25, C29, C30) -/

theorem Footer.withChecksum_zero_of_withChecksum (f : Footer) (c : Nat) :
    (f.withChecksum c).withChecksum 0 = f.withChecksum 0 := by
  cases f; rfl

/-- C30: `CalculateChecksum` succeeds on every footer and changes nothing but
`FooterStructChecksum`: the fifteen other fields of the result are those of
the footer before. Its result is the same whatever checksum was stored
before, so calling it again on its result changes nothing. `VerifyChecksum`
leaves the footer behind its receiver as it was. -/
theorem C30_checksum_methods_frame (f : Footer) :
    ∃ g, f.CalculateChecksum = .ok g ∧
      (g.UvBinaryOffset = f.UvBinaryOffset ∧ g.UvBinarySize = f.UvBinarySize ∧
       g.PythonInstallTgzOffset = f.PythonInstallTgzOffset ∧
       g.PythonInstallTgzSize = f.PythonInstallTgzSize ∧
       g.MetadataTgzOffset = f.MetadataTgzOffset ∧ g.MetadataTgzSize = f.MetadataTgzSize ∧
       g.PayloadTgzOffset = f.PayloadTgzOffset ∧ g.PayloadTgzSize = f.PayloadTgzSize ∧
       g.PackageSignatureOffset = f.PackageSignatureOffset ∧
       g.PackageSignatureSize = f.PackageSignatureSize ∧
       g.PublicKeyPEMOffset = f.PublicKeyPEMOffset ∧ g.PublicKeyPEMSize = f.PublicKeyPEMSize ∧
       g.PspfVersion = f.PspfVersion ∧ g.Reserved = f.Reserved ∧
       g.InternalFooterMagic = f.InternalFooterMagic) ∧
      g = f.withChecksum g.FooterStructChecksum ∧
      (∀ c, (f.withChecksum c).CalculateChecksum = .ok g) ∧
      g.CalculateChecksum = .ok g ∧
      f.VerifyChecksumOn.2 = f ∧ g.VerifyChecksumOn.2 = g ∧
      f.VerifyChecksumOn.1 = f.VerifyChecksum := by
  have hind : ∀ c, (f.withChecksum c).CalculateChecksum = .ok f.seal := by
    intro c
    rw [Footer.CalculateChecksum_eq]
    unfold Footer.seal
    rw [Footer.withChecksum_zero_of_withChecksum, Footer.withChecksum_withChecksum]
  refine ⟨f.seal, Footer.CalculateChecksum_eq f, ?_, ?_, hind, ?_, rfl, rfl, rfl⟩
  · exact ⟨Footer.seal_UvBinaryOffset f, Footer.seal_UvBinarySize f,
      Footer.seal_PythonInstallTgzOffset f, Footer.seal_PythonInstallTgzSize f,
      Footer.seal_MetadataTgzOffset f, Footer.seal_MetadataTgzSize f,
      Footer.seal_PayloadTgzOffset f, Footer.seal_PayloadTgzSize f,
      Footer.seal_PackageSignatureOffset f, Footer.seal_PackageSignatureSize f,
      Footer.seal_PublicKeyPEMOffset f, Footer.seal_PublicKeyPEMSize f,
      Footer.seal_PspfVersion f, Footer.seal_Reserved f, Footer.seal_magic f⟩
  · rw [Footer.seal_checksum]
    rfl
  · have h := hind (crc32.ChecksumIEEE (f.withChecksum 0).encode)
    exact h

theorem Packager.unTarLoop_eq_launcher (fs : FileSystem) (dest : GoString)
    (archive : List TarItem) (files : List GoString) (done : List FsOp) :
    Packager.unTarLoop fs dest archive files done =
      Launcher.unTarLoop fs dest archive files done := by
  induction archive generalizing files done with
  | nil => rfl
  | cons item rest ih =>
    cases item with
    | corrupt err => rfl
    | entry header content =>
      unfold Packager.unTarLoop Launcher.unTarLoop
      simp only [ih]

/-- C29: on every file the packager's `readAndVerifyFooter` returns what the
launcher's does, on every file, offset and size the packager's `readSection`
returns what the launcher's does, and on every archive, destination and file
system the packager's `unTar` returns what the launcher's does and makes the
same file system calls: the same value or the same error in each case. -/
theorem C29_packager_copies_agree :
    (∀ file, Packager.readAndVerifyFooter file = Launcher.readAndVerifyFooter file) ∧
    (∀ file offset size,
      Packager.readSection file offset size = Launcher.readSection file offset size) ∧
    (∀ fs archive dest, Packager.unTar fs archive dest = Launcher.unTar fs archive dest) := by
  refine ⟨fun _ => rfl, fun _ _ _ => rfl, ?_⟩
  intro fs archive dest
  unfold Packager.unTar Launcher.unTar
  exact Packager.unTarLoop_eq_launcher fs dest archive [] []

/-- C21, the code at the failing input: in the sample environment with a
child killed by a signal (`ExitCode()` of the `*exec.ExitError` is then -1),
`executePython` runs the interpreter and calls `os.Exit(-1)`, not `os.Exit(1)`;
with a child that exits with status 0 it exits with 0. -/
theorem C21_signal_gives_minus_one :
    (Launcher.executePython Launcher.sampleSignaled
      (Launcher.workDir "/home/u/.cache".toList "/opt/provider".toList) []
      (some "abcd".toList)).exitCode = -1 ∧
    (Launcher.executePython Launcher.sampleSignaled
      (Launcher.workDir "/home/u/.cache".toList "/opt/provider".toList) []
      (some "abcd".toList)).exitCode ≠ 1 ∧
    (Launcher.executePython Launcher.sampleSignaled
      (Launcher.workDir "/home/u/.cache".toList "/opt/provider".toList) []
      (some "abcd".toList)).events.length = 1 ∧
    (Launcher.executePython Launcher.sampleRun
      (Launcher.workDir "/home/u/.cache".toList "/opt/provider".toList) []
      (some "abcd".toList)).exitCode = 0 := by
  refine ⟨rfl, ?_, rfl, rfl⟩
  have h : (Launcher.executePython Launcher.sampleSignaled
      (Launcher.workDir "/home/u/.cache".toList "/opt/provider".toList) []
      (some "abcd".toList)).exitCode = -1 := rfl
  rw [h]
  decide

/-- C22, the code at the failing input: on a device where the seven section
writes and the footer write succeed and the write of the trailing marker
stops after three bytes, `BuildAppendedPSPF` returns nil; the file it leaves
ends with the first three bytes of the marker and has 128 bytes, not 133.
A failed write of a section, here the first one, does return an error. -/
theorem C22_marker_write_failure_returns_nil :
    (Packager.BuildAppendedPSPF OutputDevice.markerWriteFails [76, 65, 85, 78, 67, 72]
      [85, 86] [80, 89] [77] [80] [1, 2, 3] [4, 5]).1 = none ∧
    (Packager.BuildAppendedPSPF OutputDevice.markerWriteFails [76, 65, 85, 78, 67, 72]
      [85, 86] [80, 89] [77] [80] [1, 2, 3] [4, 5]).2 =
      [76, 65, 85, 78, 67, 72, 85, 86, 80, 89, 77, 80, 1, 2, 3, 4, 5] ++
        (Packager.footerOfLengths 6 2 2 1 1 3 2).seal.encode ++ [33, 80, 83] ∧
    (Packager.BuildAppendedPSPF OutputDevice.markerWriteFails [76, 65, 85, 78, 67, 72]
      [85, 86] [80, 89] [77] [80] [1, 2, 3] [4, 5]).2.length = 128 ∧
    (128 : Nat) ≠ 6 + 2 + 2 + 1 + 1 + 3 + 2 + 108 + 8 ∧
    (Packager.BuildAppendedPSPF
      { openErr := none, writeFault := fun k => if k = 0 then some 2 else none }
      [76, 65, 85, 78, 67, 72] [85, 86] [80, 89] [77] [80] [1, 2, 3] [4, 5]) =
      (some (.ioError "write failed"), [76, 65]) := by
  have h := Packager.BuildAppendedPSPF_sections_written OutputDevice.markerWriteFails
    [76, 65, 85, 78, 67, 72] [85, 86] [80, 89] [77] [80] [1, 2, 3] [4, 5] rfl rfl rfl rfl rfl
    rfl rfl rfl
  have h7 : OutputDevice.markerWriteFails.writeFault 7 = none := rfl
  have h8 : OutputDevice.markerWriteFails.writeFault 8 = some 3 := rfl
  rw [h7, h8] at h
  have hfile : (Packager.BuildAppendedPSPF OutputDevice.markerWriteFails
      [76, 65, 85, 78, 67, 72] [85, 86] [80, 89] [77] [80] [1, 2, 3] [4, 5]).2 =
      [76, 65, 85, 78, 67, 72, 85, 86, 80, 89, 77, 80, 1, 2, 3, 4, 5] ++
        (Packager.footerOfLengths 6 2 2 1 1 3 2).seal.encode ++ [33, 80, 83] := by
    rw [h]
    rfl
  refine ⟨by rw [h], hfile, ?_, by decide, rfl⟩
  rw [hfile, List.length_append, List.length_append, Footer.encode_length]
  rfl

/-- C25 as stated fails: for a key file whose PEM block decodes and holds a
PKCS#8 Ed25519 key, the PKCS#8 parse succeeds, so it is not true that the PEM
cannot be decoded or that both parses fail, and yet `loadPrivateKey` returns
an error; it does so without trying PKCS#1. -/
theorem C25_non_rsa_pkcs8_key_counterexample :
    KeyEnv.sampleEd25519.pemDecode [45, 45, 45] = some [48, 46] ∧
    KeyEnv.sampleEd25519.ParsePKCS8PrivateKey [48, 46] = .ok (.otherKey "Ed25519") ∧
    Packager.loadPrivateKey KeyEnv.sampleEd25519 "ed.pem".toList =
      (.error (.ioError "key in ed.pem is not an RSA private key"),
        [.ParsePKCS8PrivateKey [48, 46]]) := by
  refine ⟨rfl, rfl, ?_⟩
  simp [Packager.loadPrivateKey, KeyEnv.sampleEd25519]

/-- C25, amended: `loadPrivateKey` parses the decoded PEM block as PKCS#8
first and, only when that parse fails, as PKCS#1. It returns the RSA key when
the PKCS#8 parse yields an RSA key, and when the PKCS#8 parse fails and the
PKCS#1 parse yields a key. It returns an error when the key file cannot be
read, when the PEM cannot be decoded, when the PKCS#8 parse yields a key that
is not an RSA key (PKCS#1 is not tried then), and when both parses fail; in
no other case. -/
theorem C25_load_private_key_cases (env : KeyEnv) (path : GoString) :
    (∀ e, env.readFile path = .error e →
      Packager.loadPrivateKey env path = (.error e, [])) ∧
    (∀ keyData, env.readFile path = .ok keyData →
      (env.pemDecode keyData = none →
        (∃ e, (Packager.loadPrivateKey env path).1 = .error e) ∧
        (Packager.loadPrivateKey env path).2 = []) ∧
      (∀ der, env.pemDecode keyData = some der →
        (∀ k, env.ParsePKCS8PrivateKey der = .ok (.rsaKey k) →
          Packager.loadPrivateKey env path = (.ok k, [.ParsePKCS8PrivateKey der])) ∧
        (∀ a, env.ParsePKCS8PrivateKey der = .ok (.otherKey a) →
          (∃ e, (Packager.loadPrivateKey env path).1 = .error e) ∧
          (Packager.loadPrivateKey env path).2 = [.ParsePKCS8PrivateKey der]) ∧
        (∀ e8 k, env.ParsePKCS8PrivateKey der = .error e8 →
          env.ParsePKCS1PrivateKey der = .ok k →
          Packager.loadPrivateKey env path =
            (.ok k, [.ParsePKCS8PrivateKey der, .ParsePKCS1PrivateKey der])) ∧
        (∀ e8 e1, env.ParsePKCS8PrivateKey der = .error e8 →
          env.ParsePKCS1PrivateKey der = .error e1 →
          (∃ e, (Packager.loadPrivateKey env path).1 = .error e) ∧
          (Packager.loadPrivateKey env path).2 =
            [.ParsePKCS8PrivateKey der, .ParsePKCS1PrivateKey der]))) := by
  refine ⟨?_, ?_⟩
  · intro e h
    simp only [Packager.loadPrivateKey, h]
  · intro keyData hr
    refine ⟨?_, ?_⟩
    · intro hp
      simp only [Packager.loadPrivateKey, hr, hp]
      exact ⟨⟨_, rfl⟩, trivial⟩
    · intro der hp
      refine ⟨?_, ?_, ?_, ?_⟩
      · intro k h8
        simp only [Packager.loadPrivateKey, hr, hp, h8]
      · intro a h8
        simp only [Packager.loadPrivateKey, hr, hp, h8]
        exact ⟨⟨_, rfl⟩, trivial⟩
      · intro e8 k h8 h1
        simp only [Packager.loadPrivateKey, hr, hp, h8, h1]
      · intro e8 e1 h8 h1
        simp only [Packager.loadPrivateKey, hr, hp, h8, h1]
        exact ⟨⟨_, rfl⟩, trivial⟩

/-- Witness of the amended C25 on a key file with a PKCS#1 RSA key: the
PKCS#8 parse fails, the PKCS#1 parse gives the key, after both calls. -/
theorem C25_load_private_key_cases_witness :
    KeyEnv.samplePKCS1.readFile "rsa.pem".toList = .ok [45, 45, 45] ∧
    KeyEnv.samplePKCS1.pemDecode [45, 45, 45] = some [48, 130] ∧
    KeyEnv.samplePKCS1.ParsePKCS8PrivateKey [48, 130] =
      .error (.ioError "x509: failed to parse private key") ∧
    KeyEnv.samplePKCS1.ParsePKCS1PrivateKey [48, 130] =
      .ok { N := 3233, E := 17, D := 413, Primes := [61, 53] } ∧
    Packager.loadPrivateKey KeyEnv.samplePKCS1 "rsa.pem".toList =
      (.ok { N := 3233, E := 17, D := 413, Primes := [61, 53] },
        [.ParsePKCS8PrivateKey [48, 130], .ParsePKCS1PrivateKey [48, 130]]) :=
  ⟨rfl, rfl, rfl, rfl,
    (((C25_load_private_key_cases KeyEnv.samplePKCS1 "rsa.pem".toList).2 [45, 45, 45] rfl).2
      [48, 130] rfl).2.2.1 _ _ rfl rfl⟩


/-! ## The wheel list (C26) -/

theorem Launcher.unTarLoop_files (fs : FileSystem) (dest : GoString) (archive : List TarItem)
    (files out : List GoString) (done : List FsOp)
    (h : (Launcher.unTarLoop fs dest archive files done).1 = .ok out) :
    out = files ++ regularNames archive := by
  induction archive generalizing files done with
  | nil =>
    simp only [Launcher.unTarLoop, Except.ok.injEq] at h
    simp [regularNames, h]
  | cons item rest ih =>
    cases item with
    | corrupt err => simp [Launcher.unTarLoop] at h
    | entry header content =>
      unfold Launcher.unTarLoop at h
      simp only [] at h
      split at h
      · simp at h
      · cases ht : header.Typeflag with
        | TypeDir =>
          rw [ht] at h
          simp only [] at h
          split at h
          · simp at h
          · rw [ih _ _ h]
            simp [regularNames, ht]
        | TypeReg =>
          rw [ht] at h
          simp only [] at h
          split at h
          · simp at h
          · split at h
            · simp at h
            · split at h
              · simp at h
              · rw [ih _ _ h]
                simp [regularNames, ht]
        | TypeSymlink =>
          rw [ht] at h
          simp only [] at h
          split at h
          · split at h
            · split at h
              · simp at h
              · rw [ih _ _ h]
                simp [regularNames, ht]
            · simp at h
          · split at h
            · simp at h
            · rw [ih _ _ h]
              simp [regularNames, ht]
        | other =>
          rw [ht] at h
          simp only [] at h
          rw [ih _ _ h]
          simp [regularNames, ht]

theorem mem_regularNames (archive : List TarItem) (name : GoString)
    (h : name ∈ regularNames archive) :
    ∃ header content, TarItem.entry header content ∈ archive ∧
      header.Typeflag = .TypeReg ∧ header.Name = name := by
  induction archive with
  | nil => simp [regularNames] at h
  | cons item rest ih =>
    cases item with
    | corrupt err =>
      simp only [regularNames] at h
      obtain ⟨hd, c, hm, ht, hn⟩ := ih h
      exact ⟨hd, c, List.mem_cons_of_mem _ hm, ht, hn⟩
    | entry header content =>
      simp only [regularNames] at h
      by_cases ht : header.Typeflag = .TypeReg
      · rw [if_pos ht] at h
        rcases List.mem_cons.mp h with rfl | h
        · exact ⟨header, content, List.mem_cons_self _ _, ht, rfl⟩
        · obtain ⟨hd, c, hm, ht2, hn⟩ := ih h
          exact ⟨hd, c, List.mem_cons_of_mem _ hm, ht2, hn⟩
      · rw [if_neg ht] at h
        obtain ⟨hd, c, hm, ht2, hn⟩ := ih h
        exact ⟨hd, c, List.mem_cons_of_mem _ hm, ht2, hn⟩

/-- The resolver commands of the staging: `pip install` is run only with the
wheel list built from the files that extracting the payload returned, and
only when that list is not empty. -/
theorem Launcher.stage_pip_command (env : LauncherEnv) (wd : GoString) (s : Sections)
    (path : GoString) (args extraEnv : List GoString)
    (hmem : Event.command path args extraEnv ∈ (Launcher.stage env wd s).2)
    (hpip : args.head? = some "pip".toList) :
    ∃ files, (Launcher.unTar env.fs (env.decodeArchive s.payloadTgzBytes)
        (filepath.Join wd "payload_extracted".toList)).1 = .ok files ∧
      args = ["pip".toList, "install".toList] ++
        Launcher.wheelsToInstall (filepath.Join wd "payload_extracted".toList) files ∧
      Launcher.wheelsToInstall (filepath.Join wd "payload_extracted".toList) files ≠ [] ∧
      extraEnv = ["VIRTUAL_ENV=".toList ++ filepath.Join wd ".venv".toList] := by
  unfold Launcher.stage at hmem
  simp only [] at hmem
  cases hp : (Launcher.unTar env.fs (env.decodeArchive s.payloadTgzBytes)
      (filepath.Join wd "payload_extracted".toList)).1 with
  | error e =>
    rw [hp] at hmem
    simp only [] at hmem
    split at hmem <;> simp [Launcher.unTarEvents] at hmem
  | ok files =>
    rw [hp] at hmem
    simp only [] at hmem
    refine ⟨files, rfl, ?_⟩
    repeat' split at hmem
    all_goals
      simp only [Launcher.unTarEvents, List.mem_append, List.mem_map, List.mem_singleton,
        List.mem_cons, Event.command.injEq, reduceCtorEq, false_and, and_false, exists_false,
        false_or, or_false, List.not_mem_nil, exists_const] at hmem
    all_goals
      first
      | (rcases hmem with ⟨_, h2, _⟩ | ⟨_, h2, h3⟩
         · rw [h2] at hpip
           simp at hpip
         · subst h2 h3
           refine ⟨rfl, ?_, rfl⟩
           apply List.ne_nil_of_length_pos
           assumption)
      | (obtain ⟨_, h2, _⟩ := hmem
         rw [h2] at hpip
         simp at hpip)

/-- When the staging returns nil, extracting the payload returned a file list,
and if the wheel list built from it is not empty, `pip install` was run with
it. -/
theorem Launcher.stage_nil_pip (env : LauncherEnv) (wd : GoString) (s : Sections)
    (h : (Launcher.stage env wd s).1 = none) :
    ∃ files, (Launcher.unTar env.fs (env.decodeArchive s.payloadTgzBytes)
        (filepath.Join wd "payload_extracted".toList)).1 = .ok files ∧
      (Launcher.wheelsToInstall (filepath.Join wd "payload_extracted".toList) files ≠ [] →
        ∃ path, Event.command path (["pip".toList, "install".toList] ++
            Launcher.wheelsToInstall (filepath.Join wd "payload_extracted".toList) files)
          ["VIRTUAL_ENV=".toList ++ filepath.Join wd ".venv".toList] ∈
            (Launcher.stage env wd s).2) := by
  cases hp : (Launcher.unTar env.fs (env.decodeArchive s.payloadTgzBytes)
      (filepath.Join wd "payload_extracted".toList)).1 with
  | error e =>
    exfalso
    unfold Launcher.stage at h
    simp only [] at h
    rw [hp] at h
    simp only [] at h
    split at h <;> simp at h
  | ok files =>
    refine ⟨files, rfl, fun hne => ?_⟩
    revert h
    unfold Launcher.stage
    simp only []
    rw [hp]
    simp only []
    repeat' split
    all_goals
      first
      | (intro h
         simp at h
         done)
      | (intro _
         exact ⟨_, List.mem_append_right _ (List.mem_singleton_self _)⟩)
      | (intro _
         exfalso
         apply hne
         apply List.eq_nil_of_length_eq_zero
         omega)

/-- C26: whenever extracting the payload archive returns a file list, that
list is the names of the regular-file entries of the archive, in archive
order, and the wheel list built from it is the sub-list of the names ending in
`.whl`, each joined onto `payload_extracted`; every element of it comes from
a regular-file entry, none from a directory or symbolic link entry. Every
`pip install` the staging runs has exactly that list after `pip install`,
with `VIRTUAL_ENV` set, and a staging that returns nil has run it whenever the
list is not empty. -/
theorem C26_wheel_list_is_regular_whl_entries (env : LauncherEnv) (wd : GoString)
    (s : Sections) :
    (∀ files, (Launcher.unTar env.fs (env.decodeArchive s.payloadTgzBytes)
        (filepath.Join wd "payload_extracted".toList)).1 = .ok files →
      files = regularNames (env.decodeArchive s.payloadTgzBytes) ∧
      Launcher.wheelsToInstall (filepath.Join wd "payload_extracted".toList) files =
        ((regularNames (env.decodeArchive s.payloadTgzBytes)).filter
          (fun f => HasSuffix f ".whl".toList)).map
          (filepath.Join (filepath.Join wd "payload_extracted".toList))) ∧
    (∀ w ∈ ((regularNames (env.decodeArchive s.payloadTgzBytes)).filter
          (fun f => HasSuffix f ".whl".toList)).map
          (filepath.Join (filepath.Join wd "payload_extracted".toList)),
      ∃ header content, TarItem.entry header content ∈ env.decodeArchive s.payloadTgzBytes ∧
        header.Typeflag = .TypeReg ∧ HasSuffix header.Name ".whl".toList = true ∧
        w = filepath.Join (filepath.Join wd "payload_extracted".toList) header.Name) ∧
    (∀ path args extraEnv, Event.command path args extraEnv ∈ (Launcher.stage env wd s).2 →
      args.head? = some "pip".toList →
      args = ["pip".toList, "install".toList] ++
        ((regularNames (env.decodeArchive s.payloadTgzBytes)).filter
          (fun f => HasSuffix f ".whl".toList)).map
          (filepath.Join (filepath.Join wd "payload_extracted".toList)) ∧
      extraEnv = ["VIRTUAL_ENV=".toList ++ filepath.Join wd ".venv".toList]) ∧
    ((Launcher.stage env wd s).1 = none →
      ((regularNames (env.decodeArchive s.payloadTgzBytes)).filter
          (fun f => HasSuffix f ".whl".toList)) ≠ [] →
      ∃ path, Event.command path (["pip".toList, "install".toList] ++
          ((regularNames (env.decodeArchive s.payloadTgzBytes)).filter
            (fun f => HasSuffix f ".whl".toList)).map
            (filepath.Join (filepath.Join wd "payload_extracted".toList)))
        ["VIRTUAL_ENV=".toList ++ filepath.Join wd ".venv".toList] ∈
          (Launcher.stage env wd s).2) := by
  have hfiles : ∀ files, (Launcher.unTar env.fs (env.decodeArchive s.payloadTgzBytes)
      (filepath.Join wd "payload_extracted".toList)).1 = .ok files →
      files = regularNames (env.decodeArchive s.payloadTgzBytes) := by
    intro files h
    have := Launcher.unTarLoop_files _ _ _ _ _ _ h
    simpa using this
  refine ⟨?_, ?_, ?_, ?_⟩
  · intro files h
    have hf := hfiles files h
    subst hf
    exact ⟨rfl, rfl⟩
  · intro w hw
    obtain ⟨name, hname, rfl⟩ := List.mem_map.mp hw
    obtain ⟨hreg, hsfx⟩ := List.mem_filter.mp hname
    obtain ⟨header, content, hmem, ht, hn⟩ := mem_regularNames _ _ hreg
    subst hn
    exact ⟨header, content, hmem, ht, hsfx, rfl⟩
  · intro path args extraEnv hmem hpip
    obtain ⟨files, hf, hargs, _, henv⟩ :=
      Launcher.stage_pip_command env wd s path args extraEnv hmem hpip
    have := hfiles files hf
    subst this
    exact ⟨hargs, henv⟩
  · intro hnil hne
    obtain ⟨files, hf, hrun⟩ := Launcher.stage_nil_pip env wd s hnil
    have := hfiles files hf
    subst this
    apply hrun
    intro hnil2
    apply hne
    unfold Launcher.wheelsToInstall at hnil2
    exact List.map_eq_nil_iff.mp hnil2

/-- Witness of C26 on the sample payload archive: of its six entries the
regular files are `pkg/a.whl`, `README.txt` and `b.whl`; the symbolic link
`link.whl` and the directory `dir.whl` are not in the wheel list. -/
theorem C26_wheel_list_is_regular_whl_entries_witness :
    (Launcher.unTar Launcher.sampleWheels.fs
      (Launcher.sampleWheels.decodeArchive Launcher.sampleSections.payloadTgzBytes)
      (filepath.Join "/c".toList "payload_extracted".toList)).1 =
        .ok ["pkg/a.whl".toList, "README.txt".toList, "b.whl".toList] ∧
    Launcher.wheelsToInstall (filepath.Join "/c".toList "payload_extracted".toList)
      ["pkg/a.whl".toList, "README.txt".toList, "b.whl".toList] =
      ["/c/payload_extracted/pkg/a.whl".toList, "/c/payload_extracted/b.whl".toList] ∧
    ["pkg/a.whl".toList, "README.txt".toList, "b.whl".toList] =
      regularNames (Launcher.sampleWheels.decodeArchive Launcher.sampleSections.payloadTgzBytes) ∧
    Launcher.wheelsToInstall (filepath.Join "/c".toList "payload_extracted".toList)
      ["pkg/a.whl".toList, "README.txt".toList, "b.whl".toList] =
      ((regularNames
        (Launcher.sampleWheels.decodeArchive Launcher.sampleSections.payloadTgzBytes)).filter
          (fun f => HasSuffix f ".whl".toList)).map
          (filepath.Join (filepath.Join "/c".toList "payload_extracted".toList)) := by
  have hrun : (Launcher.unTar Launcher.sampleWheels.fs
      (Launcher.sampleWheels.decodeArchive Launcher.sampleSections.payloadTgzBytes)
      (filepath.Join "/c".toList "payload_extracted".toList)).1 =
        .ok ["pkg/a.whl".toList, "README.txt".toList, "b.whl".toList] := by
    rfl
  have h := (C26_wheel_list_is_regular_whl_entries Launcher.sampleWheels "/c".toList
    Launcher.sampleSections).1 _ hrun
  exact ⟨hrun, by decide, h.1, h.2⟩


/-! ## The source archive (C23, C24) -/

theorem Packager.matchesExclude_ok (m : GoString → GoString → Except Err Bool)
    (rel : GoString) (pats : List GoString) (b : Bool)
    (h : Packager.matchesExclude m rel pats = .ok b) : matchesAny m pats rel = b := by
  induction pats with
  | nil =>
    simp only [Packager.matchesExclude, Except.ok.injEq] at h
    simp [matchesAny, h]
  | cons p ps ih =>
    unfold Packager.matchesExclude at h
    unfold matchesAny at ih ⊢
    cases hm : m p rel with
    | error e => rw [hm] at h; simp at h
    | ok v =>
      rw [hm] at h
      cases v with
      | true =>
        simp only [Except.ok.injEq] at h
        simp [hm, ← h]
      | false =>
        simp only [] at h
        simp [hm, ih h]

theorem Packager.matchesExclude_total (m : GoString → GoString → Except Err Bool)
    (rel : GoString) (pats : List GoString)
    (hm : ∀ p ∈ pats, ∃ b, m p rel = .ok b) :
    ∃ b, Packager.matchesExclude m rel pats = .ok b := by
  induction pats with
  | nil => exact ⟨false, rfl⟩
  | cons p ps ih =>
    obtain ⟨b, hb⟩ := hm p (List.mem_cons_self _ _)
    unfold Packager.matchesExclude
    rw [hb]
    cases b with
    | true => exact ⟨true, rfl⟩
    | false => exact ih (fun q hq => hm q (List.mem_cons_of_mem _ hq))

theorem Packager.relChild_ne_dot (dirRel name : GoString)
    (h : dirRel = ['.'] → name ≠ ['.']) : Packager.relChild dirRel name ≠ ['.'] := by
  unfold Packager.relChild
  by_cases hd : dirRel = ['.']
  · rw [if_pos hd]
    exact h hd
  · rw [if_neg hd]
    intro hc
    cases dirRel with
    | nil => simp at hc
    | cons c cs =>
      cases cs with
      | nil => simp at hc
      | cons c2 cs2 => simp at hc

theorem Tree.located_under (t : Tree) (dirRel : GoString) (under : List GoString) :
    ∀ l ∈ Tree.located dirRel under t, ∀ x ∈ under, x ∈ l.under := by
  induction t generalizing dirRel under with
  | nil => intro l hl; simp [Tree.located] at hl
  | file name leaf rest ih =>
    intro l hl x hx
    simp only [Tree.located, List.mem_cons] at hl
    rcases hl with rfl | hl
    · exact hx
    · exact ih dirRel under l hl x hx
  | dir name mode readErr children rest ihc ihr =>
    intro l hl x hx
    simp only [Tree.located, List.mem_cons, List.mem_append] at hl
    rcases hl with rfl | hl | hl
    · exact hx
    · exact ihc _ _ l hl x (List.mem_append_left _ hx)
    · exact ihr dirRel under l hl x hx

/-- What the function given to `Walk` does for a leaf. -/
theorem Packager.walkFn_leaf (m : GoString → GoString → Except Err Bool)
    (pats : List GoString) (rel name : GoString) (under : List GoString) (leaf : Leaf)
    (hrel : rel ≠ ['.']) :
    Packager.walkFn m pats rel false none (leaf.stat name) ≠ .skipDir ∧
    ∀ w, Packager.walkFn m pats rel false none (leaf.stat name) = .next w →
      (matchesAny m pats rel = true ∧ w = []) ∨
      (matchesAny m pats rel = false ∧
        ({ path := rel, under := under, item := .leaf leaf } : Located).unreadable = false ∧
        w = (({ path := rel, under := under, item := .leaf leaf } : Located).entry).toList) := by
  unfold Packager.walkFn
  simp only [if_neg hrel]
  cases hx : Packager.matchesExclude m rel pats with
  | error e => simp
  | ok b =>
    have hb := Packager.matchesExclude_ok m rel pats b hx
    cases b with
    | true => simp [hb]
    | false =>
      simp only [hb]
      rcases leaf with ⟨mode, content⟩ | ⟨target, pointee⟩ | ⟨kind, mode⟩
      · cases content <;>
          simp [Leaf.stat, tar.FileInfoHeader, Located.unreadable, Located.entry,
            filepath.ToSlash]
      · rcases pointee with _ | ⟨mode, content⟩ | ⟨mode⟩ | ⟨kind, mode⟩
        · simp [Leaf.stat, Located.unreadable, Located.entry]
        · cases content <;>
            simp [Leaf.stat, tar.FileInfoHeader, Located.unreadable, Located.entry,
              filepath.ToSlash]
        · simp [Leaf.stat, tar.FileInfoHeader, Located.unreadable, Located.entry,
            filepath.ToSlash]
        · cases kind <;>
            simp [Leaf.stat, tar.FileInfoHeader, Located.unreadable, Located.entry,
              filepath.ToSlash, specialEntry]
      · cases kind <;>
          simp [Leaf.stat, tar.FileInfoHeader, Located.unreadable, Located.entry,
            filepath.ToSlash, specialEntry]

/-- What the function given to `Walk` does for a directory. -/
theorem Packager.walkFn_dir (m : GoString → GoString → Except Err Bool)
    (pats : List GoString) (rel name : GoString) (under : List GoString) (mode : Nat)
    (readErr : Option Err) (hrel : rel ≠ ['.']) :
    (Packager.walkFn m pats rel true readErr
        (some ({ Name := name, kind := .dir, mode := mode }, .ok [])) = .skipDir →
      readErr = none ∧ matchesAny m pats rel = true) ∧
    ∀ w, Packager.walkFn m pats rel true readErr
        (some ({ Name := name, kind := .dir, mode := mode }, .ok [])) = .next w →
      readErr = none ∧ matchesAny m pats rel = false ∧
        w = (({ path := rel, under := under, item := .dir mode } : Located).entry).toList := by
  unfold Packager.walkFn
  cases readErr with
  | some e => simp
  | none =>
    simp only [if_neg hrel]
    cases hx : Packager.matchesExclude m rel pats with
    | error e => simp
    | ok b =>
      have hb := Packager.matchesExclude_ok m rel pats b hx
      cases b with
      | true => simp [hb]
      | false => simp [hb, tar.FileInfoHeader, Located.entry, filepath.ToSlash]

theorem filterMap_archived_excluded (m : GoString → GoString → Except Err Bool)
    (pats : List GoString) (ls : List Located) (d : GoString)
    (hd : matchesAny m pats d = true) (hu : ∀ l ∈ ls, d ∈ l.under) :
    ls.filterMap (Located.archived m pats) = [] ∧
    ∀ l ∈ ls, l.kept m pats = false := by
  have hk : ∀ l ∈ ls, l.kept m pats = false := by
    intro l hl
    unfold Located.kept
    have : l.under.all (fun d => !matchesAny m pats d) = false := by
      rw [List.all_eq_false]
      exact ⟨d, hu l hl, by simp [hd]⟩
    rw [this, Bool.and_false]
  refine ⟨?_, hk⟩
  rw [List.filterMap_eq_nil_iff]
  intro l hl
  unfold Located.archived
  rw [hk l hl]
  rfl

theorem Located.kept_of_under (m : GoString → GoString → Except Err Bool)
    (pats : List GoString) (path : GoString) (under : List GoString) (item : TreeItem)
    (hu : ∀ d ∈ under, matchesAny m pats d = false) :
    ({ path := path, under := under, item := item } : Located).kept m pats =
      !matchesAny m pats path := by
  unfold Located.kept
  have : under.all (fun d => !matchesAny m pats d) = true := by
    rw [List.all_eq_true]
    intro d hd
    simp [hu d hd]
  simp only [this, Bool.and_true]

/-- The walk writes, in order, the entries of the files it keeps, and a walk
that succeeds has met no kept file that cannot be archived. -/
theorem Packager.walkEntries_located (m : GoString → GoString → Except Err Bool)
    (pats : List GoString) (t : Tree) (dirRel : GoString) (under : List GoString)
    (es : List TarItem)
    (hn : dirRel = ['.'] → t.namesOk = true)
    (hu : ∀ d ∈ under, matchesAny m pats d = false)
    (h : Packager.walkEntries m pats dirRel t = .ok es) :
    es = (Tree.located dirRel under t).filterMap (Located.archived m pats) ∧
    ∀ l ∈ Tree.located dirRel under t, l.kept m pats = true → l.unreadable = false := by
  induction t generalizing dirRel under es with
  | nil =>
    simp only [Packager.walkEntries, Except.ok.injEq] at h
    subst h
    simp [Tree.located]
  | file name leaf rest ih =>
    have hrel : Packager.relChild dirRel name ≠ ['.'] := by
      apply Packager.relChild_ne_dot
      intro hd
      have := hn hd
      simp only [Tree.namesOk, Bool.and_eq_true, decide_eq_true_eq] at this
      exact this.1
    have hn2 : dirRel = ['.'] → rest.namesOk = true := by
      intro hd
      have := hn hd
      simp only [Tree.namesOk, Bool.and_eq_true, decide_eq_true_eq] at this
      exact this.2
    obtain ⟨hns, hnext⟩ := Packager.walkFn_leaf m pats (Packager.relChild dirRel name) name
      under leaf hrel
    unfold Packager.walkEntries at h
    cases hw : Packager.walkFn m pats (Packager.relChild dirRel name) false none
        (leaf.stat name) with
    | fail e => rw [hw] at h; simp at h
    | skipDir => exact absurd hw hns
    | next w =>
      rw [hw] at h
      simp only [] at h
      cases hr : Packager.walkEntries m pats dirRel rest with
      | error e => rw [hr] at h; simp at h
      | ok more =>
        rw [hr] at h
        simp only [Except.ok.injEq] at h
        obtain ⟨ih1, ih2⟩ := ih dirRel under more hn2 hu hr
        have hk := Located.kept_of_under m pats (Packager.relChild dirRel name) under
          (.leaf leaf) hu
        rcases hnext w hw with ⟨hm, hw0⟩ | ⟨hm, hread, hw1⟩
        · constructor
          · rw [← h, hw0, ih1]
            simp [Tree.located, Located.archived, hk, hm]
          · intro l hl hkept
            simp only [Tree.located, List.mem_cons] at hl
            rcases hl with rfl | hl
            · rw [hk, hm] at hkept
              simp at hkept
            · exact ih2 l hl hkept
        · constructor
          · rw [← h, hw1, ih1]
            simp only [Tree.located, List.filterMap_cons, Located.archived, hk, hm]
            generalize Located.entry _ = oe
            cases oe <;> simp
          · intro l hl hkept
            simp only [Tree.located, List.mem_cons] at hl
            rcases hl with rfl | hl
            · exact hread
            · exact ih2 l hl hkept
  | dir name mode readErr children rest ihc ihr =>
    have hrel : Packager.relChild dirRel name ≠ ['.'] := by
      apply Packager.relChild_ne_dot
      intro hd
      have := hn hd
      simp only [Tree.namesOk, Bool.and_eq_true, decide_eq_true_eq] at this
      exact this.1
    have hn2 : dirRel = ['.'] → rest.namesOk = true := by
      intro hd
      have := hn hd
      simp only [Tree.namesOk, Bool.and_eq_true, decide_eq_true_eq] at this
      exact this.2
    obtain ⟨hskip, hnext⟩ := Packager.walkFn_dir m pats (Packager.relChild dirRel name) name
      under mode readErr hrel
    have hk := Located.kept_of_under m pats (Packager.relChild dirRel name) under
      (.dir mode) hu
    unfold Packager.walkEntries at h
    cases hw : Packager.walkFn m pats (Packager.relChild dirRel name) true readErr
        (some ({ Name := name, kind := .dir, mode := mode }, .ok [])) with
    | fail e => rw [hw] at h; simp at h
    | skipDir =>
      rw [hw] at h
      simp only [] at h
      obtain ⟨_, hm⟩ := hskip hw
      obtain ⟨ih1, ih2⟩ := ihr dirRel under es hn2 hu h
      obtain ⟨hc1, hc2⟩ := filterMap_archived_excluded m pats
        (Tree.located (Packager.relChild dirRel name)
          (under ++ [Packager.relChild dirRel name]) children)
        (Packager.relChild dirRel name) hm
        (fun l hl => Tree.located_under children _ _ l hl _ (by simp))
      constructor
      · rw [ih1]
        simp only [Tree.located, List.filterMap_cons, List.filterMap_append, hc1,
          List.nil_append]
        simp [Located.archived, hk, hm]
      · intro l hl hkept
        simp only [Tree.located, List.mem_cons, List.mem_append] at hl
        rcases hl with rfl | hl | hl
        · rfl
        · rw [hc2 l hl] at hkept
          simp at hkept
        · exact ih2 l hl hkept
    | next w =>
      rw [hw] at h
      simp only [] at h
      obtain ⟨hre, hm, hw1⟩ := hnext w hw
      subst hre
      simp only [Option.isSome_none, Bool.false_eq_true, if_false] at h
      cases hcw : Packager.walkEntries m pats (Packager.relChild dirRel name) children with
      | error e => rw [hcw] at h; simp at h
      | ok below =>
        rw [hcw] at h
        simp only [] at h
        cases hr : Packager.walkEntries m pats dirRel rest with
        | error e => rw [hr] at h; simp at h
        | ok more =>
          rw [hr] at h
          simp only [Except.ok.injEq] at h
          have hu2 : ∀ d ∈ under ++ [Packager.relChild dirRel name],
              matchesAny m pats d = false := by
            intro d hd
            rcases List.mem_append.mp hd with hd | hd
            · exact hu d hd
            · rw [List.mem_singleton.mp hd]
              exact hm
          obtain ⟨ic1, ic2⟩ := ihc (Packager.relChild dirRel name)
            (under ++ [Packager.relChild dirRel name]) below
            (fun hd => absurd hd hrel) hu2 hcw
          obtain ⟨ir1, ir2⟩ := ihr dirRel under more hn2 hu hr
          constructor
          · rw [← h, hw1, ic1, ir1]
            simp [Tree.located, Located.archived, hk, hm, Located.entry]
          · intro l hl hkept
            simp only [Tree.located, List.mem_cons, List.mem_append] at hl
            rcases hl with rfl | hl | hl
            · rfl
            · exact ic2 l hl hkept
            · exact ir2 l hl hkept

theorem Packager.createSourceArchive_ok (m : GoString → GoString → Except Err Bool)
    (tree : Tree) (pats : List GoString) :
    Packager.createSourceArchive m (.ok tree) pats = Packager.walkEntries m pats ['.'] tree := by
  unfold Packager.createSourceArchive Packager.walkFn
  simp only [if_true, List.nil_append]
  cases Packager.walkEntries m pats ['.'] tree <;> rfl

/-- The walk succeeds on a tree that can be read when no pattern is malformed. -/
theorem Packager.walkEntries_total (m : GoString → GoString → Except Err Bool)
    (pats : List GoString) (t : Tree) (dirRel : GoString)
    (hr : t.readable = true) (hm : ∀ p ∈ pats, ∀ path, ∃ b, m p path = .ok b) :
    ∃ es, Packager.walkEntries m pats dirRel t = .ok es := by
  induction t generalizing dirRel with
  | nil => exact ⟨[], rfl⟩
  | file name leaf rest ih =>
    simp only [Tree.readable, Bool.and_eq_true] at hr
    obtain ⟨more, hmore⟩ := ih dirRel hr.2
    obtain ⟨b, hb⟩ := Packager.matchesExclude_total m (Packager.relChild dirRel name) pats
      (fun p hp => hm p hp _)
    have hleaf := hr.1
    unfold Packager.walkEntries
    rw [hmore]
    unfold Packager.walkFn
    simp only [hb]
    by_cases hdot : Packager.relChild dirRel name = ['.']
    · simp [hdot]
    · simp only [if_neg hdot]
      cases b with
      | true => simp
      | false =>
        simp only []
        rcases leaf with ⟨mode, content⟩ | ⟨target, pointee⟩ | ⟨kind, mode⟩
        · cases content <;> simp [Leaf.stat, tar.FileInfoHeader] at hleaf ⊢
        · rcases pointee with _ | ⟨mode, content⟩ | ⟨mode⟩ | ⟨kind, mode⟩
          · simp [Leaf.stat]
          · cases content <;> simp [Leaf.stat, tar.FileInfoHeader] at hleaf ⊢
          · simp [Leaf.stat, tar.FileInfoHeader]
          · cases kind <;> simp [Leaf.stat, tar.FileInfoHeader] at hleaf ⊢
        · cases kind <;> simp [Leaf.stat, tar.FileInfoHeader] at hleaf ⊢
  | dir name mode readErr children rest ihc ihr =>
    simp only [Tree.readable, Bool.and_eq_true, Option.isNone_iff_eq_none] at hr
    obtain ⟨⟨hre, hc⟩, hrest⟩ := hr
    subst hre
    obtain ⟨more, hmore⟩ := ihr dirRel hrest
    obtain ⟨below, hbelow⟩ := ihc (Packager.relChild dirRel name) hc
    obtain ⟨b, hb⟩ := Packager.matchesExclude_total m (Packager.relChild dirRel name) pats
      (fun p hp => hm p hp _)
    unfold Packager.walkEntries
    rw [hmore, hbelow]
    unfold Packager.walkFn
    simp only [hb]
    by_cases hdot : Packager.relChild dirRel name = ['.']
    · simp [hdot]
    · simp only [if_neg hdot]
      cases b with
      | true => simp
      | false => simp [tar.FileInfoHeader]

theorem Located.kept_nil (m : GoString → GoString → Except Err Bool) (l : Located) :
    l.kept m [] = true := by
  simp [Located.kept, matchesAny]

/-- The names of the regular-file entries among the entries of the kept
files. -/
theorem regularNames_archived (m : GoString → GoString → Except Err Bool)
    (pats : List GoString) (ls : List Located)
    (hr : ∀ l ∈ ls, l.kept m pats = true → l.unreadable = false) :
    regularNames (ls.filterMap (Located.archived m pats)) =
      (ls.filter (fun l => l.kept m pats && (l.isRegularFile || l.isLinkToRegular))).map
        (fun l => l.path) := by
  induction ls with
  | nil => rfl
  | cons l rest ih =>
    have ih2 := ih (fun x hx => hr x (List.mem_cons_of_mem _ hx))
    have hl := hr l (List.mem_cons_self _ _)
    by_cases hk : l.kept m pats = true
    · have hu := hl hk
      obtain ⟨path, under, item⟩ := l
      rcases item with ⟨⟨mode, content⟩ | ⟨target, pointee⟩ | ⟨kind, mode⟩⟩ | ⟨mode⟩
      · cases content with
        | error e => simp [Located.unreadable] at hu
        | ok c =>
          simp [List.filterMap_cons, Located.archived, hk, Located.entry, regularNames,
            Located.isRegularFile, ih2]
      · rcases pointee with _ | ⟨mode, content⟩ | ⟨mode⟩ | ⟨kind, mode⟩
        · simp [List.filterMap_cons, Located.archived, hk, Located.entry, regularNames,
            Located.isRegularFile, Located.isLinkToRegular, ih2]
        · cases content with
          | error e => simp [Located.unreadable] at hu
          | ok c =>
            simp [List.filterMap_cons, Located.archived, hk, Located.entry, regularNames,
              Located.isRegularFile, Located.isLinkToRegular, ih2]
        · simp [List.filterMap_cons, Located.archived, hk, Located.entry, regularNames,
            Located.isRegularFile, Located.isLinkToRegular, ih2]
        · cases kind <;>
            simp [List.filterMap_cons, Located.archived, hk, Located.entry, regularNames,
              Located.isRegularFile, Located.isLinkToRegular, specialEntry, ih2,
              Located.unreadable] at hu ⊢
      · cases kind <;>
          simp [List.filterMap_cons, Located.archived, hk, Located.entry, regularNames,
            Located.isRegularFile, Located.isLinkToRegular, specialEntry, ih2,
            Located.unreadable] at hu ⊢
      · simp [List.filterMap_cons, Located.archived, hk, Located.entry, regularNames,
          Located.isRegularFile, Located.isLinkToRegular, ih2]
    · simp [List.filterMap_cons, Located.archived, hk, ih2]


/-- C23 as stated fails: for a source directory with the regular file `a.txt`
and the symbolic link `link` to it, and no exclusion pattern, the archive of
`createSourceArchive` has the two regular-file entries `a.txt` and `link`,
while the only regular file of the tree is `a.txt`. -/
theorem C23_link_to_regular_file_counterexample :
    Packager.createSourceArchive Packager.literalMatch (.ok Packager.sampleTreeLink) [] =
      .ok [.entry { Name := "a.txt".toList, Typeflag := .TypeReg, Linkname := [],
                    Mode := 0o644 } [104, 105],
           .entry { Name := "link".toList, Typeflag := .TypeReg, Linkname := [],
                    Mode := 0o644 } [104, 105]] ∧
    regularNames
      [.entry { Name := "a.txt".toList, Typeflag := .TypeReg, Linkname := [],
                Mode := 0o644 } [104, 105],
       .entry { Name := "link".toList, Typeflag := .TypeReg, Linkname := [],
                Mode := 0o644 } [104, 105]] = ["a.txt".toList, "link".toList] ∧
    ((Tree.located ['.'] [] Packager.sampleTreeLink).filter
      (fun l => l.kept Packager.literalMatch [] && l.isRegularFile)).map (fun l => l.path) =
      ["a.txt".toList] ∧
    ["a.txt".toList, "link".toList] ≠ ["a.txt".toList] := by
  refine ⟨rfl, by decide, by decide, by decide⟩

/-- C23, amended: for every source tree (no entry of the source directory
being named `.`) and every list of exclusion patterns, whenever
`createSourceArchive` returns an archive, the names of its regular-file
entries are, in the order of the walk, exactly the root-relative
`/`-separated paths of the regular files of the tree, and of its symbolic
links that resolve to a regular file, whose path matches no pattern and that
lie under no directory whose path matches one; with an empty list these are
all of them. It does return an archive when the tree can be read and no
pattern is malformed. -/
theorem C23_regular_entries_with_followed_links
    (m : GoString → GoString → Except Err Bool) (tree : Tree) (pats : List GoString)
    (hn : tree.namesOk = true) :
    (tree.readable = true → (∀ p ∈ pats, ∀ path, ∃ b, m p path = .ok b) →
      ∃ es, Packager.createSourceArchive m (.ok tree) pats = .ok es) ∧
    (∀ es, Packager.createSourceArchive m (.ok tree) pats = .ok es →
      regularNames es =
        ((Tree.located ['.'] [] tree).filter
          (fun l => l.kept m pats && (l.isRegularFile || l.isLinkToRegular))).map
          (fun l => l.path)) ∧
    (∀ es, Packager.createSourceArchive m (.ok tree) [] = .ok es →
      regularNames es =
        ((Tree.located ['.'] [] tree).filter
          (fun l => l.isRegularFile || l.isLinkToRegular)).map (fun l => l.path)) := by
  have key : ∀ ps es, Packager.createSourceArchive m (.ok tree) ps = .ok es →
      regularNames es =
        ((Tree.located ['.'] [] tree).filter
          (fun l => l.kept m ps && (l.isRegularFile || l.isLinkToRegular))).map
          (fun l => l.path) := by
    intro ps es h
    rw [Packager.createSourceArchive_ok] at h
    obtain ⟨h1, h2⟩ := Packager.walkEntries_located m ps tree ['.'] [] es (fun _ => hn)
      (fun d hd => absurd hd (List.not_mem_nil d)) h
    rw [h1]
    exact regularNames_archived m ps _ h2
  refine ⟨?_, key pats, ?_⟩
  · intro hr hm
    rw [Packager.createSourceArchive_ok]
    exact Packager.walkEntries_total m pats tree ['.'] hr hm
  · intro es h
    rw [key [] es h]
    congr 1
    apply List.filter_congr
    intro l _
    rw [Located.kept_nil, Bool.true_and]

/-- Witness of the amended C23 on the tree of the repository's test with the
pattern `.venv`: the archive is made and its regular-file entries are
`file1.txt` and `subdir/file2.txt`. -/
theorem C23_regular_entries_with_followed_links_witness :
    Packager.sampleTreeTest.namesOk = true ∧
    (∃ es, Packager.createSourceArchive Packager.literalMatch (.ok Packager.sampleTreeTest)
      [".venv".toList] = .ok es ∧
      regularNames es =
        ((Tree.located ['.'] [] Packager.sampleTreeTest).filter
          (fun l => l.kept Packager.literalMatch [".venv".toList] &&
            (l.isRegularFile || l.isLinkToRegular))).map (fun l => l.path)) ∧
    ((Tree.located ['.'] [] Packager.sampleTreeTest).filter
      (fun l => l.kept Packager.literalMatch [".venv".toList] &&
        (l.isRegularFile || l.isLinkToRegular))).map (fun l => l.path) =
      ["file1.txt".toList, "subdir/file2.txt".toList] := by
  have h := C23_regular_entries_with_followed_links Packager.literalMatch
    Packager.sampleTreeTest [".venv".toList] (by decide)
  obtain ⟨es, hes⟩ := h.1 (by decide) (fun p _ path => ⟨_, rfl⟩)
  exact ⟨by decide, ⟨es, hes, h.2.1 es hes⟩, by decide⟩

/-- C24 as stated fails: for a source directory with the directory `d` of
mode 0700, the named pipe `fifo` and the symbolic link `link` to the regular
file `/etc/hostname`, the archive records `d` with mode 0700, not 0755, has
an entry for the named pipe, and records `link` as a regular file with the
contents of `/etc/hostname` and no link target. -/
theorem C24_kinds_counterexample :
    Packager.createSourceArchive Packager.literalMatch (.ok Packager.sampleTreeKinds) [] =
      .ok [.entry { Name := "d".toList, Typeflag := .TypeDir, Linkname := [],
                    Mode := 0o700 } [],
           .entry { Name := "fifo".toList, Typeflag := .other, Linkname := [],
                    Mode := 0o644 } [],
           .entry { Name := "link".toList, Typeflag := .TypeReg, Linkname := [],
                    Mode := 0o644 } [104]] ∧
    (0o700 : Nat) ≠ 0o755 ∧ Typeflag.TypeReg ≠ Typeflag.TypeSymlink ∧
    ([] : GoString) ≠ "/etc/hostname".toList := by
  refine ⟨rfl, by decide, by decide, by decide⟩

/-- C24, amended: for every source tree and every list of exclusion patterns,
whenever `createSourceArchive` returns an archive, its entries are, in the
order of the walk, those of the kept files of the tree, each under its
root-relative path: a regular file as a regular-file entry with its mode from
stat and its contents; a directory as a directory entry with its mode from
stat; a symbolic link as the entry of the file it resolves to (a regular-file
entry with that file's mode and contents, a directory entry with its mode),
and no entry when it is dangling; a named pipe or device as an entry without
contents. No entry is a symlink entry and no entry stores a link target. -/
theorem C24_entries_follow_links (m : GoString → GoString → Except Err Bool) (tree : Tree)
    (pats : List GoString) (es : List TarItem) (hn : tree.namesOk = true)
    (h : Packager.createSourceArchive m (.ok tree) pats = .ok es) :
    es = (Tree.located ['.'] [] tree).filterMap (Located.archived m pats) ∧
    (∀ header content, TarItem.entry header content ∈ es →
      header.Typeflag ≠ .TypeSymlink ∧ header.Linkname = []) ∧
    (∀ l ∈ Tree.located ['.'] [] tree, l.kept m pats = true →
      (∀ mode content, l.item = .leaf (.regular mode content) →
        ∃ c, content = .ok c ∧
          TarItem.entry { Name := l.path, Typeflag := .TypeReg, Linkname := [], Mode := mode }
            c ∈ es) ∧
      (∀ mode, l.item = .dir mode →
        TarItem.entry { Name := l.path, Typeflag := .TypeDir, Linkname := [], Mode := mode }
          [] ∈ es) ∧
      (∀ target mode content, l.item = .leaf (.symlink target (some (.regular mode content))) →
        ∃ c, content = .ok c ∧
          TarItem.entry { Name := l.path, Typeflag := .TypeReg, Linkname := [], Mode := mode }
            c ∈ es)) := by
  rw [Packager.createSourceArchive_ok] at h
  obtain ⟨h1, h2⟩ := Packager.walkEntries_located m pats tree ['.'] [] es (fun _ => hn)
    (fun d hd => absurd hd (List.not_mem_nil d)) h
  refine ⟨h1, ?_, ?_⟩
  · intro header content hmem
    rw [h1, List.mem_filterMap] at hmem
    obtain ⟨l, _, hl⟩ := hmem
    unfold Located.archived at hl
    split at hl
    swap
    · simp at hl
    obtain ⟨path, under, item⟩ := l
    rcases item with ⟨⟨mode, c⟩ | ⟨target, pointee⟩ | ⟨kind, mode⟩⟩ | ⟨mode⟩
    · cases c <;> simp [Located.entry] at hl
      obtain ⟨rfl, _⟩ := hl
      exact ⟨by simp, rfl⟩
    · rcases pointee with _ | ⟨mode, c⟩ | ⟨mode⟩ | ⟨kind, mode⟩
      · simp [Located.entry] at hl
      · cases c <;> simp [Located.entry] at hl
        obtain ⟨rfl, _⟩ := hl
        exact ⟨by simp, rfl⟩
      · simp [Located.entry] at hl
        obtain ⟨rfl, _⟩ := hl
        exact ⟨by simp, rfl⟩
      · cases kind <;> simp [Located.entry, specialEntry] at hl <;>
          (obtain ⟨rfl, _⟩ := hl; exact ⟨by simp, rfl⟩)
    · cases kind <;> simp [Located.entry, specialEntry] at hl <;>
        (obtain ⟨rfl, _⟩ := hl; exact ⟨by simp, rfl⟩)
    · simp [Located.entry] at hl
      obtain ⟨rfl, _⟩ := hl
      exact ⟨by simp, rfl⟩
  · intro l hl hk
    have hu := h2 l hl hk
    have hin : ∀ e, l.entry = some e → e ∈ es := by
      intro e he
      rw [h1, List.mem_filterMap]
      exact ⟨l, hl, by simp [Located.archived, hk, he]⟩
    obtain ⟨path, under, item⟩ := l
    refine ⟨?_, ?_, ?_⟩
    · intro mode content hitem
      simp only at hitem
      subst hitem
      cases content with
      | error e => simp [Located.unreadable] at hu
      | ok c => exact ⟨c, rfl, hin _ rfl⟩
    · intro mode hitem
      simp only at hitem
      subst hitem
      exact hin _ rfl
    · intro target mode content hitem
      simp only at hitem
      subst hitem
      cases content with
      | error e => simp [Located.unreadable] at hu
      | ok c => exact ⟨c, rfl, hin _ rfl⟩

/-- Witness of the amended C24 on the tree with a directory of mode 0700, a
named pipe and a link to a regular file. -/
theorem C24_entries_follow_links_witness :
    Packager.sampleTreeKinds.namesOk = true ∧
    Packager.createSourceArchive Packager.literalMatch (.ok Packager.sampleTreeKinds) [] =
      .ok [.entry { Name := "d".toList, Typeflag := .TypeDir, Linkname := [],
                    Mode := 0o700 } [],
           .entry { Name := "fifo".toList, Typeflag := .other, Linkname := [],
                    Mode := 0o644 } [],
           .entry { Name := "link".toList, Typeflag := .TypeReg, Linkname := [],
                    Mode := 0o644 } [104]] ∧
    [.entry { Name := "d".toList, Typeflag := .TypeDir, Linkname := [], Mode := 0o700 } [],
     .entry { Name := "fifo".toList, Typeflag := .other, Linkname := [], Mode := 0o644 } [],
     .entry { Name := "link".toList, Typeflag := .TypeReg, Linkname := [],
              Mode := 0o644 } [104]] =
      (Tree.located ['.'] [] Packager.sampleTreeKinds).filterMap
        (Located.archived Packager.literalMatch []) :=
  ⟨by decide, rfl,
    (C24_entries_follow_links Packager.literalMatch Packager.sampleTreeKinds [] _ (by decide)
      rfl).1⟩


/-! ## The manifest (C28) -/

/-- The manifest `preparePayloadArtifacts` writes: the resolver hash it was
given, and one entry, for `config.json`, exactly when the config is not
empty. -/
theorem Packager.manifestData_fields (sha256 : Bytes → Bytes) (cfg : Bytes) (uv : GoString) :
    (Packager.manifestData sha256 cfg uv).UvBinarySha256 = uv ∧
    (cfg ≠ [] → (Packager.manifestData sha256 cfg uv).Files =
      [{ PathInArchive := "config.json".toList, Sha256 := hexEncode (sha256 cfg),
         ArchiveContainer := "metadata.tgz".toList }]) ∧
    (cfg = [] → (Packager.manifestData sha256 cfg uv).Files = []) := by
  refine ⟨rfl, ?_, ?_⟩
  · intro h
    have : cfg.length > 0 := List.length_pos.mpr h
    simp [Packager.manifestData, this]
  · intro h
    simp [Packager.manifestData, h]

/-- Once `manifests.json` was extracted and parsed, the manifest check passes
exactly when its `uv_binary_sha256` is the hex SHA-256 of the resolver
section. -/
theorem Packager.verifyManifest_parsed (env : VerifyEnv) (metadataTgz : List TarItem)
    (uvBinBytes : Bytes) (dir : GoString) (files : List GoString) (ops : List FsOp)
    (b : Bytes) (mf : Manifests)
    (hdir : env.mkdirTemp = .ok dir)
    (hun : Packager.unTar env.fs metadataTgz dir = (.ok files, ops))
    (hfile : fileAfter (filepath.Join dir "manifests.json".toList) ops = some b)
    (hjson : env.jsonUnmarshal b = .ok mf) :
    Packager.verifyManifest env metadataTgz uvBinBytes = .ok () ↔
      mf.UvBinarySha256 = hexEncode (env.sha256 uvBinBytes) := by
  unfold Packager.verifyManifest
  simp only [hdir, hun, hfile, hjson]
  by_cases h : mf.UvBinarySha256 = hexEncode (env.sha256 uvBinBytes)
  · simp [h]
  · simp [h]

/-- C28, the code at the failing input: a build with `--exclude
manifests.json` (resolver `UV`, the default `config.json`) applies the
pattern to the metadata assembly directory too, so the metadata archive it
makes holds `config.json` only, and the manifest check of the verify command
on that archive and the resolver section fails at reading `manifests.json`.
The manifest it had written does carry the hex SHA-256 of the resolver and
the one entry of `config.json`, and the same build without the pattern
passes the check. -/
theorem C28_excluded_manifest_fails_verify :
    Packager.buildArtifacts Packager.sampleArtifactEnv [85, 86] [123, 125]
        ["manifests.json".toList] =
      .ok ([], [.entry { Name := "config.json".toList, Typeflag := .TypeReg, Linkname := [],
                         Mode := 0o644 } [123, 125]]) ∧
    Packager.verifyManifest Packager.sampleVerifyEnv
        [.entry { Name := "config.json".toList, Typeflag := .TypeReg, Linkname := [],
                  Mode := 0o644 } [123, 125]] [85, 86] =
      .error (.ioError "Failed to read manifests.json") ∧
    Packager.manifestData Packager.sampleArtifactEnv.sha256 [123, 125]
        (hexEncode (Packager.sampleArtifactEnv.sha256 [85, 86])) =
      { UvBinarySha256 := "abcd".toList
        Files := [{ PathInArchive := "config.json".toList, Sha256 := "abcd".toList,
                    ArchiveContainer := "metadata.tgz".toList }] } ∧
    Packager.buildArtifacts Packager.sampleArtifactEnv [85, 86] [123, 125] [] =
      .ok ([], [.entry { Name := "config.json".toList, Typeflag := .TypeReg, Linkname := [],
                         Mode := 0o644 } [123, 125],
                .entry { Name := "manifests.json".toList, Typeflag := .TypeReg,
                         Linkname := [], Mode := 0o644 } [97, 98, 99, 100]]) ∧
    Packager.verifyManifest Packager.sampleVerifyEnv
        [.entry { Name := "config.json".toList, Typeflag := .TypeReg, Linkname := [],
                  Mode := 0o644 } [123, 125],
         .entry { Name := "manifests.json".toList, Typeflag := .TypeReg, Linkname := [],
                  Mode := 0o644 } [97, 98, 99, 100]] [85, 86] = .ok () := by
  refine ⟨rfl, rfl, by decide, rfl, rfl⟩

end PSPF
